import Mathlib

set_option maxRecDepth 1024

/-
  Verification development for the KLang compiler pipeline
  (tokenizer -> parser -> interpreter -> module loader).

  The TypeScript sources are shallowly embedded:
  * JavaScript numbers are modelled as exact rationals; a non-finite
    result (NaN, and the infinities, which are collapsed into it) is
    represented by the `none` case of `JsNum`.  Double-precision
    rounding is not modelled; every computation exercised by the
    theorems below stays within small exact values.
  * JavaScript objects are mutable and aliased, so they live in an
    explicit heap; a `Value.ref` is an object handle (heap address),
    and handle equality is JavaScript reference equality.  Arrays are
    embedded as immutable values because the interpreter never mutates
    an array in place.
  * Thrown JavaScript exceptions are modelled with `Except`; the error
    carries the message together with the state at the throw point,
    since partial side effects survive a caught exception.
-/

namespace Klang

/-- JS number: `some q` is a finite value, `none` a non-finite one
    (NaN; infinities are collapsed into this case as well). -/
abbrev JsNum := Option ℚ

/-- Runtime values.  `ref` is a heap address of a mutable object. -/
inductive Value where
  | undefined : Value
  | null : Value
  | bool (b : Bool) : Value
  | num (n : JsNum) : Value
  | str (s : String) : Value
  | arr (elems : List Value) : Value
  | ref (a : Nat) : Value
deriving Repr

/-- A mutable JS object: insertion-ordered association list of fields. -/
abbrev JsObj := List (String × Value)

/-- The heap: address = list index, allocation appends. -/
abbrev Heap := List JsObj

/-- Lookup in an insertion-ordered string map. -/
def jget (m : List (String × Value)) (k : String) : Option Value :=
  match m with
  | [] => none
  | (k1, v) :: rest => if k1 = k then some v else jget rest k

/-- Lookup defaulting to JS `undefined` for a missing key. -/
def jgetD (m : List (String × Value)) (k : String) : Value :=
  (jget m k).getD .undefined

/-- JS object assignment: overwrite in place or append a new key. -/
def jset (m : List (String × Value)) (k : String) (v : Value) :
    List (String × Value) :=
  match m with
  | [] => [(k, v)]
  | (k1, v1) :: rest => if k1 = k then (k, v) :: rest else (k1, v1) :: jset rest k v

def heapGet (h : Heap) (a : Nat) : JsObj := (h.get? a).getD []

def heapSet (h : Heap) (a : Nat) (o : JsObj) : Heap := h.set a o

/-- Interpreter state: scope, scene graph, logs, errors and the heap of
    mutable objects.  This is exactly the mutable environment of the
    `interpret` closure in interpreter.ts. -/
structure InterpSt where
  scope : List (String × Value)
  sceneGraph : List (String × Value)
  logs : List String
  errors : List String
  heap : Heap
deriving Repr

def pushError (st : InterpSt) (msg : String) : InterpSt :=
  { st with errors := st.errors ++ [msg] }

def pushLog (st : InterpSt) (msg : String) : InterpSt :=
  { st with logs := st.logs ++ [msg] }

/-- Allocate a fresh object, returning its address. -/
def alloc (st : InterpSt) (o : JsObj) : Value × InterpSt :=
  (.ref st.heap.length, { st with heap := st.heap ++ [o] })

/-- Read a field of a heap object through its address. -/
def readField (st : InterpSt) (a : Nat) (k : String) : Value :=
  jgetD (heapGet st.heap a) k

/-- Write a field of a heap object through its address. -/
def writeField (st : InterpSt) (a : Nat) (k : String) (v : Value) : InterpSt :=
  { st with heap := heapSet st.heap a (jset (heapGet st.heap a) k v) }

/-- JS truthiness.  (A non-finite number is treated as falsy, which is
    exact for NaN; an infinity would be truthy in JS, but infinities are
    collapsed into the non-finite case and never arise in the claims.) -/
def truthy : Value → Bool
  | .undefined => false
  | .null => false
  | .bool b => b
  | .num none => false
  | .num (some q) => q != 0
  | .str s => s != ""
  | .arr _ => true
  | .ref _ => true

/-- Digit run to natural number. -/
def digitsVal (cs : List Char) : Nat :=
  cs.foldl (fun acc c => acc * 10 + (c.toNat - 48)) 0

def isDigit (c : Char) : Bool := '0' ≤ c ∧ c ≤ '9'

def isSpaceChar (c : Char) : Bool :=
  c = ' ' ∨ c = '\n' ∨ c = '\t' ∨ c = '\r'

/-- Model of JS Number(string): trimmed; empty string is 0; otherwise an
    optional sign, digits with at most one dot, consuming the whole
    string, else NaN.  (Hex and exponent forms are not modelled; no
    claim exercises them.) -/
def parseNumberString (s : String) : JsNum :=
  let cs := (s.toList.dropWhile isSpaceChar).reverse.dropWhile isSpaceChar |>.reverse
  if cs = [] then some 0 else
  let (sign, cs1) : ℚ × List Char :=
    match cs with
    | '-' :: rest => (-1, rest)
    | '+' :: rest => (1, rest)
    | _ => (1, cs)
  let intPart := cs1.takeWhile isDigit
  let rest1 := cs1.dropWhile isDigit
  match rest1 with
  | [] => if intPart = [] then none else some (sign * digitsVal intPart)
  | '.' :: fracCs =>
      if fracCs.all isDigit ∧ (intPart ≠ [] ∨ fracCs ≠ []) then
        some (sign * ((digitsVal intPart : ℚ) +
          (digitsVal fracCs : ℚ) / ((10 : ℚ) ^ fracCs.length)))
      else none
  | _ => none

/-- Model of JS parseFloat(string): skip leading whitespace, optional
    sign, then the longest prefix of digits with at most one dot; NaN if
    no digit was consumed.  (Exponents are not modelled.) -/
def jsParseFloat (s : String) : JsNum :=
  let cs := s.toList.dropWhile isSpaceChar
  let (sign, cs1) : ℚ × List Char :=
    match cs with
    | '-' :: rest => (-1, rest)
    | '+' :: rest => (1, rest)
    | _ => (1, cs)
  let intPart := cs1.takeWhile isDigit
  let rest1 := cs1.dropWhile isDigit
  match rest1 with
  | '.' :: fracCs =>
      let fracPart := fracCs.takeWhile isDigit
      if intPart = [] ∧ fracPart = [] then none
      else some (sign * ((digitsVal intPart : ℚ) +
        (digitsVal fracPart : ℚ) / ((10 : ℚ) ^ fracPart.length)))
  | _ => if intPart = [] then none else some (sign * digitsVal intPart)

/-- Decimal display of a rational, as a model of JS number printing:
    integers print exactly; other values print with up to twelve
    fractional digits, trailing zeros trimmed.  Only log text depends on
    this. -/
def ratFracDigits : Nat → ℚ → List Char
  | 0, _ => []
  | n + 1, q =>
      let q10 := q * 10
      let d : ℤ := ⌊q10⌋
      let c := Char.ofNat (48 + d.toNat)
      let rest := q10 - (d : ℚ)
      if rest = 0 then [c] else c :: ratFracDigits n rest

def ratToDisplay (q : ℚ) : String :=
  let sign := if q < 0 then "-" else ""
  let p := if q < 0 then -q else q
  let ip : ℤ := ⌊p⌋
  let frac := p - (ip : ℚ)
  if frac = 0 then sign ++ toString ip.toNat
  else sign ++ toString ip.toNat ++ "." ++ String.mk (ratFracDigits 12 frac)

mutual
/-- Model of JS String(v) for our values. -/
def jsToString : Value → String
  | .undefined => "undefined"
  | .null => "null"
  | .bool b => if b then "true" else "false"
  | .num none => "NaN"
  | .num (some q) => ratToDisplay q
  | .str s => s
  | .arr l => jsToStringList l
  | .ref _ => "[object Object]"
def jsToStringList : List Value → String
  | [] => ""
  | [v] => jsToString v
  | v :: rest => jsToString v ++ "," ++ jsToStringList rest
end

/-- JS ToPrimitive for our values: objects and arrays convert via their
    string form, primitives are themselves. -/
def toPrim (v : Value) : Value :=
  match v with
  | .ref _ => .str (jsToString v)
  | .arr _ => .str (jsToString v)
  | _ => v

/-- JS ToNumber. -/
def toNumber (v : Value) : JsNum :=
  match v with
  | .undefined => none
  | .null => some 0
  | .bool b => some (if b then 1 else 0)
  | .num n => n
  | .str s => parseNumberString s
  | .arr l => parseNumberString (jsToStringList l)
  | .ref _ => none

/-- JS binary + : string concatenation if either primitive is a string,
    numeric addition otherwise. -/
def jsAdd (a b : Value) : Value :=
  match toPrim a, toPrim b with
  | .str s, p => .str (s ++ jsToString p)
  | p, .str s => .str (jsToString p ++ s)
  | pa, pb =>
      .num (match toNumber pa, toNumber pb with
            | some x, some y => some (x + y)
            | _, _ => none)

def jsNumBin (f : ℚ → ℚ → JsNum) (a b : Value) : Value :=
  .num (match toNumber (toPrim a), toNumber (toPrim b) with
        | some x, some y => f x y
        | _, _ => none)

def jsSub : Value → Value → Value := jsNumBin (fun x y => some (x - y))
def jsMul : Value → Value → Value := jsNumBin (fun x y => some (x * y))

/-- JS division; division by zero gives a non-finite result (JS would
    give an infinity or NaN, collapsed here). -/
def jsDiv : Value → Value → Value :=
  jsNumBin (fun x y => if y = 0 then none else some (x / y))

/-- Truncation toward zero. -/
def ratTrunc (q : ℚ) : ℚ :=
  if q < 0 then -(((⌊-q⌋ : ℤ) : ℚ)) else ((⌊q⌋ : ℤ) : ℚ)

/-- JS remainder: sign of the dividend, truncated division. -/
def jsMod : Value → Value → Value :=
  jsNumBin (fun x y => if y = 0 then none else some (x - y * ratTrunc (x / y)))

/-- JS relational comparison core: strings compare lexicographically,
    everything else numerically with NaN making the comparison false. -/
def jsCmp (fs : String → String → Bool) (fq : ℚ → ℚ → Bool)
    (a b : Value) : Bool :=
  match toPrim a, toPrim b with
  | .str s1, .str s2 => fs s1 s2
  | pa, pb =>
      match toNumber pa, toNumber pb with
      | some x, some y => fq x y
      | _, _ => false

def jsLtB : Value → Value → Bool := jsCmp (fun a b => a < b) (fun a b => a < b)
def jsGtB : Value → Value → Bool := jsCmp (fun a b => b < a) (fun a b => b < a)
def jsLeB : Value → Value → Bool := jsCmp (fun a b => a ≤ b) (fun a b => a ≤ b)
def jsGeB : Value → Value → Bool := jsCmp (fun a b => b ≤ a) (fun a b => b ≤ a)

/-- JS loose equality (==) on our values.  Heap addresses model object
    identity, so ref/ref comparison is reference equality.  Two array
    values compare unequal, matching JS for distinct array objects (the
    embedding cannot express two aliases of one array, and the
    interpreter never compares an array with itself). -/
def jsEqB (a b : Value) : Bool :=
  match a, b with
  | .undefined, .undefined => true
  | .null, .null => true
  | .undefined, .null => true
  | .null, .undefined => true
  | .num x, .num y =>
      match x, y with
      | some p, some q => p == q
      | _, _ => false
  | .str s, .str t => s == t
  | .bool x, .bool y => x == y
  | .ref x, .ref y => x == y
  | .bool x, v => jsEqNumSide (some (if x then 1 else 0)) v
  | v, .bool y => jsEqNumSide (some (if y then 1 else 0)) v
  | .num x, v => jsEqNumSide x v
  | v, .num y => jsEqNumSide y v
  | .str s, v => jsEqStrSide s v
  | v, .str s => jsEqStrSide s v
  | _, _ => false
where
  /-- number == other after coercions. -/
  jsEqNumSide (x : JsNum) (v : Value) : Bool :=
    match v with
    | .str s =>
        (match x, parseNumberString s with
         | some p, some q => p == q
         | _, _ => false)
    | .arr l =>
        (match x, parseNumberString (jsToStringList l) with
         | some p, some q => p == q
         | _, _ => false)
    | .num y =>
        (match x, y with
         | some p, some q => p == q
         | _, _ => false)
    | .bool b =>
        (match x with
         | some p => p == (if b then 1 else 0)
         | none => false)
    | _ => false
  /-- string == object side: ToPrimitive of the object, then compare. -/
  jsEqStrSide (s : String) (v : Value) : Bool :=
    match v with
    | .arr l => s == jsToStringList l
    | .ref _ => s == "[object Object]"
    | _ => false

end Klang

/-! ### AST (types.ts) -/

namespace Klang

/-- A raw mesh vertex from the parser: a signed numeric triple. -/
structure Vec3Lit where
  x : JsNum
  y : JsNum
  z : JsNum
deriving Repr

/-- A material reference on a mesh face: bare name or lib.item pair. -/
inductive MatRef where
  | name (s : String) : MatRef
  | libItem (lib item : String) : MatRef
deriving Repr

/-- A mesh face from the parser: index list plus optional material. -/
structure MeshFaceLit where
  indices : List ℚ
  materialRef : Option MatRef
deriving Repr

mutual
/-- Expression nodes (types.ts ExpressionNode). -/
inductive Expr where
  | binary (operator : String) (left right : Expr) : Expr
  | call (callee : String) (args : List Expr) : Expr
  | cube (vertices : List String) : Expr
  | mesh (vertices : List Vec3Lit) (faces : List MeshFaceLit) : Expr
  | material (properties : List (String × PropVal)) : Expr
  | modifier (modifierType : String) (properties : List (String × PropVal)) : Expr
  | group (children : List String) : Expr
  | lit (value : Value) : Expr
  | reference (name : String) (callArgs : Option String) : Expr
/-- A property value in a material/modifier block: a single expression
    node or an array of expression nodes (parseKeyValueBlock). -/
inductive PropVal where
  | single (e : Expr) : PropVal
  | values (es : List Expr) : PropVal
end

/-- The value slot of a PropertyAssignment statement (typed `any` in the
    source): the current parser produces either a raw coordinate array
    or an expression node; `rawV` covers the legacy raw shapes the
    interpreter still tests for. -/
inductive PValue where
  | coords (cs : List JsNum) : PValue
  | exprV (e : Expr) : PValue
  | rawV (v : Value) : PValue

mutual
/-- Statement nodes (types.ts StatementNode). -/
inductive Stmt where
  | importS (source : String) (items : Option (List String))
      (aliasName : Option String) : Stmt
  | assignment (identifier : String) (value : Expr) : Stmt
  | propertyAssignment (objectName : String) (subTarget : Option String)
      (property : String) (value : PValue) : Stmt
  | methodCall (objectName : String) (method : String) (args : List Expr)
      (exclusion : Option String) : Stmt
  | consolePrint (message : Expr) : Stmt
  | ifS (condition : Expr) (thenBlock : List Stmt)
      (elseBlock : ElseBranch) : Stmt
  | whileS (condition : Expr) (body : List Stmt) : Stmt
  | forS (varName : String) (start : Expr) (stop : Expr)
      (step : Option Expr) (body : List Stmt) : Stmt
/-- The else part of an If: absent, a plain block, or a chained If
    (the source's optional BlockNode-or-IfStatement field). -/
inductive ElseBranch where
  | noneB : ElseBranch
  | block (statements : List Stmt) : ElseBranch
  | elseIf (s : Stmt) : ElseBranch
end

/-! ### Interpreter (interpreter.ts) -/

/-- Evaluation results: a thrown JS exception carries its message and
    the state at the throw point (side effects survive the catch). -/
abbrev EvalRes (α : Type) := Except (String × InterpSt) (α × InterpSt)

def scopeGet (st : InterpSt) (name : String) : Value := jgetD st.scope name

def scopeSet (st : InterpSt) (name : String) (v : Value) : InterpSt :=
  { st with scope := jset st.scope name v }

def sceneGet (st : InterpSt) (name : String) : Value := jgetD st.sceneGraph name

def sceneSet (st : InterpSt) (name : String) (v : Value) : InterpSt :=
  { st with sceneGraph := jset st.sceneGraph name v }

/-- JS property read `v.k`: throws on undefined/null, reads a heap
    field through a reference, yields undefined on other values. -/
def getPropE (v : Value) (k : String) (st : InterpSt) : EvalRes Value :=
  match v with
  | .undefined => .error ("Cannot read properties of undefined (reading '" ++ k ++ "')", st)
  | .null => .error ("Cannot read properties of null (reading '" ++ k ++ "')", st)
  | .ref a => .ok (readField st a k, st)
  | _ => .ok (.undefined, st)

/-- JS property write `v.k = w` in strict mode: throws unless `v` is an
    object. -/
def setPropE (v : Value) (k : String) (w : Value) (st : InterpSt) : EvalRes Unit :=
  match v with
  | .ref a => .ok ((), writeField st a k w)
  | .undefined => .error ("Cannot set properties of undefined (setting '" ++ k ++ "')", st)
  | .null => .error ("Cannot set properties of null (setting '" ++ k ++ "')", st)
  | _ => .error ("Cannot create property '" ++ k ++ "' on primitive", st)

/-- parseVector (interpreter.ts): split on commas, parseFloat each
    trimmed part, non-finite or missing components default to 0. -/
def parseVector (s : String) : JsNum × JsNum × JsNum :=
  let parts := (s.splitOn ",").map (fun t => jsParseFloat t.trim)
  let comp : Nat → JsNum := fun i =>
    match parts.get? i with
    | some (some q) => some q
    | _ => some 0
  (comp 0, comp 1, comp 2)

/-- Allocate a fresh `{x, y, z}` vector object. -/
def allocVec3 (x y z : JsNum) (st : InterpSt) : Value × InterpSt :=
  alloc st [("x", .num x), ("y", .num y), ("z", .num z)]

/-- Allocate the zero/identity pos, rot and scale objects every
    geometry/group literal starts with. -/
def allocTransforms (st : InterpSt) : Value × Value × Value × InterpSt :=
  let (p, st1) := allocVec3 (some 0) (some 0) (some 0) st
  let (r, st2) := allocVec3 (some 0) (some 0) (some 0) st1
  let (s3, st3) := allocVec3 (some 1) (some 1) (some 1) st2
  (p, r, s3, st3)

/-- resolveMaterialRef (interpreter.ts) applied to a runtime value. -/
def resolveMaterialRef (r : Value) (st : InterpSt) : EvalRes Value :=
  match r with
  | .str s => if truthy (scopeGet st s) then .ok (scopeGet st s, st) else .ok (.null, st)
  | .null => .error ("Cannot read properties of null (reading 'lib')", st)
  | .ref a =>
      let lib := readField st a "lib"
      if truthy lib then
        let libName := jsToString lib
        let itemName := jsToString (readField st a "item")
        let modv := scopeGet st libName
        if truthy modv then
          let itemVal :=
            match modv with
            | .ref a2 => readField st a2 itemName
            | _ => .undefined
          if truthy itemVal then .ok (itemVal, st) else .ok (.null, st)
        else .ok (.null, st)
      else .ok (.null, st)
  | _ => .ok (.null, st)

/-- resolveMaterialRef applied to a parser-side material reference
    (a bare string or a plain `lib.item` record). -/
def resolveMaterialRefAst (m : MatRef) (st : InterpSt) : Value :=
  match m with
  | .name s => if truthy (scopeGet st s) then scopeGet st s else .null
  | .libItem lib item =>
      let modv := scopeGet st lib
      if truthy modv then
        let itemVal :=
          match modv with
          | .ref a2 => readField st a2 item
          | _ => .undefined
        if truthy itemVal then itemVal else .null
      else .null

/-- JSON.stringify of a material reference, for the warning message. -/
def matRefJson : MatRef → String
  | .name s => "\"" ++ s ++ "\""
  | .libItem l i => "\x7b\"lib\":\"" ++ l ++ "\",\"item\":\"" ++ i ++ "\"\x7d"

mutual
/-- Structural size of a value, used only to budget the JSON-clone
    fuel. -/
def valSize : Value → Nat
  | .arr l => 1 + valSizeList l
  | _ => 1
def valSizeList : List Value → Nat
  | [] => 0
  | v :: rest => valSize v + valSizeList rest
end

def heapSize (h : Heap) : Nat :=
  h.foldl (fun acc o => acc + 1 + o.length) 1

mutual
/-- Model of `JSON.parse(JSON.stringify(v))`: a deep copy into fresh
    heap objects.  JSON drops fields holding undefined, turns NaN into
    null, and fails on cyclic structures; the fuel (chosen generously at
    the call site) only runs out on a cyclic object graph, matching the
    JSON cycle error. -/
def jsonClone : Nat → Value → InterpSt → EvalRes Value
  | 0, _, st => .error ("Converting circular structure to JSON", st)
  | _ + 1, .num none, st => .ok (.null, st)
  | _ + 1, .undefined, st => .error ("\"undefined\" is not valid JSON", st)
  | fuel + 1, .arr l, st =>
      match jsonCloneArrElems fuel l st with
      | .error e => .error e
      | .ok (l2, st1) => .ok (.arr l2, st1)
  | fuel + 1, .ref a, st =>
      match jsonCloneFields fuel (heapGet st.heap a) st with
      | .error e => .error e
      | .ok (fields, st1) =>
          let (r, st2) := alloc st1 fields
          .ok (r, st2)
  | _ + 1, v, st => .ok (v, st)
def jsonCloneFields : Nat → JsObj → InterpSt → EvalRes JsObj
  | 0, _, st => .error ("Converting circular structure to JSON", st)
  | _ + 1, [], st => .ok ([], st)
  | fuel + 1, (_, .undefined) :: rest, st => jsonCloneFields fuel rest st
  | fuel + 1, (k, v) :: rest, st =>
      match jsonClone fuel v st with
      | .error e => .error e
      | .ok (v2, st1) =>
          match jsonCloneFields fuel rest st1 with
          | .error e => .error e
          | .ok (fs, st2) => .ok ((k, v2) :: fs, st2)
def jsonCloneArrElems : Nat → List Value → InterpSt → EvalRes (List Value)
  | 0, _, st => .error ("Converting circular structure to JSON", st)
  | _ + 1, [], st => .ok ([], st)
  | fuel + 1, v :: rest, st =>
      let v1 := if v matches .undefined then Value.null else v
      match jsonClone fuel v1 st with
      | .error e => .error e
      | .ok (v2, st1) =>
          match jsonCloneArrElems fuel rest st1 with
          | .error e => .error e
          | .ok (vs, st2) => .ok (v2 :: vs, st2)
end

/-- Math.floor over a JS number. -/
def mathFloor (n : JsNum) : JsNum := n.map (fun q => ((⌊q⌋ : ℤ) : ℚ))

/-- Math.PI as the exact rational value of the IEEE double. -/
def piRat : ℚ := 884279719003555 / 281474976710656

/-- applyRot inside the rotate modifier: add `(deg * PI) / 180` to one
    rotation component of `newObj.rot`. -/
def applyRotE (newObj : Value) (ax : Value) (deg : Value) (st : InterpSt) :
    EvalRes Unit :=
  let rad := jsDiv (jsMul deg (.num (some piRat))) (.num (some 180))
  let step : String → InterpSt → EvalRes Unit := fun comp st0 =>
    match getPropE newObj "rot" st0 with
    | .error e => .error e
    | .ok (rotObj, st1) =>
        match getPropE rotObj comp st1 with
        | .error e => .error e
        | .ok (old, st2) => setPropE rotObj comp (jsAdd old rad) st2
  match ax with
  | .str "x" => step "x" st
  | .str "y" => step "y" st
  | .str "z" => step "z" st
  | _ => .ok ((), st)

end Klang

namespace Klang

/-- Map parseVector over the cube vertex strings, allocating one
    `{x, y, z}` object per string. -/
def allocParsedVectors (vs : List String) (st : InterpSt) :
    List Value × InterpSt :=
  match vs with
  | [] => ([], st)
  | s :: rest =>
      let (x, y, z) := parseVector s
      let (v, st1) := allocVec3 x y z st
      let (tail, st2) := allocParsedVectors rest st1
      (v :: tail, st2)

/-- Allocate the fixed-topology cube faces: one `{indices}` object per
    index list. -/
def allocIndexFaces (ls : List (List ℚ)) (st : InterpSt) :
    List Value × InterpSt :=
  match ls with
  | [] => ([], st)
  | l :: rest =>
      let (f, st1) := alloc st [("indices", .arr (l.map (fun q => Value.num (some q))))]
      let (tail, st2) := allocIndexFaces rest st1
      (f :: tail, st2)

/-- Allocate the mesh vertex objects from their parsed triples. -/
def allocVertexList (vs : List Vec3Lit) (st : InterpSt) :
    List Value × InterpSt :=
  match vs with
  | [] => ([], st)
  | v :: rest =>
      let (o, st1) := allocVec3 v.x v.y v.z st
      let (tail, st2) := allocVertexList rest st1
      (o :: tail, st2)

/-- The MeshExpr face resolution: each face gets `{indices, material}`,
    with an unresolved material reference producing a warning and a null
    material. -/
def resolveMeshFaces (fs : List MeshFaceLit) (st : InterpSt) :
    List Value × InterpSt :=
  match fs with
  | [] => ([], st)
  | f :: rest =>
      let (mat, st1) : Value × InterpSt :=
        match f.materialRef with
        | none => (.null, st)
        | some m =>
            let mv := resolveMaterialRefAst m st
            if ¬ truthy mv then
              (mv, pushError st
                ("Warning: Material '" ++ matRefJson m ++ "' not found."))
            else (mv, st)
      let (o, st2) := alloc st1
        [("indices", .arr (f.indices.map (fun q => Value.num (some q)))),
         ("material", mat)]
      let (tail, st3) := resolveMeshFaces rest st2
      (o :: tail, st3)

/-- The modifier branch dispatch on the cloned base object. -/
def applyModifier (modifierType : String) (props : List (String × Value))
    (newObj : Value) (st : InterpSt) : EvalRes Value :=
  if modifierType = "pyramid" then
    match setPropE newObj "shape" (.str "pyramid") st with
    | .error e => .error e
    | .ok (_, st1) =>
        let height := if (jget props "height").isSome ∧
            ¬ ((jgetD props "height") matches Value.undefined) then jgetD props "height"
          else .num (some 1)
        match setPropE newObj "height" height st1 with
        | .error e => .error e
        | .ok (_, st2) =>
            let dir := if truthy (jgetD props "direction") then jgetD props "direction"
              else .str "up"
            match setPropE newObj "direction" dir st2 with
            | .error e => .error e
            | .ok (_, st3) => .ok (newObj, st3)
  else if modifierType = "scale" then
    componentUpdate newObj "scale" jsMul props ["x", "y", "z"] st
  else if modifierType = "translate" then
    componentUpdate newObj "pos" jsAdd props ["x", "y", "z"] st
  else if modifierType = "rotate" then
    match jgetD props "axis", jgetD props "angle" with
    | .arr axs, .arr angs =>
        match applyRotPairs newObj axs angs 0 st with
        | .error e => .error e
        | .ok (_, st1) => .ok (newObj, st1)
    | .str ax, .num n =>
        match applyRotE newObj (.str ax) (.num n) st with
        | .error e => .error e
        | .ok (_, st1) => .ok (newObj, st1)
    | _, _ => .ok (newObj, st)
  else .ok (newObj, st)
where
  /-- scale/translate: for each present component, read
      `newObj.<field>.<c>`, combine with the property, write back. -/
  componentUpdate (obj : Value) (field : String) (op : Value → Value → Value)
      (props : List (String × Value)) (comps : List String) (st : InterpSt) :
      EvalRes Value :=
    match comps with
    | [] => .ok (obj, st)
    | c :: rest =>
        if (jget props c).isSome ∧ ¬ ((jgetD props c) matches Value.undefined) then
          match getPropE obj field st with
          | .error e => .error e
          | .ok (inner, st1) =>
              match getPropE inner c st1 with
              | .error e => .error e
              | .ok (old, st2) =>
                  match setPropE inner c (op old (jgetD props c)) st2 with
                  | .error e => .error e
                  | .ok (_, st3) => componentUpdate obj field op props rest st3
        else componentUpdate obj field op props rest st
  /-- rotate with parallel axis/angle arrays: angle[i] beyond the end
      is undefined, yielding a NaN increment, as in JS. -/
  applyRotPairs (obj : Value) (axs angs : List Value) (i : Nat) (st : InterpSt) :
      EvalRes Unit :=
    match axs with
    | [] => .ok ((), st)
    | ax :: rest =>
        match applyRotE obj ax ((angs.get? i).getD .undefined) st with
        | .error e => .error e
        | .ok (_, st1) => applyRotPairs obj rest angs (i + 1) st1

mutual
/-- evaluateExpression (interpreter.ts).  Returns the value together
    with the updated state; a JS exception is an `.error`. -/
def evaluateExpression : Expr → InterpSt → EvalRes Value
  | .binary op l r, st =>
      match evaluateExpression l st with
      | .error e => .error e
      | .ok (lv, st1) =>
          match evaluateExpression r st1 with
          | .error e => .error e
          | .ok (rv, st2) =>
              let v : Value :=
                if op = "+" then jsAdd lv rv
                else if op = "-" then jsSub lv rv
                else if op = "*" then jsMul lv rv
                else if op = "/" then jsDiv lv rv
                else if op = "%" then jsMod lv rv
                else if op = ">" then .bool (jsGtB lv rv)
                else if op = "<" then .bool (jsLtB lv rv)
                else if op = ">=" then .bool (jsGeB lv rv)
                else if op = "<=" then .bool (jsLeB lv rv)
                else if op = "==" then .bool (jsEqB lv rv)
                else if op = "!=" then .bool (!jsEqB lv rv)
                else .num (some 0)
              .ok (v, st2)
  | .call callee args, st =>
      -- Only the four built-in coercions are recognized; any other
      -- callee falls through to `return null` (the TODO in the source),
      -- with the arguments left unevaluated.
      if callee = "int" ∨ callee = "float" ∨ callee = "string" ∨ callee = "bool" then
        match args with
        | [] => .error ("Cannot read properties of undefined (reading 'type')", st)
        | a :: _ =>
            match evaluateExpression a st with
            | .error e => .error e
            | .ok (v, st1) =>
                if callee = "int" then .ok (.num (mathFloor (toNumber v)), st1)
                else if callee = "float" then .ok (.num (jsParseFloat (jsToString v)), st1)
                else if callee = "string" then .ok (.str (jsToString v), st1)
                else .ok (.bool (truthy v), st1)
      else .ok (.null, st)
  | .cube vertices, st =>
      -- verts = expr.vertices.map(parseVector): the vertex objects are
      -- allocated before the length check, as in the source.
      let (vertRefs, st1) := allocParsedVectors vertices st
      if vertices.length ≠ 8 then
        .ok (.null, pushError st1 "Runtime Error: cube() requires exactly 8 vertices.")
      else
        let (faceRefs, st2) := allocIndexFaces
          [[0, 1, 2, 3], [4, 5, 6, 7], [0, 1, 5, 4],
           [1, 2, 6, 5], [2, 3, 7, 6], [3, 0, 4, 7]] st1
        let (p, r, sc, st3) := allocTransforms st2
        let (g, st4) := alloc st3
          [("type", .str "geometry"), ("shape", .str "mesh"),
           ("vertices", .arr vertRefs), ("faces", .arr faceRefs),
           ("pos", p), ("rot", r), ("scale", sc), ("parent", .null)]
        .ok (g, st4)
  | .mesh vertices faces, st =>
      let (faceRefs, st1) := resolveMeshFaces faces st
      let (vertRefs, st2) := allocVertexList vertices st1
      let (p, r, sc, st3) := allocTransforms st2
      let (g, st4) := alloc st3
        [("type", .str "geometry"), ("shape", .str "mesh"),
         ("vertices", .arr vertRefs), ("faces", .arr faceRefs),
         ("pos", p), ("rot", r), ("scale", sc), ("parent", .null)]
      .ok (g, st4)
  | .material properties, st =>
      match evaluateProperties properties st with
      | .error e => .error e
      | .ok (props, st1) =>
          let fields := props.foldl (fun m p => jset m p.1 p.2)
            [("type", Value.str "material")]
          let (m, st2) := alloc st1 fields
          .ok (m, st2)
  | .modifier modifierType properties, st =>
      match evaluateProperties properties st with
      | .error e => .error e
      | .ok (props, st1) =>
          let base := jgetD props "base"
          if ¬ truthy base then
            .ok (.null, pushError st1 "Runtime Error: Modifier requires a 'base' property.")
          else
            match jsonClone (heapSize st1.heap + valSize base + 1) base st1 with
            | .error e => .error e
            | .ok (newObj, st2) => applyModifier modifierType props newObj st2
  | .group children, st =>
      let (p, r, sc, st1) := allocTransforms st
      let (g, st2) := alloc st1
        [("type", .str "group"), ("children", .arr (children.map Value.str)),
         ("pos", p), ("rot", r), ("scale", sc), ("parent", .null)]
      .ok (g, st2)
  | .lit v, st => .ok (v, st)
  | .reference name callArgs, st =>
      match callArgs with
      | some sub =>
          let modv := scopeGet st name
          let itemVal :=
            match modv with
            | .ref a => readField st a sub
            | _ => .undefined
          if truthy modv && truthy itemVal then .ok (itemVal, st)
          else
            let (o, st1) := alloc st [("libraryCall", .str name), ("key", .str sub)]
            .ok (o, st1)
      | none =>
          if (jget st.scope name).getD .undefined matches Value.undefined then
            .ok (.null, pushError st
              ("Runtime Error: Variable '" ++ name ++ "' not defined."))
          else .ok (scopeGet st name, st)
/-- evaluateProperties (interpreter.ts): evaluate each property value,
    mapping an array of nodes to an array of values. -/
def evaluateProperties : List (String × PropVal) → InterpSt →
    EvalRes (List (String × Value))
  | [], st => .ok ([], st)
  | (k, .single e) :: rest, st =>
      match evaluateExpression e st with
      | .error er => .error er
      | .ok (v, st1) =>
          match evaluateProperties rest st1 with
          | .error er => .error er
          | .ok (vs, st2) => .ok ((k, v) :: vs, st2)
  | (k, .values es) :: rest, st =>
      match evalExprArray es st with
      | .error er => .error er
      | .ok (vs, st1) =>
          match evaluateProperties rest st1 with
          | .error er => .error er
          | .ok (tail, st2) => .ok ((k, .arr vs) :: tail, st2)
/-- Evaluate a JS array of expression nodes left to right. -/
def evalExprArray : List Expr → InterpSt → EvalRes (List Value)
  | [], st => .ok ([], st)
  | e :: rest, st =>
      match evaluateExpression e st with
      | .error er => .error er
      | .ok (v, st1) =>
          match evalExprArray rest st1 with
          | .error er => .error er
          | .ok (vs, st2) => .ok (v :: vs, st2)
end

end Klang

namespace Klang

/-- The While loop of executeStatement: evaluate the condition, and
    while it is truthy and the limit is positive run the body and
    decrement.  Returns the remaining limit (the source's `limit`
    variable); the state of the last condition evaluation is kept. -/
def whileLoop (evalCond : InterpSt → EvalRes Value)
    (runBody : InterpSt → InterpSt) :
    Nat → InterpSt → Except (String × InterpSt) (Nat × InterpSt)
  | 0, st =>
      (match evalCond st with
       | .error e => .error e
       | .ok (_, st1) => .ok (0, st1))
  | limit + 1, st =>
      match evalCond st with
      | .error e => .error e
      | .ok (v, st1) =>
          if truthy v then whileLoop evalCond runBody limit (runBody st1)
          else .ok (limit + 1, st1)

/-- The For loop of executeStatement: while the limit is positive,
    check the directional break conditions on the current loop-variable
    value, run the body, then add the step to the variable. -/
def forLoop (varName : String) (stopV stepV : Value)
    (runBody : InterpSt → InterpSt) :
    Nat → InterpSt → Nat × InterpSt
  | 0, st => (0, st)
  | limit + 1, st =>
      let curr := scopeGet st varName
      if jsGtB stepV (.num (some 0)) && jsGtB curr stopV then (limit + 1, st)
      else if jsLtB stepV (.num (some 0)) && jsLtB curr stopV then (limit + 1, st)
      else
        let st1 := runBody st
        let st2 := scopeSet st1 varName (jsAdd (scopeGet st1 varName) stepV)
        forLoop varName stopV stepV runBody limit st2

/-- The `value.type` read in the Assignment case: a property access
    that cannot throw because it is guarded by `value &&`. -/
def typeFieldOf (st : InterpSt) (v : Value) : Value :=
  match v with
  | .ref a => readField st a "type"
  | _ => .undefined

/-- Reparent the children of a freshly assigned group: for each child
    id, look it up in scope and set its `parent` field (which throws on
    a truthy primitive, aborting the remaining children). -/
def reparentChildren (ident : String) (children : List Value)
    (st : InterpSt) : EvalRes Unit :=
  match children with
  | [] => .ok ((), st)
  | c :: rest =>
      let child := scopeGet st (jsToString c)
      if truthy child then
        match setPropE child "parent" (.str ident) st with
        | .error e => .error e
        | .ok (_, st1) => reparentChildren ident rest st1
      else reparentChildren ident rest st

/-- The state reached inside the Assignment case right after the scope
    binding, the scene-graph binding and the id stamp of a scene value
    `.ref a` under key `x` — the `st4` of executeStatementTry, before
    any group-children reparenting runs. -/
def assignStamped (st1 : InterpSt) (x : String) (a : Nat) : InterpSt :=
  writeField (sceneSet (scopeSet st1 x (.ref a)) x (.ref a)) a "id" (.str x)

/-- The value slot of a PropertyAssignment, as the interpreter sees it:
    a raw coordinate array is used directly, an expression node is
    evaluated, a legacy raw value is used directly (a non-array object
    with a `type` field would be fed to evaluateExpression and fall to
    its default null). -/
def propAssignValue (v : PValue) (st : InterpSt) : EvalRes Value :=
  match v with
  | .coords cs => .ok (.arr (cs.map Value.num), st)
  | .exprV e => evaluateExpression e st
  | .rawV w =>
      match w with
      | .arr l => .ok (.arr l, st)
      | .ref a => if truthy (readField st a "type") then .ok (.null, st) else .ok (w, st)
      | _ => .ok (w, st)

/-- The material branch of a PropertyAssignment on the object itself. -/
def assignMaterial (obj : Value) (val : Value) (st : InterpSt) : EvalRes Unit :=
  let isObjWithField : String → Bool := fun k =>
    match val with
    | .ref a => truthy (readField st a k)
    | _ => false
  match val with
  | .null => .error ("Cannot read properties of null (reading 'lib')", st)
  | _ =>
    if isObjWithField "lib" then
      match resolveMaterialRef val st with
      | .error e => .error e
      | .ok (m, st1) => setPropE obj "material" m st1
    else if isObjWithField "ref" then
      let inner := match val with | .ref a => readField st a "ref" | _ => .undefined
      match resolveMaterialRef inner st with
      | .error e => .error e
      | .ok (m, st1) => setPropE obj "material" m st1
    else setPropE obj "material" val st

/-- The pos branch of a PropertyAssignment: a literal coordinate array
    replaces pos with a fresh vector object; a `relativeTo` descriptor
    resolves against another scene object; anything else does nothing. -/
def assignPos (obj : Value) (val : Value) (st : InterpSt) : EvalRes Unit :=
  match val with
  | .arr l =>
      let (p, st1) := alloc st
        [("x", (l.get? 0).getD .undefined), ("y", (l.get? 1).getD .undefined),
         ("z", (l.get? 2).getD .undefined)]
      setPropE obj "pos" p st1
  | _ =>
      let rel := match val with | .ref a => readField st a "relativeTo" | _ => .undefined
      if truthy val && truthy rel then
        let target := sceneGet st (jsToString rel)
        let coordsV := match val with | .ref a => readField st a "coords" | _ => .undefined
        match coordsV with
        | .str s =>
            let (ox, oy, oz) := parseVector s
            if truthy target then
              match getPropE target "pos" st with
              | .error e => .error e
              | .ok (tpos, st1) =>
                  match getPropE tpos "x" st1 with
                  | .error e => .error e
                  | .ok (tx, st2) =>
                      match getPropE tpos "y" st2 with
                      | .error e => .error e
                      | .ok (ty, st3) =>
                          match getPropE tpos "z" st3 with
                          | .error e => .error e
                          | .ok (tz, st4) =>
                              let (p, st5) := alloc st4
                                [("x", jsAdd tx (.num ox)),
                                 ("y", jsAdd ty (.num oy)),
                                 ("z", jsAdd tz (.num oz))]
                              setPropE obj "pos" p st5
            else .ok ((), st)
        | _ => .error ("val.coords.split is not a function", st)
      else .ok ((), st)

/-- The subTarget branch of a PropertyAssignment: mutate one listed
    child of a group. -/
def assignSubTarget (obj : Value) (sub : String) (property : String)
    (val : Value) (st : InterpSt) : EvalRes Unit :=
  let objType := typeFieldOf st obj
  if (match objType with | .str s => s == "group" | _ => false) then
    let children := match obj with | .ref a => readField st a "children" | _ => .undefined
    match children with
    | .arr l =>
        if l.any (fun c => match c with | .str s => s == sub | _ => false) then
          let child := sceneGet st sub
          if truthy child then
            if property = "material" then
              -- typeof val === 'object' is true for null, so reading
              -- val.lib throws before the else-branch can assign.
              match val with
              | .null => .error ("Cannot read properties of null (reading 'lib')", st)
              | _ =>
                let valHasLib :=
                  match val with
                  | .ref a => truthy (readField st a "lib")
                  | _ => false
                if valHasLib then
                  match resolveMaterialRef val st with
                  | .error e => .error e
                  | .ok (m, st1) => setPropE child "material" m st1
                else setPropE child "material" val st
            else if property = "color" then setPropE child "color" val st
            else setPropE child property val st
          else .ok ((), st)
        else .ok ((), st)
    | .undefined => .error ("Cannot read properties of undefined (reading 'includes')", st)
    | _ => .error ("obj.children.includes is not a function", st)
  else .ok ((), st)

/-- One `obj.pos.c += (expression || 0)` step of the move method. -/
def moveComponent (obj : Value) (comp : String) (argv : Value)
    (st : InterpSt) : EvalRes Unit :=
  let v := if truthy argv then argv else .num (some 0)
  match getPropE obj "pos" st with
  | .error e => .error e
  | .ok (posObj, st1) =>
      match getPropE posObj comp st1 with
      | .error e => .error e
      | .ok (old, st2) => setPropE posObj comp (jsAdd old v) st2

/-- One `obj.rot.y += rad` step of the rotate method (`sign` is 1 for
    the target and -1 for the counter-rotated exclusion). -/
def rotYComponent (obj : Value) (rad : Value) (negate : Bool)
    (st : InterpSt) : EvalRes Unit :=
  match getPropE obj "rot" st with
  | .error e => .error e
  | .ok (rotObj, st1) =>
      match getPropE rotObj "y" st1 with
      | .error e => .error e
      | .ok (old, st2) =>
          let newv := if negate then jsSub old rad else jsAdd old rad
          setPropE rotObj "y" newv st2

/-- The loop-cap check after a While loop (the `if (limit === 0)`). -/
def finishWhile (r : Except (String × InterpSt) (Nat × InterpSt)) : EvalRes Unit :=
  match r with
  | .error e => .error e
  | .ok (limit, st1) =>
      if limit = 0 then
        .ok ((), pushError st1 "Runtime Error: Loop exceeded 10000 iterations.")
      else .ok ((), st1)

/-- The loop-cap check after a For loop. -/
def finishFor (p : Nat × InterpSt) : EvalRes Unit :=
  if p.1 = 0 then
    .ok ((), pushError p.2 "Runtime Error: Loop exceeded 10000 iterations.")
  else .ok ((), p.2)

/-- The catch handler of executeStatement: a thrown exception is
    appended to the errors list and execution resumes. -/
def catchStatement (r : EvalRes Unit) : InterpSt :=
  match r with
  | .ok (_, st1) => st1
  | .error (msg, st1) => pushError st1 ("Error executing statement: " ++ msg)

mutual
/-- The body of the try block of executeStatement (interpreter.ts). -/
def executeStatementTry : Stmt → InterpSt → EvalRes Unit
  | .importS source _ aliasName, st =>
      let suffix := match aliasName with
        | some a => if a ≠ "" then " as " ++ a else ""
        | none => ""
      .ok ((), pushLog st ("> Imported " ++ source ++ suffix))
  | .ifS condition thenBlock elseBlock, st =>
      (match evaluateExpression condition st with
       | .error e => .error e
       | .ok (v, st1) =>
           if truthy v then .ok ((), executeBlock thenBlock st1)
           else
             match elseBlock with
             | .noneB => .ok ((), st1)
             | .elseIf s => .ok ((), catchStatement (executeStatementTry s st1))
             | .block b => .ok ((), executeBlock b st1))
  | .whileS condition body, st =>
      finishWhile (whileLoop (evaluateExpression condition)
        (executeBlock body) 10000 st)
  | .forS varName start stop step body, st =>
      (match evaluateExpression start st with
       | .error e => .error e
       | .ok (startV, st1) =>
           match evaluateExpression stop st1 with
           | .error e => .error e
           | .ok (stopV, st2) =>
               match (match step with
                      | some e => evaluateExpression e st2
                      | none => .ok (.num (some 1), st2)) with
               | .error e => .error e
               | .ok (stepV, st3) =>
                   let st4 := scopeSet st3 varName startV
                   finishFor (forLoop varName stopV stepV
                     (executeBlock body) 10000 st4))
  | .assignment identifier value, st =>
      (match evaluateExpression value st with
       | .error e => .error e
       | .ok (v, st1) =>
           let st2 := scopeSet st1 identifier v
           let vtype := typeFieldOf st2 v
           let isScene := truthy v &&
             (match vtype with | .str s => s == "geometry" || s == "group" | _ => false)
           if isScene then
             let st3 := sceneSet st2 identifier v
             match setPropE v "id" (.str identifier) st3 with
             | .error e => .error e
             | .ok (_, st4) =>
                 let isGroup := match vtype with | .str s => s == "group" | _ => false
                 let childrenV :=
                   match v with | .ref a => readField st4 a "children" | _ => .undefined
                 if isGroup && truthy childrenV then
                   match childrenV with
                   | .arr l => reparentChildren identifier l st4
                   | _ => .error ("value.children.forEach is not a function", st4)
                 else .ok ((), st4)
           else .ok ((), st2))
  | .propertyAssignment objectName subTarget property value, st =>
      let obj := sceneGet st objectName
      if ¬ truthy obj then
        .ok ((), pushError st ("Runtime Error: Object '" ++ objectName ++ "' not found."))
      else
        (match propAssignValue value st with
         | .error e => .error e
         | .ok (val, st1) =>
             match subTarget with
             | some sub =>
                 (match assignSubTarget obj sub property val st1 with
                  | .error e => .error e
                  | .ok (_, st2) => .ok ((), st2))
             | none =>
                 if property = "pos" then
                   (match assignPos obj val st1 with
                    | .error e => .error e
                    | .ok (_, st2) => .ok ((), st2))
                 else if property = "material" then
                   (match assignMaterial obj val st1 with
                    | .error e => .error e
                    | .ok (_, st2) => .ok ((), st2))
                 else
                   (match setPropE obj property val st1 with
                    | .error e => .error e
                    | .ok (_, st2) => .ok ((), st2)))
  | .methodCall objectName method args exclusion, st =>
      let obj := sceneGet st objectName
      if ¬ truthy obj then
        .ok ((), pushError st ("Runtime Error: Object '" ++ objectName ++ "' not found."))
      else if method = "rotate" then
        let argRes : EvalRes Value :=
          match args with
          | [] => .error ("Cannot read properties of undefined (reading 'type')", st)
          | a :: _ => evaluateExpression a st
        (match argRes with
         | .error e => .error e
         | .ok (argVal, st1) =>
             let rad := jsDiv (jsMul argVal (.num (some piRat))) (.num (some 180))
             match rotYComponent obj rad false st1 with
             | .error e => .error e
             | .ok (_, st2) =>
                 match exclusion with
                 | none => .ok ((), st2)
                 | some ex =>
                     let excluded := sceneGet st2 ex
                     if truthy excluded then rotYComponent excluded rad true st2
                     else .ok ((), st2))
      else if method = "move" then
        let argRes0 : EvalRes Value :=
          match args.get? 0 with
          | none => .error ("Cannot read properties of undefined (reading 'type')", st)
          | some a => evaluateExpression a st
        (match argRes0 with
         | .error e => .error e
         | .ok (xv, st1) =>
             match moveComponent obj "x" xv st1 with
             | .error e => .error e
             | .ok (_, st2) =>
                 let argRes1 : EvalRes Value :=
                   match args.get? 1 with
                   | none => .error ("Cannot read properties of undefined (reading 'type')", st2)
                   | some a => evaluateExpression a st2
                 match argRes1 with
                 | .error e => .error e
                 | .ok (yv, st3) =>
                     match moveComponent obj "y" yv st3 with
                     | .error e => .error e
                     | .ok (_, st4) =>
                         let argRes2 : EvalRes Value :=
                           match args.get? 2 with
                           | none => .error ("Cannot read properties of undefined (reading 'type')", st4)
                           | some a => evaluateExpression a st4
                         match argRes2 with
                         | .error e => .error e
                         | .ok (zv, st5) => moveComponent obj "z" zv st5)
      else .ok ((), st)
  | .consolePrint message, st =>
      (match evaluateExpression message st with
       | .error e => .error e
       | .ok (v, st1) => .ok ((), pushLog st1 ("> " ++ jsToString v)))
/-- executeBlock (interpreter.ts): run the statements in order, each
    inside its own failure containment. -/
def executeBlock : List Stmt → InterpSt → InterpSt
  | [], st => st
  | s :: rest, st => executeBlock rest (catchStatement (executeStatementTry s st))
end

/-- executeStatement (interpreter.ts): the try body with its per
    statement catch appending the exception message to the errors. -/
def executeStatement (s : Stmt) (st : InterpSt) : InterpSt :=
  catchStatement (executeStatementTry s st)

/-- The scope pre-seeded with built-in constants (interpreter.ts). -/
def builtinScope : List (String × Value) :=
  [("PI", .num (some piRat)),
   ("red", .num (some 16711680)), ("green", .num (some 65280)),
   ("blue", .num (some 255)), ("white", .num (some 16777215)),
   ("black", .num (some 0)), ("gray", .num (some 8421504)),
   ("yellow", .num (some 16776960)), ("cyan", .num (some 65535)),
   ("magenta", .num (some 16711935)),
   ("x", .str "x"), ("y", .str "y"), ("z", .str "z"),
   ("up", .str "up"), ("down", .str "down"),
   ("left", .str "left"), ("right", .str "right"),
   ("forward", .str "forward"), ("back", .str "back")]

/-- interpret (interpreter.ts): build the initial scope from the
    builtins and the module table, then execute every top-level
    statement.  The function is total: the per-statement catch in
    executeStatement makes its outer try/catch unreachable.  The result
    state carries the CompilerResult fields (sceneGraph, logs, errors,
    scope) plus the ambient heap. -/
def interpret (ast : List Stmt) (modules : List (String × Value))
    (heap0 : Heap) : InterpSt :=
  let scope0 := modules.foldl (fun sc p => jset sc p.1 p.2) builtinScope
  executeBlock ast
    { scope := scope0, sceneGraph := [], logs := [], errors := [], heap := heap0 }

end Klang


namespace Klang

/-- The eight vertex strings of the specification's unit cube. -/
def cubeVerts8 : List String :=
  ["0,0,0", "1,0,0", "1,1,0", "0,1,0", "0,0,1", "1,0,1", "1,1,1", "0,1,1"]

/-- The C6 scenario, step 1-3: two cubes and a group over them.  In the
    resulting heap the object of `a` is address 17, of `b` 35, of `grp`
    39. -/
def c6st3 : InterpSt :=
  interpret
    [Stmt.assignment "a" (.cube cubeVerts8),
     Stmt.assignment "b" (.cube cubeVerts8),
     Stmt.assignment "grp" (.group ["a", "b"])] [] []

/-- The C6 scenario after the later `a.pos = 1,2,3`. -/
def c6st4 : InterpSt :=
  executeStatement
    (Stmt.propertyAssignment "a" none "pos"
      (.coords [some 1, some 2, some 3])) c6st3

/-- The C6 scenario after reassigning `a` to a brand-new cube (heap
    address 58). -/
def c6st5 : InterpSt :=
  executeStatement (Stmt.assignment "a" (.cube cubeVerts8)) c6st4

/-- The `{x, y, z}` field list parseVector produces for one cube
    vertex string. -/
def vertexFields (s : String) : JsObj :=
  [("x", .num (parseVector s).1), ("y", .num (parseVector s).2.1),
   ("z", .num (parseVector s).2.2)]

/-- Read back one vertex object as its coordinate triple. -/
def readVertexTriple (h : Heap) (w : Value) : Option (JsNum × JsNum × JsNum) :=
  match w with
  | .ref a =>
      (match heapGet h a with
       | [("x", .num x), ("y", .num y), ("z", .num z)] => some (x, y, z)
       | _ => none)
  | _ => none

def readVertexTripleList (h : Heap) : List Value →
    Option (List (JsNum × JsNum × JsNum))
  | [] => some []
  | w :: rest =>
      match readVertexTriple h w, readVertexTripleList h rest with
      | some t, some ts => some (t :: ts)
      | _, _ => none

/-- Read back the vertex triples of a geometry's vertices array. -/
def readVertexTriples (st : InterpSt) (v : Value) :
    Option (List (JsNum × JsNum × JsNum)) :=
  match v with
  | .arr l => readVertexTripleList st.heap l
  | _ => none

def readIndexEntries : List Value → Option (List ℚ)
  | [] => some []
  | .num (some q) :: rest =>
      (match readIndexEntries rest with
       | some qs => some (q :: qs)
       | none => none)
  | _ => none

/-- Read back one face object as its index list. -/
def readFaceIndices (h : Heap) (w : Value) : Option (List ℚ) :=
  match w with
  | .ref a =>
      (match jget (heapGet h a) "indices" with
       | some (.arr ns) => readIndexEntries ns
       | _ => none)
  | _ => none

def readFaceIndexListsAux (h : Heap) : List Value → Option (List (List ℚ))
  | [] => some []
  | w :: rest =>
      match readFaceIndices h w, readFaceIndexListsAux h rest with
      | some f, some fs => some (f :: fs)
      | _, _ => none

/-- Read back the index lists of a geometry's faces array. -/
def readFaceIndexLists (st : InterpSt) (v : Value) :
    Option (List (List ℚ)) :=
  match v with
  | .arr l => readFaceIndexListsAux st.heap l
  | _ => none

/-- The ten objects a successful cube literal appends after its vertex
    objects: the six fixed faces, the three transforms, and the geometry
    record itself, at addresses `L + vs.length + 0 … + 9` where `L` is
    the pre-existing heap length. -/
def c3tail (vs : List String) (L : Nat) : Heap :=
  [[("indices", Value.arr [Value.num (some 0), Value.num (some 1),
      Value.num (some 2), Value.num (some 3)])],
   [("indices", Value.arr [Value.num (some 4), Value.num (some 5),
      Value.num (some 6), Value.num (some 7)])],
   [("indices", Value.arr [Value.num (some 0), Value.num (some 1),
      Value.num (some 5), Value.num (some 4)])],
   [("indices", Value.arr [Value.num (some 1), Value.num (some 2),
      Value.num (some 6), Value.num (some 5)])],
   [("indices", Value.arr [Value.num (some 2), Value.num (some 3),
      Value.num (some 7), Value.num (some 6)])],
   [("indices", Value.arr [Value.num (some 3), Value.num (some 0),
      Value.num (some 4), Value.num (some 7)])],
   [("x", Value.num (some 0)), ("y", Value.num (some 0)), ("z", Value.num (some 0))],
   [("x", Value.num (some 0)), ("y", Value.num (some 0)), ("z", Value.num (some 0))],
   [("x", Value.num (some 1)), ("y", Value.num (some 1)), ("z", Value.num (some 1))],
   [("type", Value.str "geometry"), ("shape", Value.str "mesh"),
    ("vertices", Value.arr ((List.range vs.length).map
      (fun i => Value.ref (L + i)))),
    ("faces", Value.arr [Value.ref (L + vs.length),
      Value.ref (L + (vs.length + 1)), Value.ref (L + (vs.length + 2)),
      Value.ref (L + (vs.length + 3)), Value.ref (L + (vs.length + 4)),
      Value.ref (L + (vs.length + 5))]),
    ("pos", Value.ref (L + (vs.length + 6))),
    ("rot", Value.ref (L + (vs.length + 7))),
    ("scale", Value.ref (L + (vs.length + 8))),
    ("parent", Value.null)]]

/-! ### Lexer (tokenize, src/unnamed/part_001 second version) -/

/-- Token types (types.ts TokenType). -/
inductive TokTy where
  | keyword : TokTy
  | identifier : TokTy
  | stringL : TokTy
  | number : TokTy
  | symbol : TokTy
  | operator : TokTy
  | eof : TokTy
deriving DecidableEq, Repr

/-- The enum's string value, as interpolated into expect's message. -/
def TokTy.tyName : TokTy → String
  | .keyword => "KEYWORD"
  | .identifier => "IDENTIFIER"
  | .stringL => "STRING"
  | .number => "NUMBER"
  | .symbol => "SYMBOL"
  | .operator => "OPERATOR"
  | .eof => "EOF"

structure Token where
  ty : TokTy
  value : String
  line : Nat
deriving DecidableEq, Repr

def isWsChar (c : Char) : Bool :=
  c = ' ' || c = '\n' || c = '\t' || c = '\r'

def isDigitChar (c : Char) : Bool := '0' ≤ c && c ≤ '9'

def isIdentStartChar (c : Char) : Bool :=
  ('a' ≤ c && c ≤ 'z') || ('A' ≤ c && c ≤ 'Z') || c = '_' || c = '@'

def isIdentTailChar (c : Char) : Bool := isIdentStartChar c || isDigitChar c

def isSymChar (c : Char) : Bool :=
  c = '\x7b' || c = '\x7d' || c = '[' || c = ']' || c = '(' || c = ')' ||
  c = ':' || c = ',' || c = '=' || c = '.' || c = ';' || c = '+' ||
  c = '-' || c = '*' || c = '/' || c = '>' || c = '<' || c = '!' || c = '%'

def klangKeywords : List String :=
  ["import", "from", "as", "cube", "material", "modifier", "group", "mesh",
   "not", "local", "if", "else", "while", "for", "to", "step",
   "int", "float", "string", "bool"]

/-- One pass of the tokenize while loop; the fuel only falls short on an
    input longer than the fuel, which `tokenize` never supplies. -/
def tokenizeLoop : Nat → List Char → Nat → List Token
  | 0, _, line => [⟨.eof, "", line⟩]
  | fuel + 1, cs, line =>
    match cs with
    | [] => [⟨.eof, "", line⟩]
    | c :: rest =>
        if isWsChar c then
          tokenizeLoop fuel rest (if c = '\n' then line + 1 else line)
        else if c = '/' && (match rest with | '/' :: _ => true | _ => false) then
          tokenizeLoop fuel ((c :: rest).dropWhile (fun d => d ≠ '\n')) line
        else if c = '#' then
          tokenizeLoop fuel ((c :: rest).dropWhile (fun d => d ≠ '\n')) line
        else if c = '=' && (match rest with | '=' :: _ => true | _ => false) then
          ⟨.operator, "==", line⟩ :: tokenizeLoop fuel rest.tail line
        else if c = '!' && (match rest with | '=' :: _ => true | _ => false) then
          ⟨.operator, "!=", line⟩ :: tokenizeLoop fuel rest.tail line
        else if c = '>' && (match rest with | '=' :: _ => true | _ => false) then
          ⟨.operator, ">=", line⟩ :: tokenizeLoop fuel rest.tail line
        else if c = '<' && (match rest with | '=' :: _ => true | _ => false) then
          ⟨.operator, "<=", line⟩ :: tokenizeLoop fuel rest.tail line
        else if isSymChar c then
          ⟨.symbol, String.mk [c], line⟩ :: tokenizeLoop fuel rest line
        else if isDigitChar c then
          ⟨.number, String.mk (c :: rest.takeWhile (fun d => isDigitChar d || d = '.')), line⟩ ::
            tokenizeLoop fuel (rest.dropWhile (fun d => isDigitChar d || d = '.')) line
        else if c = '"' then
          ⟨.stringL, String.mk (rest.takeWhile (fun d => d ≠ '"')), line⟩ ::
            tokenizeLoop fuel ((rest.dropWhile (fun d => d ≠ '"')).drop 1) line
        else if isIdentStartChar c then
          let iv := String.mk ((c :: rest).takeWhile isIdentTailChar)
          ⟨(if klangKeywords.contains iv then TokTy.keyword else TokTy.identifier),
              iv, line⟩ ::
            tokenizeLoop fuel ((c :: rest).dropWhile isIdentTailChar) line
        else tokenizeLoop fuel rest line

def tokenize (source : String) : List Token :=
  tokenizeLoop (source.toList.length + 1) source.toList 1

/-! ### Parser (parser.ts, first version) -/

/-- A parse outcome at a given cursor: success with the node and the new
    cursor, a raised syntax error (message plus the line it cites, when
    it cites one), or fuel exhaustion (which the totality theorem rules
    out for sufficient fuel). -/
inductive PRes (α : Type) where
  | ok (a : α) (pos : Nat) : PRes α
  | err (msg : String) (line : Option Nat) : PRes α
  | out : PRes α

def pbind {α β : Type} (r : PRes α) (f : α → Nat → PRes β) : PRes β :=
  match r with
  | .ok a pos => f a pos
  | .err m l => .err m l
  | .out => .out

def eofTok : Token := ⟨.eof, "", 0⟩

/-- tokens[pos] (the parser never reads past its EOF token). -/
def peekT (ts : List Token) (pos : Nat) : Token := (ts.get? pos).getD eofTok

/-- check(type): false at EOF, also when asking for EOF itself. -/
def checkT (ts : List Token) (pos : Nat) (ty : TokTy) : Bool :=
  let t := peekT ts pos
  ¬ t.ty = .eof ∧ t.ty = ty

/-- check(type, value). -/
def checkV (ts : List Token) (pos : Nat) (ty : TokTy) (v : String) : Bool :=
  let t := peekT ts pos
  ¬ t.ty = .eof ∧ t.ty = ty ∧ t.value = v

/-- expect(type): advance or throw, citing the current token's line. -/
def expectT (ts : List Token) (pos : Nat) (ty : TokTy) : PRes Token :=
  let t := peekT ts pos
  if t.ty = ty then .ok t (pos + 1)
  else .err ("Syntax Error: Expected " ++ ty.tyName ++ " but found '" ++
    t.value ++ "' at line " ++ toString t.line) (some t.line)

/-- expect(type, value). -/
def expectV (ts : List Token) (pos : Nat) (ty : TokTy) (v : String) : PRes Token :=
  let t := peekT ts pos
  if t.ty = ty ∧ t.value = v then .ok t (pos + 1)
  else .err ("Syntax Error: Expected " ++ v ++ " but found '" ++
    t.value ++ "' at line " ++ toString t.line) (some t.line)

/-- parseInt on a number-token text: its leading decimal digits. -/
def jsParseInt (s : String) : ℚ :=
  ((s.toList.takeWhile isDigitChar).foldl
    (fun acc c => acc * 10 + (c.toNat - 48)) 0 : Nat)

/-- The alias tail of parseImport: an optional `as` clause. -/
def parseImportTail (ts : List Token) (source : String)
    (items : Option (List String)) (pos : Nat) : PRes Stmt :=
  if checkV ts pos .keyword "as" then
    pbind (expectT ts (pos + 1) .identifier) fun a p2 =>
      .ok (.importS source items (some a.value)) p2
  else .ok (.importS source items none) pos

/-- The optional `(subTarget)` head of parseAction. -/
def parseSubTarget (ts : List Token) (pos : Nat) : PRes (Option String) :=
  if checkV ts pos .symbol "(" then
    pbind (expectT ts (pos + 1) .identifier) fun subT p2 =>
    pbind (expectV ts p2 .symbol ")") fun _ p3 =>
      .ok (some subT.value) p3
  else .ok none pos

/-- One mesh-face coordinate: optional minus then a number. -/
def parseMeshCoord (ts : List Token) (pos : Nat) : PRes JsNum :=
  if checkV ts pos .symbol "-" then
    pbind (expectT ts (pos + 1) .number) fun t p2 =>
      .ok ((jsParseFloat t.value).map (fun q => -q)) p2
  else
    pbind (expectT ts pos .number) fun t p2 =>
      .ok (jsParseFloat t.value) p2

/-- The optional `: name` / `: lib.item` material tag of a mesh face. -/
def parseFaceMatRef (ts : List Token) (pos : Nat) : PRes (Option MatRef) :=
  if checkV ts pos .symbol ":" then
    pbind (expectT ts (pos + 1) .identifier) fun rt p2 =>
    if checkV ts p2 .symbol "." then
      pbind (expectT ts (p2 + 1) .identifier) fun st2 p3 =>
        .ok (some (.libItem rt.value st2.value)) p3
    else .ok (some (.name rt.value)) p2
  else .ok none pos

/-- jset for parser property records (JS object upsert semantics). -/
def pset (m : List (String × PropVal)) (k : String) (v : PropVal) :
    List (String × PropVal) :=
  match m with
  | [] => [(k, v)]
  | (k1, v1) :: rest =>
      if k1 = k then (k1, v) :: rest else (k1, v1) :: pset rest k v

mutual

/-- parseProgram's statement loop. -/
def parseProgram (ts : List Token) : Nat → Nat → PRes (List Stmt)
  | 0, _ => .out
  | fuel + 1, pos =>
      if ¬ (peekT ts pos).ty = .eof then
        pbind (parseStatement ts fuel pos) fun s pos1 =>
        pbind (parseProgram ts fuel pos1) fun rest pos2 =>
          .ok (s :: rest) pos2
      else .ok [] pos
termination_by structural n _ => n

def parseStatement (ts : List Token) : Nat → Nat → PRes Stmt
  | 0, _ => .out
  | fuel + 1, pos =>
      let token := peekT ts pos
      if token.ty = .keyword ∧ token.value = "import" then parseImport ts fuel pos
      else if token.ty = .keyword ∧ token.value = "if" then parseIf ts fuel pos
      else if token.ty = .keyword ∧ token.value = "while" then parseWhile ts fuel pos
      else if token.ty = .keyword ∧ token.value = "for" then parseFor ts fuel pos
      else if token.value = "console" ∧ (peekT ts (pos + 1)).value = "." then
        parseConsolePrint ts fuel pos
      else if token.ty = .identifier then
        (if (peekT ts (pos + 1)).value = "=" then parseAssignment ts fuel pos
         else if (peekT ts (pos + 1)).value = "(" ∨ (peekT ts (pos + 1)).value = "." then
           parseAction ts fuel pos
         else .err ("Unexpected token '" ++ token.value ++ "' at line " ++
           toString token.line) (some token.line))
      else .err ("Unexpected token '" ++ token.value ++ "' at line " ++
        toString token.line) (some token.line)
termination_by structural n _ => n

/-- parseBlock's inner statement loop (check(EOF) is constant false, as
    in the source, so the loop only stops at a closing brace and
    otherwise fails inside parseStatement). -/
def parseBlockStmts (ts : List Token) : Nat → Nat → PRes (List Stmt)
  | 0, _ => .out
  | fuel + 1, pos =>
      if ¬ checkV ts pos .symbol "\x7d" ∧ ¬ checkT ts pos .eof then
        pbind (parseStatement ts fuel pos) fun s pos1 =>
        pbind (parseBlockStmts ts fuel pos1) fun rest pos2 =>
          .ok (s :: rest) pos2
      else .ok [] pos
termination_by structural n _ => n

def parseBlock (ts : List Token) : Nat → Nat → PRes (List Stmt)
  | 0, _ => .out
  | fuel + 1, pos =>
      pbind (expectV ts pos .symbol "\x7b") fun _ p1 =>
      pbind (parseBlockStmts ts fuel p1) fun stmts p2 =>
      pbind (expectV ts p2 .symbol "\x7d") fun _ p3 =>
        .ok stmts p3
termination_by structural n _ => n

def parseIf (ts : List Token) : Nat → Nat → PRes Stmt
  | 0, _ => .out
  | fuel + 1, pos =>
      pbind (expectV ts pos .keyword "if") fun _ p1 =>
      pbind (parseExpression ts fuel p1) fun cond p2 =>
      pbind (parseBlock ts fuel p2) fun thenB p3 =>
      if checkV ts p3 .keyword "else" then
        (if checkV ts (p3 + 1) .keyword "if" then
          pbind (parseIf ts fuel (p3 + 1)) fun elifS p5 =>
            .ok (.ifS cond thenB (.elseIf elifS)) p5
        else
          pbind (parseBlock ts fuel (p3 + 1)) fun elseB p5 =>
            .ok (.ifS cond thenB (.block elseB)) p5)
      else .ok (.ifS cond thenB .noneB) p3
termination_by structural n _ => n

def parseWhile (ts : List Token) : Nat → Nat → PRes Stmt
  | 0, _ => .out
  | fuel + 1, pos =>
      pbind (expectV ts pos .keyword "while") fun _ p1 =>
      pbind (parseExpression ts fuel p1) fun cond p2 =>
      pbind (parseBlock ts fuel p2) fun body p3 =>
        .ok (.whileS cond body) p3
termination_by structural n _ => n

def parseFor (ts : List Token) : Nat → Nat → PRes Stmt
  | 0, _ => .out
  | fuel + 1, pos =>
      pbind (expectV ts pos .keyword "for") fun _ p1 =>
      pbind (expectT ts p1 .identifier) fun varT p2 =>
      pbind (expectV ts p2 .symbol "=") fun _ p3 =>
      pbind (parseExpression ts fuel p3) fun startE p4 =>
      pbind (expectV ts p4 .keyword "to") fun _ p5 =>
      pbind (parseExpression ts fuel p5) fun endE p6 =>
      if checkV ts p6 .keyword "step" then
        pbind (parseExpression ts fuel (p6 + 1)) fun stepE p7 =>
        pbind (parseBlock ts fuel p7) fun body p8 =>
          .ok (.forS varT.value startE endE (some stepE) body) p8
      else
        pbind (parseBlock ts fuel p6) fun body p7 =>
          .ok (.forS varT.value startE endE none body) p7
termination_by structural n _ => n

/-- The `while match(',')` extra-identifier loop of parseImport. -/
def parseImportIds (ts : List Token) : Nat → Nat → PRes (List String)
  | 0, _ => .out
  | fuel + 1, pos =>
      if checkV ts pos .symbol "," then
        pbind (expectT ts (pos + 1) .identifier) fun idt p2 =>
        pbind (parseImportIds ts fuel p2) fun rest p3 =>
          .ok (idt.value :: rest) p3
      else .ok [] pos
termination_by structural n _ => n

/-- The dashed-source-name concatenation loop of parseImport. -/
def parseDashName (ts : List Token) : Nat → String → Nat → PRes String
  | 0, _, _ => .out
  | fuel + 1, acc, pos =>
      if checkV ts pos .symbol "-" ∨ checkT ts pos .identifier then
        parseDashName ts fuel (acc ++ (peekT ts pos).value) (pos + 1)
      else .ok acc pos
termination_by structural n _ _ => n

def parseImport (ts : List Token) : Nat → Nat → PRes Stmt
  | 0, _ => .out
  | fuel + 1, pos =>
      pbind (expectV ts pos .keyword "import") fun _ p1 =>
      let t := peekT ts p1
      if t.ty = .stringL then parseImportTail ts t.value none (p1 + 1)
      else
        pbind (expectT ts p1 .identifier) fun id0 p2 =>
        pbind (parseImportIds ts fuel p2) fun ids p3 =>
        if checkV ts p3 .keyword "from" then
          (let srcT := peekT ts (p3 + 1)
           if srcT.ty = .stringL then
             parseImportTail ts srcT.value (some (id0.value :: ids)) (p3 + 2)
           else
             pbind (expectT ts (p3 + 1) .identifier) fun srcId p5 =>
             pbind (parseDashName ts fuel srcId.value p5) fun src p6 =>
               parseImportTail ts src (some (id0.value :: ids)) p6)
        else
          if (id0.value :: ids).length = 1 then
            pbind (parseDashName ts fuel id0.value p3) fun src p4 =>
              parseImportTail ts src none p4
          else .err ("Syntax Error: Expected 'from' after import list at line " ++
            toString t.line) (some t.line)

def parseConsolePrint (ts : List Token) : Nat → Nat → PRes Stmt
  | 0, _ => .out
  | fuel + 1, pos =>
      pbind (expectV ts pos .identifier "console") fun _ p1 =>
      pbind (expectV ts p1 .symbol ".") fun _ p2 =>
      pbind (expectV ts p2 .identifier "print") fun _ p3 =>
      pbind (expectV ts p3 .symbol "(") fun _ p4 =>
      pbind (parseExpression ts fuel p4) fun msg p5 =>
      pbind (expectV ts p5 .symbol ")") fun _ p6 =>
        .ok (.consolePrint msg) p6

def parseAssignment (ts : List Token) : Nat → Nat → PRes Stmt
  | 0, _ => .out
  | fuel + 1, pos =>
      pbind (expectT ts pos .identifier) fun idT p1 =>
      pbind (expectV ts p1 .symbol "=") fun _ p2 =>
      pbind (parseExpression ts fuel p2) fun e p3 =>
        .ok (.assignment idT.value e) p3

def parseExpression (ts : List Token) : Nat → Nat → PRes Expr
  | 0, _ => .out
  | fuel + 1, pos => parseLogicOr ts fuel pos
termination_by structural n _ => n

def parseLogicOr (ts : List Token) : Nat → Nat → PRes Expr
  | 0, _ => .out
  | fuel + 1, pos => parseEquality ts fuel pos
termination_by structural n _ => n

def parseEquality (ts : List Token) : Nat → Nat → PRes Expr
  | 0, _ => .out
  | fuel + 1, pos =>
      pbind (parseComparison ts fuel pos) fun e p1 =>
        parseEqualityLoop ts fuel e p1
termination_by structural n _ => n

def parseEqualityLoop (ts : List Token) : Nat → Expr → Nat → PRes Expr
  | 0, _, _ => .out
  | fuel + 1, e, pos =>
      if checkV ts pos .operator "==" ∨ checkV ts pos .operator "!=" then
        pbind (parseComparison ts fuel (pos + 1)) fun r p2 =>
          parseEqualityLoop ts fuel (.binary (peekT ts pos).value e r) p2
      else .ok e pos
termination_by structural n _ _ => n

def parseComparison (ts : List Token) : Nat → Nat → PRes Expr
  | 0, _ => .out
  | fuel + 1, pos =>
      pbind (parseTerm ts fuel pos) fun e p1 =>
        parseComparisonLoop ts fuel e p1
termination_by structural n _ => n

def parseComparisonLoop (ts : List Token) : Nat → Expr → Nat → PRes Expr
  | 0, _, _ => .out
  | fuel + 1, e, pos =>
      if checkV ts pos .symbol ">" ∨ checkV ts pos .symbol "<" ∨
          checkV ts pos .operator ">=" ∨ checkV ts pos .operator "<=" then
        pbind (parseTerm ts fuel (pos + 1)) fun r p2 =>
          parseComparisonLoop ts fuel (.binary (peekT ts pos).value e r) p2
      else .ok e pos
termination_by structural n _ _ => n

def parseTerm (ts : List Token) : Nat → Nat → PRes Expr
  | 0, _ => .out
  | fuel + 1, pos =>
      pbind (parseFactor ts fuel pos) fun e p1 =>
        parseTermLoop ts fuel e p1
termination_by structural n _ => n

def parseTermLoop (ts : List Token) : Nat → Expr → Nat → PRes Expr
  | 0, _, _ => .out
  | fuel + 1, e, pos =>
      if checkV ts pos .symbol "+" ∨ checkV ts pos .symbol "-" then
        pbind (parseFactor ts fuel (pos + 1)) fun r p2 =>
          parseTermLoop ts fuel (.binary (peekT ts pos).value e r) p2
      else .ok e pos
termination_by structural n _ _ => n

def parseFactor (ts : List Token) : Nat → Nat → PRes Expr
  | 0, _ => .out
  | fuel + 1, pos =>
      pbind (parseUnary ts fuel pos) fun e p1 =>
        parseFactorLoop ts fuel e p1
termination_by structural n _ => n

def parseFactorLoop (ts : List Token) : Nat → Expr → Nat → PRes Expr
  | 0, _, _ => .out
  | fuel + 1, e, pos =>
      if checkV ts pos .symbol "*" ∨ checkV ts pos .symbol "/" ∨
          checkV ts pos .symbol "%" then
        pbind (parseUnary ts fuel (pos + 1)) fun r p2 =>
          parseFactorLoop ts fuel (.binary (peekT ts pos).value e r) p2
      else .ok e pos
termination_by structural n _ _ => n

def parseUnary (ts : List Token) : Nat → Nat → PRes Expr
  | 0, _ => .out
  | fuel + 1, pos =>
      if checkV ts pos .symbol "-" then
        pbind (parseUnary ts fuel (pos + 1)) fun r p2 =>
          .ok (.binary "-" (.lit (.num (some 0))) r) p2
      else parsePrimary ts fuel pos
termination_by structural n _ => n

/-- The call-argument list of a CallExpr (after the opening paren). -/
def parseArgsList (ts : List Token) : Nat → Nat → PRes (List Expr)
  | 0, _ => .out
  | fuel + 1, pos =>
      if checkV ts pos .symbol ")" then .ok [] pos
      else
        pbind (parseExpression ts fuel pos) fun e p1 =>
        pbind (parseArgsMore ts fuel p1) fun rest p2 =>
          .ok (e :: rest) p2
termination_by structural n _ => n

def parseArgsMore (ts : List Token) : Nat → Nat → PRes (List Expr)
  | 0, _ => .out
  | fuel + 1, pos =>
      if checkV ts pos .symbol "," then
        pbind (parseExpression ts fuel (pos + 1)) fun e p1 =>
        pbind (parseArgsMore ts fuel p1) fun rest p2 =>
          .ok (e :: rest) p2
      else .ok [] pos
termination_by structural n _ => n

def parsePrimary (ts : List Token) : Nat → Nat → PRes Expr
  | 0, _ => .out
  | fuel + 1, pos =>
      let token := peekT ts pos
      if token.ty = .number then
        .ok (.lit (.num (jsParseFloat token.value))) (pos + 1)
      else if token.ty = .stringL then
        .ok (.lit (.str token.value)) (pos + 1)
      else if token.value = "cube" then parseCube ts fuel pos
      else if token.value = "mesh" then parseMesh ts fuel pos
      else if token.value = "material" then parseMaterial ts fuel pos
      else if token.value = "modifier" then parseModifier ts fuel pos
      else if token.value = "group" then parseGroup ts fuel pos
      else if token.ty = .identifier then
        (if checkV ts (pos + 1) .symbol "(" then
          pbind (parseArgsList ts fuel (pos + 2)) fun args p2 =>
          pbind (expectV ts p2 .symbol ")") fun _ p3 =>
            .ok (.call token.value args) p3
        else if checkV ts (pos + 1) .symbol "." ∧
            (peekT ts (pos + 2)).ty = .identifier then
          (let sub := (peekT ts (pos + 2)).value
           if checkV ts (pos + 3) .symbol "(" then
             pbind (parseArgsList ts fuel (pos + 4)) fun args p3 =>
             pbind (expectV ts p3 .symbol ")") fun _ p4 =>
               .ok (.call (token.value ++ "." ++ sub) args) p4
           else .ok (.reference token.value (some sub)) (pos + 3))
        else .ok (.reference token.value none) (pos + 1))
      else if checkV ts pos .symbol "(" then
        pbind (parseExpression ts fuel (pos + 1)) fun e p1 =>
        pbind (expectV ts p1 .symbol ")") fun _ p2 =>
          .ok e p2
      else .err ("Unknown expression starting with '" ++ token.value ++
        "' at line " ++ toString token.line) (some token.line)
termination_by structural n _ => n

/-- The token-gluing scan between the parentheses of a cube literal. -/
def parseCubeScan (ts : List Token) : Nat → String → Nat → PRes (List String)
  | 0, _, _ => .out
  | fuel + 1, buffer, pos =>
      let t := peekT ts pos
      if ¬ t.ty = .eof ∧ ¬ t.value = ")" then
        (if t.value = ":" then
          pbind (parseCubeScan ts fuel "" (pos + 1)) fun rest p2 =>
            .ok (buffer.trim :: rest) p2
        else parseCubeScan ts fuel (buffer ++ t.value) (pos + 1))
      else if ¬ buffer = "" then .ok [buffer.trim] pos
      else .ok [] pos
termination_by structural n _ _ => n

def parseCube (ts : List Token) : Nat → Nat → PRes Expr
  | 0, _ => .out
  | fuel + 1, pos =>
      pbind (expectV ts pos .keyword "cube") fun _ p1 =>
      pbind (expectV ts p1 .symbol "(") fun _ p2 =>
      pbind (parseCubeScan ts fuel "" p2) fun vs p3 =>
      pbind (expectV ts p3 .symbol ")") fun _ p4 =>
        .ok (.cube vs) p4

/-- The vertex-triple loop of a mesh's `vertices=[...]` section. -/
def parseMeshVerts (ts : List Token) : Nat → Nat → PRes (List Vec3Lit)
  | 0, _ => .out
  | fuel + 1, pos =>
      if ¬ (peekT ts pos).value = "]" then
        pbind (parseMeshCoord ts pos) fun x p1 =>
        pbind (expectV ts p1 .symbol ",") fun _ p2 =>
        pbind (parseMeshCoord ts p2) fun y p3 =>
        pbind (expectV ts p3 .symbol ",") fun _ p4 =>
        pbind (parseMeshCoord ts p4) fun z p5 =>
        pbind (expectV ts p5 .symbol ";") fun _ p6 =>
        pbind (parseMeshVerts ts fuel p6) fun rest p7 =>
          .ok (⟨x, y, z⟩ :: rest) p7
      else .ok [] pos
termination_by structural n _ => n

/-- The comma-separated index run of one mesh face. -/
def parseFaceIndices (ts : List Token) : Nat → Nat → PRes (List ℚ)
  | 0, _ => .out
  | fuel + 1, pos =>
      pbind (expectT ts pos .number) fun t p1 =>
      if checkV ts p1 .symbol "," then
        pbind (parseFaceIndices ts fuel (p1 + 1)) fun rest p2 =>
          .ok (jsParseInt t.value :: rest) p2
      else .ok [jsParseInt t.value] p1
termination_by structural n _ => n

/-- The face loop of a mesh's `faces=[...]` section. -/
def parseMeshFaces (ts : List Token) : Nat → Nat → PRes (List MeshFaceLit)
  | 0, _ => .out
  | fuel + 1, pos =>
      if ¬ (peekT ts pos).value = "]" then
        pbind (parseFaceIndices ts fuel pos) fun idxs p1 =>
        pbind (parseFaceMatRef ts p1) fun mref p2 =>
        pbind (expectV ts p2 .symbol ";") fun _ p3 =>
        pbind (parseMeshFaces ts fuel p3) fun rest p4 =>
          .ok (⟨idxs, mref⟩ :: rest) p4
      else .ok [] pos
termination_by structural n _ => n

/-- The key-section loop of a mesh body (unknown keys expect an
    immediately closed bracket, as in the source). -/
def parseMeshBody (ts : List Token) :
    Nat → List Vec3Lit → List MeshFaceLit → Nat →
    PRes (List Vec3Lit × List MeshFaceLit)
  | 0, _, _, _ => .out
  | fuel + 1, vs, fs, pos =>
      if ¬ (peekT ts pos).value = "\x7d" then
        pbind (expectT ts pos .identifier) fun keyT p1 =>
        pbind (expectV ts p1 .symbol "=") fun _ p2 =>
        pbind (expectV ts p2 .symbol "[") fun _ p3 =>
        (if keyT.value = "vertices" then
          pbind (parseMeshVerts ts fuel p3) fun newVs p4 =>
          pbind (expectV ts p4 .symbol "]") fun _ p5 =>
            parseMeshBody ts fuel (vs ++ newVs) fs p5
        else if keyT.value = "faces" then
          pbind (parseMeshFaces ts fuel p3) fun newFs p4 =>
          pbind (expectV ts p4 .symbol "]") fun _ p5 =>
            parseMeshBody ts fuel vs (fs ++ newFs) p5
        else
          pbind (expectV ts p3 .symbol "]") fun _ p4 =>
            parseMeshBody ts fuel vs fs p4)
      else .ok (vs, fs) pos
termination_by structural n _ _ _ => n

def parseMesh (ts : List Token) : Nat → Nat → PRes Expr
  | 0, _ => .out
  | fuel + 1, pos =>
      pbind (expectV ts pos .keyword "mesh") fun _ p1 =>
      pbind (expectV ts p1 .symbol "\x7b") fun _ p2 =>
      pbind (parseMeshBody ts fuel [] [] p2) fun vf p3 =>
      pbind (expectV ts p3 .symbol "\x7d") fun _ p4 =>
        .ok (.mesh vf.1 vf.2) p4

/-- The `while match(',')` extra-key loop of parseKeyValueBlock. -/
def parseKVKeys (ts : List Token) : Nat → Nat → PRes (List String)
  | 0, _ => .out
  | fuel + 1, pos =>
      if checkV ts pos .symbol "," then
        pbind (expectT ts (pos + 1) .identifier) fun kt p2 =>
        pbind (parseKVKeys ts fuel p2) fun rest p3 =>
          .ok (kt.value :: rest) p3
      else .ok [] pos
termination_by structural n _ => n

/-- The `while match(',')` extra-value loop of parseKeyValueBlock. -/
def parseKVVals (ts : List Token) : Nat → Nat → PRes (List Expr)
  | 0, _ => .out
  | fuel + 1, pos =>
      if checkV ts pos .symbol "," then
        pbind (parseExpression ts fuel (pos + 1)) fun e p1 =>
        pbind (parseKVVals ts fuel p1) fun rest p2 =>
          .ok (e :: rest) p2
      else .ok [] pos
termination_by structural n _ => n

def parseKeyValueBlock (ts : List Token) :
    Nat → List (String × PropVal) → Nat → PRes (List (String × PropVal))
  | 0, _, _ => .out
  | fuel + 1, props, pos =>
      if ¬ (peekT ts pos).value = "\x7d" then
        pbind (expectT ts pos .identifier) fun k0 p1 =>
        pbind (parseKVKeys ts fuel p1) fun ks p2 =>
        pbind (expectV ts p2 .symbol "=") fun _ p3 =>
        pbind (parseExpression ts fuel p3) fun v0 p4 =>
        pbind (parseKVVals ts fuel p4) fun vs p5 =>
        (if (k0.value :: ks).length = (v0 :: vs).length then
          parseKeyValueBlock ts fuel
            (((k0.value :: ks).zip (v0 :: vs)).foldl
              (fun m p => pset m p.1 (.single p.2)) props) p5
        else if (k0.value :: ks).length = 1 then
          parseKeyValueBlock ts fuel (pset props k0.value (.values (v0 :: vs))) p5
        else .err ("Count mismatch in assignment: " ++
          toString (k0.value :: ks).length ++ " keys vs " ++
          toString (v0 :: vs).length ++ " values") none)
      else .ok props pos
termination_by structural n _ _ => n

def parseMaterial (ts : List Token) : Nat → Nat → PRes Expr
  | 0, _ => .out
  | fuel + 1, pos =>
      pbind (expectV ts pos .keyword "material") fun _ p1 =>
      pbind (expectV ts p1 .symbol "\x7b") fun _ p2 =>
      pbind (parseKeyValueBlock ts fuel [] p2) fun props p3 =>
      pbind (expectV ts p3 .symbol "\x7d") fun _ p4 =>
        .ok (.material props) p4
termination_by structural n _ => n

def parseModifier (ts : List Token) : Nat → Nat → PRes Expr
  | 0, _ => .out
  | fuel + 1, pos =>
      pbind (expectV ts pos .keyword "modifier") fun _ p1 =>
      pbind (expectV ts p1 .symbol ".") fun _ p2 =>
      pbind (expectT ts p2 .identifier) fun mt p3 =>
      pbind (expectV ts p3 .symbol "\x7b") fun _ p4 =>
      pbind (parseKeyValueBlock ts fuel [] p4) fun props p5 =>
      pbind (expectV ts p5 .symbol "\x7d") fun _ p6 =>
        .ok (.modifier mt.value props) p6
termination_by structural n _ => n

/-- The child-identifier loop of a group literal. -/
def parseGroupItems (ts : List Token) : Nat → Nat → PRes (List String)
  | 0, _ => .out
  | fuel + 1, pos =>
      if ¬ (peekT ts pos).value = "]" then
        pbind (expectT ts pos .identifier) fun c p1 =>
        pbind (parseGroupItems ts fuel
            (if (peekT ts p1).value = "," then p1 + 1 else p1)) fun rest p3 =>
          .ok (c.value :: rest) p3
      else .ok [] pos
termination_by structural n _ => n

def parseGroup (ts : List Token) : Nat → Nat → PRes Expr
  | 0, _ => .out
  | fuel + 1, pos =>
      pbind (expectV ts pos .keyword "group") fun _ p1 =>
      pbind (expectV ts p1 .symbol "[") fun _ p2 =>
      pbind (parseGroupItems ts fuel p2) fun cs p3 =>
      pbind (expectV ts p3 .symbol "]") fun _ p4 =>
        .ok (.group cs) p4

/-- The raw coordinate-list scan of a PropertyAssignment value. -/
def parseActionCoords (ts : List Token) : Nat → List JsNum → Nat → PRes (List JsNum)
  | 0, _, _ => .out
  | fuel + 1, acc, pos =>
      let t := peekT ts pos
      if t.ty = .number ∨ t.value = "-" ∨ t.value = "," then
        (if checkV ts pos .symbol "," then parseActionCoords ts fuel acc (pos + 1)
         else
           let neg := checkV ts pos .symbol "-"
           let p1 := if neg then pos + 1 else pos
           if (peekT ts p1).ty = .number then
             parseActionCoords ts fuel
               (acc ++ [if neg then (jsParseFloat (peekT ts p1).value).map (fun q => -q)
                        else jsParseFloat (peekT ts p1).value]) (p1 + 1)
           else .ok acc p1)
      else .ok acc pos
termination_by structural n _ _ => n

/-- The argument/exclusion loop of a MethodCall statement. -/
def parseMethodArgs (ts : List Token) :
    Nat → List Expr → Option String → Nat → PRes (List Expr × Option String)
  | 0, _, _, _ => .out
  | fuel + 1, args, excl, pos =>
      if ¬ checkV ts pos .symbol ")" then
        (if checkV ts pos .keyword "not" then
          pbind (expectT ts (pos + 1) .identifier) fun e p2 =>
            parseMethodArgs ts fuel args (some e.value) p2
        else
          pbind (parseExpression ts fuel pos) fun a p1 =>
            parseMethodArgs ts fuel (args ++ [a]) excl
              (if checkV ts p1 .symbol "," then p1 + 1 else p1))
      else .ok (args, excl) pos
termination_by structural n _ _ _ => n

def parseAction (ts : List Token) : Nat → Nat → PRes Stmt
  | 0, _ => .out
  | fuel + 1, pos =>
      pbind (expectT ts pos .identifier) fun objT p1 =>
      pbind (parseSubTarget ts p1) fun sub p3 =>
      pbind (expectV ts p3 .symbol ".") fun _ p4 =>
      pbind (expectT ts p4 .identifier) fun pm p5 =>
      if checkV ts p5 .symbol "=" then
        (let t1 := peekT ts (p5 + 1)
         if (t1.ty = .number ∨ t1.value = "-") ∧ (peekT ts (p5 + 2)).value = "," then
           pbind (parseActionCoords ts fuel [] (p5 + 1)) fun coords p7 =>
             .ok (.propertyAssignment objT.value sub pm.value (.coords coords)) p7
         else
           pbind (parseExpression ts fuel (p5 + 1)) fun e p7 =>
             .ok (.propertyAssignment objT.value sub pm.value (.exprV e)) p7)
      else if checkV ts p5 .symbol "(" then
        pbind (parseMethodArgs ts fuel [] none (p5 + 1)) fun ae p6 =>
        pbind (expectV ts p6 .symbol ")") fun _ p7 =>
          .ok (.methodCall objT.value pm.value ae.1 ae.2) p7
      else .err ("Expected assignment or method call after " ++ objT.value ++
        "." ++ pm.value) none

end

/-- parse(tokens): run parseProgram from cursor 0. -/
def parse (ts : List Token) (fuel : Nat) : PRes (List Stmt) :=
  parseProgram ts fuel 0

/-! ### Compiler pipeline (compiler.ts, second version) -/

/-- JS String.prototype.replace with a plain-string pattern replaces the
    first occurrence only. -/
def replaceFirst (s pat : String) : String :=
  match s.splitOn pat with
  | [] => s
  | [x] => x
  | x :: y :: rest => x ++ String.intercalate pat (y :: rest)

def fsGet (fs : List (String × String)) (p : String) : Option String :=
  match fs with
  | [] => none
  | (k, v) :: rest => if k = p then some v else fsGet rest p

def sset (m : List (String × String)) (k v : String) : List (String × String) :=
  match m with
  | [] => [(k, v)]
  | (k1, v1) :: rest => if k1 = k then (k1, v) :: rest else (k1, v1) :: sset rest k v

/-- The candidate paths of a local import: raw source, cleaned name with
    the language extension, and the local/ subpath. -/
def possiblePaths (source : String) : List String :=
  let cleanName := replaceFirst source "local@"
  [source, cleanName ++ ".klang", "local/" ++ cleanName ++ ".klang"]

/-- The first path whose file text is truthy (missing and empty files
    are both skipped). -/
def firstExisting (fs : List (String × String)) : List String → String
  | [] => ""
  | p :: rest =>
      match fsGet fs p with
      | some t => if ¬ t = "" then t else firstExisting fs rest
      | none => firstExisting fs rest

def resolveLocal (source : String) (fs : List (String × String)) : String :=
  firstExisting fs (possiblePaths source)

/-- The http-import branch: cache hit, else fetch (caching the body), a
    failed fetch degrading to the fallback print program.  The network
    is an oracle parameter. -/
def fetchModSource (fetchO : String → Option String)
    (cache : List (String × String)) (source : String) :
    String × List (String × String) :=
  match fsGet cache source with
  | some t =>
      if ¬ t = "" then (t, cache)
      else
        (match fetchO source with
         | some body => (body, sset cache source body)
         | none => ("console.print(\"Failed to load " ++ source ++ "\")", cache))
  | none =>
      (match fetchO source with
       | some body => (body, sset cache source body)
       | none => ("console.print(\"Failed to load " ++ source ++ "\")", cache))

def Value.isUndef : Value → Bool
  | .undefined => true
  | _ => false

/-- The import statements of a program, in order. -/
def importsOf (ast : List Stmt) : List Stmt :=
  ast.filter (fun s => match s with | .importS _ _ _ => true | _ => false)

/-- What the import loop leaves in `modules`: a single-item aliased
    binding, bulk item bindings, or the whole module scope as one
    object (allocated on the heap). -/
def mergeModule (modScope : List (String × Value)) (modHeap : Heap)
    (source : String) (items : Option (List String))
    (aliasName : Option String) (modules : List (String × Value)) :
    List (String × Value) × Heap :=
  match items with
  | some its =>
      if 0 < its.length then
        (match aliasName, its with
         | some al, [itemName] =>
             (match jget modScope itemName with
              | some v => if v.isUndef then (modules, modHeap)
                          else (jset modules al v, modHeap)
              | none => (modules, modHeap))
         | _, _ =>
             (its.foldl (fun m it =>
                match jget modScope it with
                | some v => if v.isUndef then m else jset m it v
                | none => m) modules, modHeap))
      else
        (jset modules
          (match aliasName with
           | some al => if ¬ al = "" then al else source
           | none => source) (.ref modHeap.length), modHeap ++ [modScope])
  | none =>
      (jset modules
        (match aliasName with
         | some al => if ¬ al = "" then al else source
         | none => source) (.ref modHeap.length), modHeap ++ [modScope])

/-- Import-loop results: the assembled module table and heap, a
    propagated parse error from a module, or fuel exhaustion on the
    recursive compilation depth. -/
inductive IRes where
  | ok (modules : List (String × Value)) (heap : Heap) : IRes
  | perr (msg : String) (line : Option Nat) : IRes
  | out : IRes

/-- Compile results: the final interpreter state, a parse error, or
    recursion fuel exhaustion. -/
inductive CRes where
  | ok (st : InterpSt) : CRes
  | perr (msg : String) (line : Option Nat) : CRes
  | out : CRes

mutual

def processImports (fetchO : String → Option String) :
    Nat → List Stmt → List (String × String) → List (String × Value) →
    List (String × String) → Heap → IRes × List (String × String)
  | 0, _, _, _, cache, _ => (.out, cache)
  | fuel + 1, imps, fs, modules, cache, heap =>
      match imps with
      | [] => (.ok modules heap, cache)
      | .importS source items aliasName :: rest =>
          let mc : String × List (String × String) :=
            if source.startsWith "http" then fetchModSource fetchO cache source
            else (resolveLocal source fs, cache)
          if mc.1 = "" then
            processImports fetchO fuel rest fs modules mc.2 heap
          else
            (match compile fetchO fuel mc.1 fs mc.2 heap with
             | (.ok stM, cache2) =>
                 let mh := mergeModule stM.scope stM.heap source items
                   aliasName modules
                 processImports fetchO fuel rest fs mh.1 cache2 mh.2
             | (.perr m l, cache2) => (.perr m l, cache2)
             | (.out, cache2) => (.out, cache2))
      | _ :: rest => processImports fetchO fuel rest fs modules cache heap
termination_by structural n _ _ _ _ _ => n

def compile (fetchO : String → Option String) :
    Nat → String → List (String × String) → List (String × String) → Heap →
    CRes × List (String × String)
  | 0, _, _, cache, _ => (.out, cache)
  | fuel + 1, src, fs, cache, heap0 =>
      let ts := tokenize src
      match parse ts (32 * ts.length + 64) with
      | .err m l => (.perr m l, cache)
      | .out => (.out, cache)
      | .ok ast _ =>
          match processImports fetchO fuel (importsOf ast) fs [] cache heap0 with
          | (.ok modules heap1, cache1) => (.ok (interpret ast modules heap1), cache1)
          | (.perr m l, cache1) => (.perr m l, cache1)
          | (.out, cache1) => (.out, cache1)
termination_by structural n _ _ _ _ => n

end

/-- The exact mesh source text quoted by the specification (semicolons
    after both closing brackets). -/
def c7srcSpec : String :=
  "a = mesh\x7b vertices=[0,0,0;1,0,0;1,1,0;]; faces=[0,1,2;]; \x7d console.print(\"ok\")"

/-- The same program without the two bracket-trailing semicolons, which
    is what parseMesh actually accepts. -/
def c7srcAmended : String :=
  "a = mesh\x7b vertices=[0,0,0;1,0,0;1,1,0;] faces=[0,1,2;] \x7d console.print(\"ok\")"

def c7result : CRes × List (String × String) :=
  compile (fun _ => none) 10 c7srcAmended [] [] []

def c7state : InterpSt :=
  match c7result.1 with
  | .ok st => st
  | _ => ⟨[], [], [], [], []⟩

/-- A program whose single import resolves to nothing in an empty file
    table, followed by an ordinary statement. -/
def c8src : String := "import missing as m console.print(\"ok\")"

def c8result : CRes × List (String × String) :=
  compile (fun _ => none) 10 c8src [] [] []

def c8state : InterpSt :=
  match c8result.1 with
  | .ok st => st
  | _ => ⟨[], [], [], [], []⟩

/-- A well-formed parser input: non-EOF tokens closed by a single final
    end-of-input token (type EOF, empty text) — the shape of every
    tokenize output. -/
def goodStream : List Token → Bool
  | [] => false
  | [t] => decide (t.ty = .eof) && decide (t.value = "")
  | t :: rest => decide (¬ t.ty = .eof) && goodStream rest

/-- The line numbers of a token stream never decrease. -/
def linesMono : List Token → Bool
  | [] => true
  | [_] => true
  | t1 :: t2 :: rest => decide (t1.line ≤ t2.line) && linesMono (t2 :: rest)

/-- The facts carried by one parse result: success lands at or beyond
    `lo` and inside the stream; an error only cites lines of the
    stream's tokens; fuel exhaustion only under `mayOut`. -/
def InfactsO {α : Type} (ts : List Token) (lo : Nat) (r : PRes α)
    (mayOut : Prop) : Prop :=
  match r with
  | .ok _ p' => lo ≤ p' ∧ p' + 1 ≤ ts.length
  | .err _ l => ∀ x, l = some x → ∃ t ∈ ts, t.line = x
  | .out => mayOut

/-- The invariant every parsing function maintains on a well-formed
    stream: fuel at least `32·(remaining tokens) + rank` rules out fuel
    exhaustion; success advances the cursor by at least `strict` and
    keeps it inside the stream; and an error that cites a line cites the
    line of one of the stream's tokens. -/
def FnInv {γ : Type} (ts : List Token) (strict rank : Nat)
    (f : Nat → Nat → PRes γ) (n : Nat) : Prop :=
  ∀ pos, pos + 1 ≤ ts.length →
    (32 * (ts.length - pos) + rank ≤ n → ¬ f n pos = .out) ∧
    (∀ a p', f n pos = .ok a p' → pos + strict ≤ p' ∧ p' + 1 ≤ ts.length) ∧
    (∀ m l x, f n pos = .err m l → l = some x → ∃ t ∈ ts, t.line = x)

/-- FnInv for a parser carrying one accumulator. -/
def FnInvA {δ γ : Type} (ts : List Token) (strict rank : Nat)
    (f : Nat → δ → Nat → PRes γ) (n : Nat) : Prop :=
  ∀ acc, FnInv ts strict rank (fun m pos => f m acc pos) n

/-- FnInv for a parser carrying two accumulators. -/
def FnInvA2 {δ1 δ2 γ : Type} (ts : List Token) (strict rank : Nat)
    (f : Nat → δ1 → δ2 → Nat → PRes γ) (n : Nat) : Prop :=
  ∀ a b, FnInv ts strict rank (fun m pos => f m a b pos) n

/-- The joint invariant of all parsing functions at one fuel level,
    with each function's strictness and measure rank. -/
structure ParserInv (ts : List Token) (n : Nat) : Prop where
  prog : FnInv ts 0 31 (parseProgram ts) n
  blockStmts : FnInv ts 0 30 (parseBlockStmts ts) n
  stmt : FnInv ts 1 29 (parseStatement ts) n
  block : FnInv ts 1 28 (parseBlock ts) n
  ifP : FnInv ts 1 28 (parseIf ts) n
  whileP : FnInv ts 1 28 (parseWhile ts) n
  forP : FnInv ts 1 28 (parseFor ts) n
  importP : FnInv ts 1 28 (parseImport ts) n
  importIds : FnInv ts 0 30 (parseImportIds ts) n
  dashName : FnInvA ts 0 30 (parseDashName ts) n
  consoleP : FnInv ts 1 28 (parseConsolePrint ts) n
  assignP : FnInv ts 1 28 (parseAssignment ts) n
  expr : FnInv ts 1 27 (parseExpression ts) n
  logicOr : FnInv ts 1 26 (parseLogicOr ts) n
  equality : FnInv ts 1 25 (parseEquality ts) n
  eqLoop : FnInvA ts 0 30 (parseEqualityLoop ts) n
  comparison : FnInv ts 1 24 (parseComparison ts) n
  cmpLoop : FnInvA ts 0 30 (parseComparisonLoop ts) n
  term : FnInv ts 1 23 (parseTerm ts) n
  termLoop : FnInvA ts 0 30 (parseTermLoop ts) n
  factor : FnInv ts 1 22 (parseFactor ts) n
  facLoop : FnInvA ts 0 30 (parseFactorLoop ts) n
  unary : FnInv ts 1 21 (parseUnary ts) n
  primary : FnInv ts 1 20 (parsePrimary ts) n
  argsList : FnInv ts 0 30 (parseArgsList ts) n
  argsMore : FnInv ts 0 30 (parseArgsMore ts) n
  cubeP : FnInv ts 1 19 (parseCube ts) n
  cubeScan : FnInvA ts 0 30 (parseCubeScan ts) n
  meshP : FnInv ts 1 19 (parseMesh ts) n
  meshBody : FnInvA2 ts 0 30 (parseMeshBody ts) n
  meshVerts : FnInv ts 0 30 (parseMeshVerts ts) n
  faceIdx : FnInv ts 1 19 (parseFaceIndices ts) n
  meshFaces : FnInv ts 0 30 (parseMeshFaces ts) n
  materialP : FnInv ts 1 19 (parseMaterial ts) n
  modifierP : FnInv ts 1 19 (parseModifier ts) n
  kvBlock : FnInvA ts 0 30 (parseKeyValueBlock ts) n
  kvKeys : FnInv ts 0 30 (parseKVKeys ts) n
  kvVals : FnInv ts 0 30 (parseKVVals ts) n
  groupP : FnInv ts 1 19 (parseGroup ts) n
  groupItems : FnInv ts 0 30 (parseGroupItems ts) n
  action : FnInv ts 1 28 (parseAction ts) n
  actionCoords : FnInvA ts 0 30 (parseActionCoords ts) n
  methodArgs : FnInvA2 ts 0 30 (parseMethodArgs ts) n

/-! ### Helper lemmas about maps, loops and state -/

theorem jget_jset (m : List (String × Value)) (k : String) (v : Value) :
    jget (jset m k v) k = some v := by
  induction m with
  | nil => simp [jset, jget]
  | cons p rest ih =>
      by_cases h : p.1 = k
      · simp [jset, jget, h]
      · simp [jset, jget, h, ih]

theorem jset_jset (m : List (String × Value)) (k : String) (a b : Value) :
    jset (jset m k a) k b = jset m k b := by
  induction m with
  | nil => simp [jset]
  | cons p rest ih =>
      by_cases h : p.1 = k
      · simp [jset, h]
      · simp [jset, h, ih]

theorem jset_self (m : List (String × Value)) (k : String) (v : Value)
    (h : jget m k = some v) : jset m k v = m := by
  induction m with
  | nil => simp [jget] at h
  | cons p rest ih =>
      obtain ⟨k1, v1⟩ := p
      by_cases hk : k1 = k
      · simp [jget, hk] at h
        simp [jset, hk, h]
      · simp [jget, hk] at h
        simp [jset, hk, ih h]

theorem scopeGet_scopeSet (st : InterpSt) (k : String) (v : Value) :
    scopeGet (scopeSet st k v) k = v := by
  simp [scopeGet, scopeSet, jgetD, jget_jset]

theorem scopeSet_scopeSet (st : InterpSt) (k : String) (a b : Value) :
    scopeSet (scopeSet st k a) k b = scopeSet st k b := by
  simp [scopeSet, jset_jset]

/-- A while loop whose condition evaluates to a fixed truthy value
    without side effects and whose body is the identity spins down its
    whole budget and returns the state unchanged. -/
theorem whileLoop_true_id (evalCond : InterpSt → EvalRes Value)
    (runBody : InterpSt → InterpSt) (v : Value)
    (hv : truthy v = true)
    (hc : ∀ s, evalCond s = .ok (v, s))
    (hb : ∀ s, runBody s = s) :
    ∀ (n : Nat) (st : InterpSt), whileLoop evalCond runBody n st = .ok (0, st) := by
  intro n
  induction n with
  | zero => intro st; simp [whileLoop, hc]
  | succ k ih => intro st; simp [whileLoop, hc, hv, hb, ih]

/-- Same, but with a body that appends one log line: after the loop the
    log has grown by exactly one line per iteration, making the
    iteration count observable. -/
theorem whileLoop_true_log (evalCond : InterpSt → EvalRes Value)
    (runBody : InterpSt → InterpSt) (v : Value) (m : String)
    (hv : truthy v = true)
    (hc : ∀ s, evalCond s = .ok (v, s))
    (hb : ∀ s, runBody s = pushLog s m) :
    ∀ (n : Nat) (st : InterpSt), whileLoop evalCond runBody n st =
      .ok (0, { st with logs := st.logs ++ List.replicate n m }) := by
  intro n
  induction n with
  | zero => intro st; simp [whileLoop, hc]
  | succ k ih =>
      intro st
      simp [whileLoop, hc, hv, hb, ih, pushLog, List.replicate_succ]

/-- The comparison used by the For loop guards on step-1 numeric
    values. -/
theorem jsGtB_num (a b : ℚ) :
    jsGtB (.num (some a)) (.num (some b)) = decide (b < a) := by
  simp [jsGtB, jsCmp, toPrim, toNumber]

theorem jsLtB_num (a b : ℚ) :
    jsLtB (.num (some a)) (.num (some b)) = decide (a < b) := by
  simp [jsLtB, jsCmp, toPrim, toNumber]

theorem jsAdd_num (a b : ℚ) :
    jsAdd (.num (some a)) (.num (some b)) = .num (some (a + b)) := by
  simp [jsAdd, toPrim, toNumber]

/-- A for loop with step 1 over a numeric variable and an effect-free
    body: starting `j` steps below the exit threshold with enough
    budget, it runs exactly `j` iterations and leaves the variable just
    past the bound. -/
theorem forLoop_steps (varName : String) (E : ℚ)
    (runBody : InterpSt → InterpSt) (hb : ∀ s, runBody s = s) :
    ∀ (j n : Nat) (st : InterpSt) (c : ℚ),
      scopeGet st varName = .num (some c) →
      (j : ℚ) + c = E + 1 →
      j ≤ n →
      forLoop varName (.num (some E)) (.num (some 1)) runBody n st =
        (n - j, scopeSet st varName (.num (some (E + 1)))) := by
  intro j
  induction j with
  | zero =>
      intro n st c hc hj _
      have hcE : c = E + 1 := by push_cast at hj; linarith
      have hjg : jget st.scope varName = some (.num (some c)) := by
        have h0 := hc
        simp only [scopeGet, jgetD] at h0
        cases hg : jget st.scope varName with
        | none => rw [hg] at h0; simp at h0
        | some w => rw [hg] at h0; simp at h0; rw [h0]
      have hset : scopeSet st varName (.num (some (E + 1))) = st := by
        rw [← hcE]
        simp [scopeSet, jset_self st.scope varName (.num (some c)) hjg]
      rw [hset, Nat.sub_zero]
      cases n with
      | zero => rfl
      | succ k =>
          rw [forLoop]
          have hgt : jsGtB (scopeGet st varName) (.num (some E)) = true := by
            rw [hc, hcE, jsGtB_num]
            simp
          have h10 : jsGtB (Value.num (some 1)) (Value.num (some 0)) = true := by rfl
          simp [hgt, h10]
  | succ i ih =>
      intro n st c hc hj hn
      cases n with
      | zero => omega
      | succ k =>
          have hnotgt : jsGtB (Value.num (some c)) (.num (some E)) = false := by
            rw [jsGtB_num]
            simp
            push_cast at hj
            linarith
          have hstep : forLoop varName (.num (some E)) (.num (some 1)) runBody (k + 1) st =
              forLoop varName (.num (some E)) (.num (some 1)) runBody k
                (scopeSet st varName (.num (some (c + 1)))) := by
            rw [forLoop]
            have h10 : jsLtB (Value.num (some 1)) (Value.num (some 0)) = false := by rfl
            simp [hnotgt, h10, hb, hc, jsAdd_num]
          rw [hstep, ih k (scopeSet st varName (.num (some (c + 1)))) (c + 1)
            (scopeGet_scopeSet ..) (by push_cast at hj ⊢; linarith) (by omega)]
          rw [scopeSet_scopeSet]
          congr 1
          omega

/-! ### Claim theorems -/

/-- C1: interpret is total by construction (it is a plain Lean function
    into InterpSt, with no exception escape), and the per-statement
    failure containment holds: if the try-body of one statement throws,
    the exception message is appended to the errors list and execution
    continues with the next statement, so every remaining statement
    still runs. -/
theorem c1_statement_failure_containment (s : Stmt) (rest : List Stmt)
    (st st1 : InterpSt) (msg : String)
    (h : executeStatementTry s st = .error (msg, st1)) :
    executeBlock (s :: rest) st =
      executeBlock rest (pushError st1 ("Error executing statement: " ++ msg)) := by
  simp [executeBlock, catchStatement, h]

/-- C1 witness: assigning `group[n]` where `n` holds the number 5
    throws while reparenting (strict-mode property write on a
    primitive); the exception is captured as an error entry and the
    following statement still runs. -/
theorem c1_statement_failure_containment_witness :
    executeBlock
        [Stmt.assignment "g" (.group ["n"]), Stmt.consolePrint (.lit (.str "after"))]
        { scope := [("n", .num (some 5))], sceneGraph := [], logs := [],
          errors := [], heap := [] } =
      executeBlock [Stmt.consolePrint (.lit (.str "after"))]
        (pushError
          { scope := [("n", .num (some 5)), ("g", .ref 3)],
            sceneGraph := [("g", .ref 3)],
            logs := [], errors := [],
            heap := [[("x", .num (some 0)), ("y", .num (some 0)), ("z", .num (some 0))],
                     [("x", .num (some 0)), ("y", .num (some 0)), ("z", .num (some 0))],
                     [("x", .num (some 1)), ("y", .num (some 1)), ("z", .num (some 1))],
                     [("type", .str "group"), ("children", .arr [.str "n"]),
                      ("pos", .ref 0), ("rot", .ref 1), ("scale", .ref 2),
                      ("parent", .null), ("id", .str "g")]] }
          ("Error executing statement: " ++ "Cannot create property 'parent' on primitive")) :=
  c1_statement_failure_containment (Stmt.assignment "g" (.group ["n"]))
    [Stmt.consolePrint (.lit (.str "after"))]
    { scope := [("n", .num (some 5))], sceneGraph := [], logs := [],
      errors := [], heap := [] }
    { scope := [("n", .num (some 5)), ("g", .ref 3)],
      sceneGraph := [("g", .ref 3)],
      logs := [], errors := [],
      heap := [[("x", .num (some 0)), ("y", .num (some 0)), ("z", .num (some 0))],
               [("x", .num (some 0)), ("y", .num (some 0)), ("z", .num (some 0))],
               [("x", .num (some 1)), ("y", .num (some 1)), ("z", .num (some 1))],
               [("type", .str "group"), ("children", .arr [.str "n"]),
                ("pos", .ref 0), ("rot", .ref 1), ("scale", .ref 2),
                ("parent", .null), ("id", .str "g")]] }
    "Cannot create property 'parent' on primitive" (by rfl)

/-- C2: the statement `while 1 == 1 { }` terminates, appends exactly
    one cap-exceeded error, and the following statements still execute;
    with the body instrumented to log one line per execution, the log
    grows by exactly 10000 lines, so the body ran exactly 10000
    times. -/
theorem c2_while_true_caps_at_10000 :
    (∀ (rest : List Stmt) (st : InterpSt),
      executeBlock
          (Stmt.whileS (.binary "==" (.lit (.num (some 1))) (.lit (.num (some 1)))) [] :: rest) st =
        executeBlock rest (pushError st "Runtime Error: Loop exceeded 10000 iterations.")) ∧
    (∀ st : InterpSt,
      executeStatement
          (Stmt.whileS (.binary "==" (.lit (.num (some 1))) (.lit (.num (some 1))))
            [Stmt.consolePrint (.lit (.str "tick"))]) st =
        pushError { st with logs := st.logs ++ List.replicate 10000 "> tick" }
          "Runtime Error: Loop exceeded 10000 iterations.") := by
  constructor
  · intro rest st
    have hw := whileLoop_true_id
      (evaluateExpression (.binary "==" (.lit (.num (some 1))) (.lit (.num (some 1)))))
      (executeBlock []) (.bool true) rfl (fun s => rfl) (fun s => rfl) 10000 st
    show executeBlock rest (catchStatement (executeStatementTry _ st)) = _
    have key : executeStatementTry
        (Stmt.whileS (.binary "==" (.lit (.num (some 1))) (.lit (.num (some 1)))) []) st =
        finishWhile (whileLoop
          (evaluateExpression (.binary "==" (.lit (.num (some 1))) (.lit (.num (some 1)))))
          (executeBlock []) 10000 st) := rfl
    rw [key, hw]
    rfl
  · intro st
    have hw := whileLoop_true_log
      (evaluateExpression (.binary "==" (.lit (.num (some 1))) (.lit (.num (some 1)))))
      (executeBlock [Stmt.consolePrint (.lit (.str "tick"))])
      (.bool true) "> tick" rfl (fun s => rfl) (fun s => rfl) 10000 st
    show catchStatement (executeStatementTry _ st) = _
    have key : executeStatementTry
        (Stmt.whileS (.binary "==" (.lit (.num (some 1))) (.lit (.num (some 1))))
          [Stmt.consolePrint (.lit (.str "tick"))]) st =
        finishWhile (whileLoop
          (evaluateExpression (.binary "==" (.lit (.num (some 1))) (.lit (.num (some 1)))))
          (executeBlock [Stmt.consolePrint (.lit (.str "tick"))]) 10000 st) := rfl
    rw [key, hw]
    rfl

/-- C9 (code evaluation): a call expression whose callee is not one of
    the four built-in coercions evaluates to null without touching the
    state: the arguments are never evaluated and no library function is
    ever invoked, whatever modules are bound in scope.  This is the
    CallExpr case of evaluateExpression, whose TODO comment leaves
    library calls unimplemented. -/
theorem c9_call_expr_yields_null (callee : String) (args : List Expr)
    (st : InterpSt)
    (h1 : callee ≠ "int") (h2 : callee ≠ "float")
    (h3 : callee ≠ "string") (h4 : callee ≠ "bool") :
    evaluateExpression (.call callee args) st = .ok (.null, st) := by
  have hcond : ¬ (callee = "int" ∨ callee = "float" ∨ callee = "string" ∨ callee = "bool") := by
    simp [h1, h2, h3, h4]
  rw [evaluateExpression.eq_def]
  simp only []
  rw [if_neg hcond]

/-- C9 witness: the library call `math.abs(5)` (callee "math.abs")
    evaluates to null even with a module bound under "math". -/
theorem c9_call_expr_yields_null_witness :
    evaluateExpression (.call "math.abs" [.lit (.num (some 5))])
        { scope := [("math", .ref 0)], sceneGraph := [], logs := [],
          errors := [], heap := [[("abs", .str "native function")]] } =
      .ok (.null,
        { scope := [("math", .ref 0)], sceneGraph := [], logs := [],
          errors := [], heap := [[("abs", .str "native function")]] }) :=
  c9_call_expr_yields_null "math.abs" [.lit (.num (some 5))] _
    (by decide) (by decide) (by decide) (by decide)

/-- C10: the loop cap is checked after the budget is spent, so a loop
    whose body runs exactly 10000 times records the cap error even when
    its range is exactly exhausted: `for i = 1 to 10000 { }` completes
    its range and still appends the error, `for i = 1 to 9999 { }` does
    not; and for any While statement, the cap error is appended exactly
    when the loop returned with a zero remaining limit, i.e. after
    exactly 10000 body executions. -/
theorem c10_cap_error_off_by_one :
    (∀ st : InterpSt,
      executeStatement
          (Stmt.forS "i" (.lit (.num (some 1))) (.lit (.num (some 10000))) none []) st =
        pushError (scopeSet st "i" (.num (some 10001)))
          "Runtime Error: Loop exceeded 10000 iterations.") ∧
    (∀ st : InterpSt,
      executeStatement
          (Stmt.forS "i" (.lit (.num (some 1))) (.lit (.num (some 9999))) none []) st =
        scopeSet st "i" (.num (some 10000))) ∧
    (∀ (cond : Expr) (body : List Stmt) (st st1 : InterpSt) (limit : Nat),
      whileLoop (evaluateExpression cond) (executeBlock body) 10000 st =
          .ok (limit, st1) →
      executeStatement (.whileS cond body) st =
        if limit = 0 then
          pushError st1 "Runtime Error: Loop exceeded 10000 iterations."
        else st1) := by
  refine ⟨?_, ?_, ?_⟩
  · intro st
    have hf : forLoop "i" (.num (some 10000)) (.num (some 1))
        (executeBlock []) 10000 (scopeSet st "i" (.num (some 1))) =
        (0, scopeSet st "i" (.num (some 10001))) := by
      have h0 := forLoop_steps "i" 10000 (executeBlock []) (fun s => rfl)
        10000 10000 (scopeSet st "i" (.num (some 1))) 1
        (scopeGet_scopeSet ..) (by norm_num) (le_refl _)
      rw [h0, scopeSet_scopeSet]
      norm_num
    show catchStatement (executeStatementTry _ st) = _
    have key : executeStatementTry
        (Stmt.forS "i" (.lit (.num (some 1))) (.lit (.num (some 10000))) none []) st =
        finishFor (forLoop "i" (.num (some 10000)) (.num (some 1))
          (executeBlock []) 10000 (scopeSet st "i" (.num (some 1)))) := rfl
    rw [key, hf]
    rfl
  · intro st
    have hf : forLoop "i" (.num (some 9999)) (.num (some 1))
        (executeBlock []) 10000 (scopeSet st "i" (.num (some 1))) =
        (1, scopeSet st "i" (.num (some 10000))) := by
      have h0 := forLoop_steps "i" 9999 (executeBlock []) (fun s => rfl)
        9999 10000 (scopeSet st "i" (.num (some 1))) 1
        (scopeGet_scopeSet ..) (by norm_num) (by norm_num)
      rw [h0, scopeSet_scopeSet]
      norm_num
    show catchStatement (executeStatementTry _ st) = _
    have key : executeStatementTry
        (Stmt.forS "i" (.lit (.num (some 1))) (.lit (.num (some 9999))) none []) st =
        finishFor (forLoop "i" (.num (some 9999)) (.num (some 1))
          (executeBlock []) 10000 (scopeSet st "i" (.num (some 1)))) := rfl
    rw [key, hf]
    rfl
  · intro cond body st st1 limit h
    show catchStatement (executeStatementTry _ st) = _
    have key : executeStatementTry (.whileS cond body) st =
        finishWhile (whileLoop (evaluateExpression cond)
          (executeBlock body) 10000 st) := rfl
    rw [key, h]
    by_cases hl : limit = 0
    · simp [hl, finishWhile, catchStatement]
    · simp [hl, finishWhile, catchStatement]

/-- C10 witness: the While characterization applied to the concrete
    loop `while 1 == 1 { }` from the empty state: the budget is fully
    consumed and the cap error is appended. -/
theorem c10_cap_error_off_by_one_witness :
    executeStatement
        (Stmt.whileS (.binary "==" (.lit (.num (some 1))) (.lit (.num (some 1)))) [])
        { scope := [], sceneGraph := [], logs := [], errors := [], heap := [] } =
      pushError { scope := [], sceneGraph := [], logs := [], errors := [], heap := [] }
        "Runtime Error: Loop exceeded 10000 iterations." := by
  have h := c10_cap_error_off_by_one.2.2
    (.binary "==" (.lit (.num (some 1))) (.lit (.num (some 1)))) []
    { scope := [], sceneGraph := [], logs := [], errors := [], heap := [] }
    { scope := [], sceneGraph := [], logs := [], errors := [], heap := [] } 0
    (whileLoop_true_id
      (evaluateExpression (.binary "==" (.lit (.num (some 1))) (.lit (.num (some 1)))))
      (executeBlock []) (.bool true) rfl (fun s => rfl) (fun s => rfl) 10000
      { scope := [], sceneGraph := [], logs := [], errors := [], heap := [] })
  simpa using h

/-- C6: after `grp = group[a,b]` over two existing cubes, the scene
    object of `a` has parent "grp" and grp.children lists "a"; the later
    `a.pos = 1,2,3` replaces only the pos field of a's object (the rest
    of the object, b's object, scope and scene graph are untouched) and
    leaves grp.children unchanged; reassigning `a` to a brand-new cube
    rebinds scope and scene graph to the new object without updating
    grp.children and without re-wiring the new object's parent, which
    stays null while the old object keeps parent "grp". -/
theorem c6_group_wiring_is_assignment_time_only :
    (jget c6st3.sceneGraph "a" = some (.ref 17) ∧
     readField c6st3 17 "parent" = .str "grp" ∧
     jget c6st3.sceneGraph "grp" = some (.ref 39) ∧
     readField c6st3 39 "children" = .arr [.str "a", .str "b"]) ∧
    (readField c6st4 17 "pos" = .ref 40 ∧
     heapGet c6st4.heap 40 =
       [("x", .num (some 1)), ("y", .num (some 2)), ("z", .num (some 3))] ∧
     heapGet c6st4.heap 17 = jset (heapGet c6st3.heap 17) "pos" (.ref 40) ∧
     c6st4.scope = c6st3.scope ∧
     c6st4.sceneGraph = c6st3.sceneGraph ∧
     heapGet c6st4.heap 35 = heapGet c6st3.heap 35 ∧
     readField c6st4 39 "children" = .arr [.str "a", .str "b"]) ∧
    (jget c6st5.sceneGraph "a" = some (.ref 58) ∧
     jget c6st5.sceneGraph "a" ≠ some (.ref 17) ∧
     jget c6st5.scope "a" = some (.ref 58) ∧
     readField c6st5 39 "children" = .arr [.str "a", .str "b"] ∧
     readField c6st5 58 "parent" = .null ∧
     readField c6st5 17 "parent" = .str "grp" ∧
     c6st5.errors = []) := by
  refine ⟨⟨rfl, rfl, rfl, rfl⟩, ⟨rfl, rfl, rfl, rfl, rfl, rfl, rfl⟩,
    ⟨rfl, ?_, rfl, rfl, rfl, rfl, rfl⟩⟩
  intro h
  rw [show jget c6st5.sceneGraph "a" = some (.ref 58) from rfl] at h
  simp at h

theorem allocParsedVectors_frame (vs : List String) (st : InterpSt) :
    (allocParsedVectors vs st).2.scope = st.scope ∧
    (allocParsedVectors vs st).2.sceneGraph = st.sceneGraph ∧
    (allocParsedVectors vs st).2.logs = st.logs ∧
    (allocParsedVectors vs st).2.errors = st.errors := by
  induction vs generalizing st with
  | nil => simp [allocParsedVectors]
  | cons s rest ih =>
      simp only [allocParsedVectors, allocVec3, alloc]
      exact ih _

theorem allocParsedVectors_eq (vs : List String) (st : InterpSt) :
    allocParsedVectors vs st =
      ((List.range vs.length).map (fun i => Value.ref (st.heap.length + i)),
       { st with heap := st.heap ++ vs.map vertexFields }) := by
  induction vs generalizing st with
  | nil => simp [allocParsedVectors]
  | cons s rest ih =>
      simp only [allocParsedVectors, allocVec3, alloc, ih, List.length_cons,
        List.map_cons, List.range_succ_eq_map, List.map_map, Prod.mk.injEq]
      refine ⟨?_, ?_⟩
      · rw [Nat.add_zero]
        congr 1
        apply List.map_congr_left
        intro i _
        simp only [Function.comp, List.length_append, List.length_cons,
          List.length_nil]
        congr 1
        omega
      · simp [List.append_assoc, vertexFields]

theorem heapGet_append_add (h l : Heap) (i : Nat) :
    heapGet (h ++ l) (h.length + i) = heapGet l i := by
  simp [heapGet, List.getElem?_append_right (Nat.le_add_right h.length i)]

theorem heapGet_append_len0 (h l : Heap) :
    heapGet (h ++ l) h.length = heapGet l 0 := by
  simpa using heapGet_append_add h l 0

theorem heapGet_append_lt (h1 h2 : Heap) (a : Nat) (ha : a < h1.length) :
    heapGet (h1 ++ h2) a = heapGet h1 a := by
  simp [heapGet, List.getElem?_append, ha]

theorem heapGet_map_append_add {α : Type} (l : List α) (f : α → JsObj)
    (t : Heap) (i : Nat) :
    heapGet (l.map f ++ t) (l.length + i) = heapGet t i := by
  rw [show l.length = (l.map f).length by simp]
  exact heapGet_append_add _ t i

theorem heapGet_map_append_len {α : Type} (l : List α) (f : α → JsObj)
    (t : Heap) :
    heapGet (l.map f ++ t) l.length = heapGet t 0 := by
  simpa using heapGet_map_append_add l f t 0

theorem readVertexTripleList_of_alloc (ss : List String) :
    ∀ (h0 tail : Heap),
      readVertexTripleList (h0 ++ (ss.map vertexFields ++ tail))
        ((List.range ss.length).map (fun i => Value.ref (h0.length + i))) =
      some (ss.map parseVector) := by
  induction ss with
  | nil => intro h0 tail; simp [readVertexTripleList]
  | cons s rest ih =>
      intro h0 tail
      simp only [List.length_cons, List.range_succ_eq_map, List.map_cons,
        List.map_map, List.cons_append]
      rw [readVertexTripleList]
      have hhead : readVertexTriple
          (h0 ++ (vertexFields s :: (List.map vertexFields rest ++ tail)))
          (Value.ref (h0.length + 0)) = some (parseVector s) := by
        rw [Nat.add_zero, readVertexTriple, heapGet_append_len0]
        rfl
      rw [hhead]
      have hre : h0 ++ (vertexFields s :: (List.map vertexFields rest ++ tail)) =
          (h0 ++ [vertexFields s]) ++ (List.map vertexFields rest ++ tail) := by
        simp
      rw [hre]
      have htl := ih (h0 ++ [vertexFields s]) tail
      have hfun : (List.map (fun i => Value.ref ((h0 ++ [vertexFields s]).length + i))
            (List.range rest.length)) =
          (List.map ((fun i => Value.ref (h0.length + i)) ∘ Nat.succ)
            (List.range rest.length)) := by
        apply List.map_congr_left
        intro i _
        simp only [Function.comp, List.length_append, List.length_cons,
          List.length_nil]
        congr 1
        omega
      rw [← hfun, htl]

set_option maxHeartbeats 2000000 in
/-- C3: a cube literal with exactly 8 vertex strings yields a geometry
    object carrying those 8 parsed vertices and exactly the six fixed
    quad faces, in order; with any other count, evaluation appends one
    diagnostic error, yields null, and an assignment of it creates no
    scene object. -/
theorem c3_cube_literal (vs : List String) (st : InterpSt) :
    (vs.length = 8 →
      ∃ a st1, evaluateExpression (.cube vs) st = .ok (.ref a, st1) ∧
        readField st1 a "type" = .str "geometry" ∧
        readField st1 a "shape" = .str "mesh" ∧
        readVertexTriples st1 (readField st1 a "vertices") =
          some (vs.map parseVector) ∧
        readFaceIndexLists st1 (readField st1 a "faces") =
          some [[0, 1, 2, 3], [4, 5, 6, 7], [0, 1, 5, 4],
                [1, 2, 6, 5], [2, 3, 7, 6], [3, 0, 4, 7]] ∧
        st1.errors = st.errors) ∧
    (vs.length ≠ 8 →
      evaluateExpression (.cube vs) st =
        .ok (.null,
          pushError { st with heap := st.heap ++ vs.map vertexFields }
            "Runtime Error: cube() requires exactly 8 vertices.") ∧
      ∀ x : String,
        (executeStatement (.assignment x (.cube vs)) st).sceneGraph =
          st.sceneGraph) := by
  constructor
  · intro h8
    have hne8 : ¬ (vs.length ≠ 8) := by simp [h8]
    refine ⟨st.heap.length + (vs.length + 9),
      { st with heap := st.heap ++ (vs.map vertexFields ++ c3tail vs st.heap.length) },
      ?_, ?_, ?_, ?_, ?_, ?_⟩
    case _ =>
      simp only [evaluateExpression, allocParsedVectors_eq]
      rw [if_neg hne8]
      simp [allocIndexFaces, allocTransforms, allocVec3, alloc, c3tail,
        List.append_assoc, Nat.add_assoc]
    case _ =>
      simp only [readField, c3tail, heapGet_append_add, heapGet_map_append_add]
      rfl
    case _ =>
      simp only [readField, c3tail, heapGet_append_add, heapGet_map_append_add]
      rfl
    case _ =>
      simp only [readField, c3tail, heapGet_append_add, heapGet_map_append_add]
      exact readVertexTripleList_of_alloc vs st.heap _
    case _ =>
      simp only [readField, heapGet_append_add, heapGet_map_append_add]
      show readFaceIndexListsAux
          (st.heap ++ (vs.map vertexFields ++ c3tail vs st.heap.length))
          [Value.ref (st.heap.length + vs.length),
           Value.ref (st.heap.length + (vs.length + 1)),
           Value.ref (st.heap.length + (vs.length + 2)),
           Value.ref (st.heap.length + (vs.length + 3)),
           Value.ref (st.heap.length + (vs.length + 4)),
           Value.ref (st.heap.length + (vs.length + 5))] =
        some [[0, 1, 2, 3], [4, 5, 6, 7], [0, 1, 5, 4],
              [1, 2, 6, 5], [2, 3, 7, 6], [3, 0, 4, 7]]
      simp only [readFaceIndexListsAux, readFaceIndices, c3tail,
        heapGet_append_add, heapGet_map_append_add, heapGet_map_append_len]
      rfl
    case _ => rfl
  · intro hne
    have hev : evaluateExpression (.cube vs) st =
        .ok (.null,
          pushError { st with heap := st.heap ++ vs.map vertexFields }
            "Runtime Error: cube() requires exactly 8 vertices.") := by
      rw [evaluateExpression, allocParsedVectors_eq]
      simp [hne]
    refine ⟨hev, ?_⟩
    intro x
    show (catchStatement (executeStatementTry _ st)).sceneGraph = _
    have key : executeStatementTry (.assignment x (.cube vs)) st =
        .ok ((), scopeSet
          (pushError { st with heap := st.heap ++ vs.map vertexFields }
            "Runtime Error: cube() requires exactly 8 vertices.") x .null) := by
      simp only [executeStatementTry, hev]
      rfl
    rw [key]
    rfl

/-- Witness for C3: the success branch at the canonical 8-vertex list and
    the failure branch at a 1-vertex list, both from the empty state. -/
theorem c3_cube_literal_witness :
    (cubeVerts8.length = 8 ∧
      (∃ a st1,
        evaluateExpression (.cube cubeVerts8) (⟨[], [], [], [], []⟩ : InterpSt) =
          .ok (.ref a, st1) ∧
        readField st1 a "type" = .str "geometry" ∧
        readField st1 a "shape" = .str "mesh" ∧
        readVertexTriples st1 (readField st1 a "vertices") =
          some (cubeVerts8.map parseVector) ∧
        readFaceIndexLists st1 (readField st1 a "faces") =
          some [[0, 1, 2, 3], [4, 5, 6, 7], [0, 1, 5, 4],
                [1, 2, 6, 5], [2, 3, 7, 6], [3, 0, 4, 7]] ∧
        st1.errors = (⟨[], [], [], [], []⟩ : InterpSt).errors)) ∧
    (["0,0,0"].length ≠ 8 ∧
      (evaluateExpression (.cube ["0,0,0"]) (⟨[], [], [], [], []⟩ : InterpSt) =
        .ok (.null,
          pushError { (⟨[], [], [], [], []⟩ : InterpSt) with
              heap := (⟨[], [], [], [], []⟩ : InterpSt).heap ++
                ["0,0,0"].map vertexFields }
            "Runtime Error: cube() requires exactly 8 vertices.") ∧
      ∀ x : String,
        (executeStatement (.assignment x (.cube ["0,0,0"]))
            (⟨[], [], [], [], []⟩ : InterpSt)).sceneGraph =
          (⟨[], [], [], [], []⟩ : InterpSt).sceneGraph)) :=
  ⟨⟨rfl, (c3_cube_literal cubeVerts8 ⟨[], [], [], [], []⟩).1 rfl⟩,
   ⟨by decide, (c3_cube_literal ["0,0,0"] ⟨[], [], [], [], []⟩).2 (by decide)⟩⟩

theorem heapGet_heapSet (h : Heap) (a : Nat) (o : JsObj) (ha : a < h.length) :
    heapGet (heapSet h a o) a = o := by
  simp [heapGet, heapSet, List.getElem?_set_self, ha]

theorem jget_jset_ne (m : List (String × Value)) (k1 k2 : String) (v : Value)
    (hk : k1 ≠ k2) : jget (jset m k1 v) k2 = jget m k2 := by
  induction m with
  | nil => simp [jset, jget, hk]
  | cons p rest ih =>
      obtain ⟨ka, va⟩ := p
      by_cases h1 : ka = k1
      · subst h1
        simp [jset, jget, hk]
      · by_cases h2 : ka = k2
        · subst h2
          simp [jset, jget, h1]
        · simp [jset, jget, h1, h2, ih]

theorem heapGet_heapSet_ne (h : Heap) (b a : Nat) (o : JsObj) (hba : b ≠ a) :
    heapGet (heapSet h b o) a = heapGet h a := by
  induction h generalizing a b with
  | nil => rfl
  | cons x xs ih =>
      cases b with
      | zero =>
          cases a with
          | zero => exact absurd rfl hba
          | succ n => rfl
      | succ m =>
          cases a with
          | zero => rfl
          | succ n =>
              show heapGet (heapSet xs m o) n = heapGet xs n
              exact ih m n (by omega)

theorem heapSet_oob (h : Heap) (a : Nat) (o : JsObj) (ha : h.length ≤ a) :
    heapSet h a o = h := by
  induction h generalizing a with
  | nil => rfl
  | cons x xs ih =>
      cases a with
      | zero => simp at ha
      | succ n =>
          show x :: heapSet xs n o = x :: xs
          rw [ih n (Nat.le_of_succ_le_succ ha)]

/-- Writing one heap field never changes a read of a different key, at
    any address — in particular an `id` read survives a `parent` write. -/
theorem readField_writeField_ne (st : InterpSt) (b a : Nat) (k k1 : String)
    (v : Value) (hk : k ≠ k1) :
    readField (writeField st b k v) a k1 = readField st a k1 := by
  show jgetD (heapGet (heapSet st.heap b (jset (heapGet st.heap b) k v)) a) k1 =
    jgetD (heapGet st.heap a) k1
  by_cases hba : b = a
  · subst hba
    by_cases hlt : b < st.heap.length
    · rw [heapGet_heapSet _ _ _ hlt]
      show (jget (jset (heapGet st.heap b) k v) k1).getD .undefined = _
      rw [jget_jset_ne _ _ _ _ hk]
      rfl
    · push_neg at hlt
      rw [heapSet_oob _ _ _ hlt]
  · rw [heapGet_heapSet_ne _ _ _ _ hba]

/-- Reparenting a group's children — whether it completes or throws on
    a truthy primitive child partway through — only writes `parent`
    fields and, on the throw path, appends an error; scope, scene graph
    and every object's `id` field are untouched. -/
theorem reparentChildren_preserves (ident : String) (a : Nat) :
    ∀ (children : List Value) (st : InterpSt),
    (catchStatement (reparentChildren ident children st)).scope = st.scope ∧
    (catchStatement (reparentChildren ident children st)).sceneGraph =
      st.sceneGraph ∧
    readField (catchStatement (reparentChildren ident children st)) a "id" =
      readField st a "id" := by
  intro children
  induction children with
  | nil => exact fun st => ⟨rfl, rfl, rfl⟩
  | cons c rest ih =>
      intro st
      have hstep : reparentChildren ident (c :: rest) st =
          (if truthy (scopeGet st (jsToString c)) then
            match setPropE (scopeGet st (jsToString c)) "parent" (.str ident) st with
            | .error e => .error e
            | .ok (_, st1) => reparentChildren ident rest st1
          else reparentChildren ident rest st) := rfl
      rw [hstep]
      cases ht : truthy (scopeGet st (jsToString c))
      · exact ih st
      · cases hch : scopeGet st (jsToString c) with
        | ref b =>
            obtain ⟨h1, h2, h3⟩ := ih (writeField st b "parent" (.str ident))
            exact ⟨h1, h2, h3.trans
              (readField_writeField_ne st b a "parent" "id" (.str ident)
                (by decide))⟩
        | undefined => exact ⟨rfl, rfl, rfl⟩
        | null => exact ⟨rfl, rfl, rfl⟩
        | bool bb => exact ⟨rfl, rfl, rfl⟩
        | num q => exact ⟨rfl, rfl, rfl⟩
        | str s => exact ⟨rfl, rfl, rfl⟩
        | arr l => exact ⟨rfl, rfl, rfl⟩

/-- C5 counterexample: the scope/scene-graph invariant fails as stated.
    (1) A geometry merged in from an imported module sits in scope under
    its key but the scene graph has no entry for that key at all.
    (2) After `a = cube(...)` then `b = a`, the key `a` still maps to a
    geometry in scope and scene graph, but the shared object's id field
    has been rewritten to "b", so id ≠ key for k = "a". -/
theorem c5_scope_scene_invariant_counterexample :
    (jget (interpret [] [("g", Value.ref 0)]
        [[("type", Value.str "geometry")]]).scope "g" = some (.ref 0) ∧
     readField (interpret [] [("g", Value.ref 0)]
        [[("type", Value.str "geometry")]]) 0 "type" = .str "geometry" ∧
     jget (interpret [] [("g", Value.ref 0)]
        [[("type", Value.str "geometry")]]).sceneGraph "g" = none) ∧
    (jget (interpret [.assignment "a" (.cube cubeVerts8),
        .assignment "b" (.reference "a" none)] [] []).scope "a" =
          some (.ref 17) ∧
     readField (interpret [.assignment "a" (.cube cubeVerts8),
        .assignment "b" (.reference "a" none)] [] []) 17 "type" =
          .str "geometry" ∧
     jget (interpret [.assignment "a" (.cube cubeVerts8),
        .assignment "b" (.reference "a" none)] [] []).sceneGraph "a" =
          some (.ref 17) ∧
     readField (interpret [.assignment "a" (.cube cubeVerts8),
        .assignment "b" (.reference "a" none)] [] []) 17 "id" =
          .str "b") :=
  ⟨⟨rfl, rfl, rfl⟩, rfl, rfl, rfl, rfl⟩

/-- C5 (amended): the invariant does hold at the moment an Assignment
    statement binds a scene value — a geometry- or group-typed object:
    immediately afterwards the key maps in both scope and scene graph
    to that same object and the object's id field equals the key.  For
    a group this survives the children reparenting, including when that
    reparenting throws on a truthy primitive child: the bindings and
    the id stamp land before the throw and the error path preserves
    them.  (Module merges and later re-assignments under another key
    can break the invariant later, per the counterexample.) -/
theorem c5_assignment_scene_invariant (x : String) (e : Expr)
    (st st1 : InterpSt) (a : Nat)
    (hev : evaluateExpression e st = .ok (.ref a, st1))
    (htype : readField st1 a "type" = .str "geometry" ∨
             readField st1 a "type" = .str "group") :
    jget (executeStatement (.assignment x e) st).scope x = some (.ref a) ∧
    jget (executeStatement (.assignment x e) st).sceneGraph x = some (.ref a) ∧
    readField (executeStatement (.assignment x e) st) a "id" = .str x := by
  have ha : a < st1.heap.length := by
    by_contra hge
    push_neg at hge
    have hnil : heapGet st1.heap a = [] := by
      simp [heapGet, List.getElem?_eq_none hge]
    cases htype with
    | inl h =>
        rw [readField, hnil] at h
        simp [jgetD, jget] at h
    | inr h =>
        rw [readField, hnil] at h
        simp [jgetD, jget] at h
  have h4scope : jget (assignStamped st1 x a).scope x = some (.ref a) :=
    jget_jset st1.scope x (.ref a)
  have h4scene : jget (assignStamped st1 x a).sceneGraph x = some (.ref a) :=
    jget_jset st1.sceneGraph x (.ref a)
  have h4id : readField (assignStamped st1 x a) a "id" = .str x := by
    show jgetD (heapGet (heapSet st1.heap a
      (jset (heapGet st1.heap a) "id" (.str x))) a) "id" = .str x
    rw [heapGet_heapSet _ _ _ ha]
    show (jget (jset (heapGet st1.heap a) "id" (.str x)) "id").getD .undefined = _
    rw [jget_jset]
    rfl
  cases htype with
  | inl hg =>
      have hty2 : readField (scopeSet st1 x (.ref a)) a "type" =
          Value.str "geometry" := hg
      have key : executeStatement (Stmt.assignment x e) st =
          assignStamped st1 x a := by
        show catchStatement (executeStatementTry (Stmt.assignment x e) st) = _
        simp only [executeStatementTry, hev, typeFieldOf, hty2]
        rfl
      rw [key]
      exact ⟨h4scope, h4scene, h4id⟩
  | inr hg =>
      have hty2 : readField (scopeSet st1 x (.ref a)) a "type" =
          Value.str "group" := hg
      have key : executeStatement (Stmt.assignment x e) st =
          catchStatement
            (if truthy (readField (assignStamped st1 x a) a "children") then
              match readField (assignStamped st1 x a) a "children" with
              | .arr l => reparentChildren x l (assignStamped st1 x a)
              | _ => .error ("value.children.forEach is not a function",
                       assignStamped st1 x a)
            else .ok ((), assignStamped st1 x a)) := by
        show catchStatement (executeStatementTry (Stmt.assignment x e) st) = _
        simp only [executeStatementTry, hev, typeFieldOf, hty2]
        rfl
      rw [key]
      cases hch : truthy (readField (assignStamped st1 x a) a "children")
      · exact ⟨h4scope, h4scene, h4id⟩
      · cases hcv : readField (assignStamped st1 x a) a "children" with
        | arr l =>
            obtain ⟨h1, h2, h3⟩ :=
              reparentChildren_preserves x a l (assignStamped st1 x a)
            exact ⟨(congrArg (fun m => jget m x) h1).trans h4scope,
                   (congrArg (fun m => jget m x) h2).trans h4scene,
                   h3.trans h4id⟩
        | undefined => exact ⟨h4scope, h4scene, h4id⟩
        | null => exact ⟨h4scope, h4scene, h4id⟩
        | bool bb => exact ⟨h4scope, h4scene, h4id⟩
        | num q => exact ⟨h4scope, h4scene, h4id⟩
        | str s => exact ⟨h4scope, h4scene, h4id⟩
        | ref r => exact ⟨h4scope, h4scene, h4id⟩

/-- C7 counterexample: compiling the specification's exact mesh source
    fails in parseMesh — after a closing `]` the section loop expects
    the next key identifier and finds the stray `;` — so no scene
    object and no log are ever produced. -/
theorem c7_exact_source_is_rejected :
    compile (fun _ => none) 10 c7srcSpec [] [] [] =
      (.perr "Syntax Error: Expected IDENTIFIER but found ';' at line 1"
        (some 1), []) := rfl

set_option maxHeartbeats 2000000 in
/-- C7 (amended): without the two bracket-trailing semicolons the
    pipeline compiles: scene object `a` is a geometry holding the three
    parsed vertices and the single face [0,1,2], and the log list is
    exactly the line "> ok" (console.print prefixes "> "), with no
    errors. -/
theorem c7_mesh_pipeline :
    c7result.1 = .ok c7state ∧
    jget c7state.sceneGraph "a" = some (.ref 7) ∧
    readField c7state 7 "type" = .str "geometry" ∧
    readVertexTriples c7state (readField c7state 7 "vertices") =
      some [(some 0, some 0, some 0), (some 1, some 0, some 0),
            (some 1, some 1, some 0)] ∧
    readFaceIndexLists c7state (readField c7state 7 "faces") =
      some [[0, 1, 2]] ∧
    c7state.logs = ["> ok"] ∧
    c7state.errors = [] := by
  refine ⟨rfl, rfl, rfl, ?_, ?_, rfl, rfl⟩
  · with_unfolding_all rfl
  · with_unfolding_all rfl

/-- C8: an unresolvable non-URL import raises nothing.  (1) The import
    loop steps over it without binding anything — alias, items and
    modules, cache and heap are all left for the remaining imports
    exactly as they were.  (2) compile completes with the interpreter's
    result whenever parsing and the remaining imports complete.  (3)
    Concretely, `import missing as m console.print("ok")` over an empty
    file table compiles to a state with `m` unbound, the other
    statements executed, and no errors. -/
theorem c8_unresolved_import_is_skipped :
    (∀ (fetchO : String → Option String) (fuel : Nat) (source : String)
        (items : Option (List String)) (aliasName : Option String)
        (rest : List Stmt) (fs : List (String × String))
        (modules : List (String × Value)) (cache : List (String × String))
        (heap : Heap),
      source.startsWith "http" = false →
      resolveLocal source fs = "" →
      processImports fetchO (fuel + 1)
          (.importS source items aliasName :: rest) fs modules cache heap =
        processImports fetchO fuel rest fs modules cache heap) ∧
    (∀ (fetchO : String → Option String) (fuel : Nat) (src : String)
        (fs cache cache1 : List (String × String)) (heap0 heap1 : Heap)
        (ast : List Stmt) (p : Nat) (modules : List (String × Value)),
      parse (tokenize src) (32 * (tokenize src).length + 64) = .ok ast p →
      processImports fetchO fuel (importsOf ast) fs [] cache heap0 =
        (.ok modules heap1, cache1) →
      compile fetchO (fuel + 1) src fs cache heap0 =
        (.ok (interpret ast modules heap1), cache1)) ∧
    (c8result.1 = .ok c8state ∧
     jget c8state.scope "m" = none ∧
     c8state.logs = ["> Imported missing as m", "> ok"] ∧
     c8state.sceneGraph = [] ∧
     c8state.errors = []) := by
  refine ⟨?_, ?_, by with_unfolding_all rfl, by with_unfolding_all rfl,
    by with_unfolding_all rfl, by with_unfolding_all rfl, by with_unfolding_all rfl⟩
  · intro fetchO fuel source items aliasName rest fs modules cache heap hhttp hres
    simp [processImports, hhttp, hres]
  · intro fetchO fuel src fs cache cache1 heap0 heap1 ast p modules hpa hpi
    simp only [compile, hpa, hpi]

/-- C8 witness: the skip equation applied at the concrete
    unresolvable import source "missing" (aliased m) over the empty
    file table. -/
theorem c8_unresolved_import_is_skipped_witness :
    "missing".startsWith "http" = false ∧
    resolveLocal "missing" [] = "" ∧
    processImports (fun _ => none) 10
        [.importS "missing" none (some "m")] [] [] [] [] =
      processImports (fun _ => none) 9 [] [] [] [] [] :=
  ⟨by with_unfolding_all rfl, by with_unfolding_all rfl,
    c8_unresolved_import_is_skipped.1 (fun _ => none) 9 "missing" none
      (some "m") [] [] [] [] [] (by with_unfolding_all rfl)
      (by with_unfolding_all rfl)⟩

/-- C5 witness: the amended invariant at both scene types from the
    empty state.  `a = cube(...)` lands the geometry at heap address 17,
    bound in scope and scene graph under "a" with id "a"; `g = group[]`
    lands the group at heap address 3 (after its three transform
    objects), bound under "g" with id "g", exercising the children
    reparenting branch on the group's (truthy) children array. -/
theorem c5_assignment_scene_invariant_witness :
    (jget (executeStatement (.assignment "a" (.cube cubeVerts8))
        (⟨[], [], [], [], []⟩ : InterpSt)).scope "a" = some (.ref 17) ∧
     jget (executeStatement (.assignment "a" (.cube cubeVerts8))
        (⟨[], [], [], [], []⟩ : InterpSt)).sceneGraph "a" = some (.ref 17) ∧
     readField (executeStatement (.assignment "a" (.cube cubeVerts8))
        (⟨[], [], [], [], []⟩ : InterpSt)) 17 "id" = .str "a") ∧
    (jget (executeStatement (.assignment "g" (.group []))
        (⟨[], [], [], [], []⟩ : InterpSt)).scope "g" = some (.ref 3) ∧
     jget (executeStatement (.assignment "g" (.group []))
        (⟨[], [], [], [], []⟩ : InterpSt)).sceneGraph "g" = some (.ref 3) ∧
     readField (executeStatement (.assignment "g" (.group []))
        (⟨[], [], [], [], []⟩ : InterpSt)) 3 "id" = .str "g") :=
  ⟨c5_assignment_scene_invariant "a" (.cube cubeVerts8)
      ⟨[], [], [], [], []⟩ _ 17 rfl (Or.inl rfl),
   c5_assignment_scene_invariant "g" (.group [])
      ⟨[], [], [], [], []⟩ _ 3 rfl (Or.inr rfl)⟩

/-! ### Parser totality and error-line invariants (C4) -/

theorem peekT_cons_succ (t : Token) (rest : List Token) (pos : Nat) :
    peekT (t :: rest) (pos + 1) = peekT rest pos := rfl

theorem goodStream_peek_eof : ∀ (ts : List Token), goodStream ts = true →
    ∀ pos, ((peekT ts pos).ty = .eof ↔ ts.length ≤ pos + 1)
  | [], hg => by simp [goodStream] at hg
  | [t], hg => by
      intro pos
      cases pos with
      | zero =>
          simp only [goodStream, Bool.and_eq_true, decide_eq_true_eq] at hg
          simpa [peekT] using hg.1
      | succ k => simp [peekT, eofTok]
  | t :: r :: rest, hg => by
      intro pos
      simp only [goodStream, Bool.and_eq_true, decide_eq_true_eq] at hg
      cases pos with
      | zero => simp [peekT, hg.1]
      | succ k =>
          rw [peekT_cons_succ]
          have h2 := goodStream_peek_eof (r :: rest) hg.2 k
          simpa [Nat.succ_le_succ_iff] using h2

theorem goodStream_peek_value : ∀ (ts : List Token), goodStream ts = true →
    ∀ pos, ts.length ≤ pos + 1 → (peekT ts pos).value = ""
  | [], hg => by simp [goodStream] at hg
  | [t], hg => by
      intro pos _
      cases pos with
      | zero =>
          simp only [goodStream, Bool.and_eq_true, decide_eq_true_eq] at hg
          simpa [peekT] using hg.2
      | succ k => simp [peekT, eofTok]
  | t :: r :: rest, hg => by
      intro pos hlen
      simp only [goodStream, Bool.and_eq_true, decide_eq_true_eq] at hg
      cases pos with
      | zero => simp at hlen
      | succ k =>
          rw [peekT_cons_succ]
          exact goodStream_peek_value (r :: rest) hg.2 k (by simpa using hlen)

theorem peek_value_advance (ts : List Token) (hg : goodStream ts = true)
    (pos : Nat) (v : String) (hval : (peekT ts pos).value = v)
    (hv : ¬ v = "") : pos + 2 ≤ ts.length := by
  by_contra hlt
  push_neg at hlt
  have := goodStream_peek_value ts hg pos (by omega)
  rw [hval] at this
  exact hv this

theorem peek_mem (ts : List Token) (pos : Nat) (h : pos + 1 ≤ ts.length) :
    peekT ts pos ∈ ts := by
  induction ts generalizing pos with
  | nil => simp at h
  | cons t rest ih =>
      cases pos with
      | zero => exact List.mem_cons_self t rest
      | succ k =>
          rw [peekT_cons_succ]
          exact List.mem_cons_of_mem t (ih k (by simpa using h))

theorem peek_advance (ts : List Token) (hg : goodStream ts = true) (pos : Nat)
    (hne : ¬ (peekT ts pos).ty = .eof) : pos + 2 ≤ ts.length := by
  have h := goodStream_peek_eof ts hg pos
  rw [h] at hne
  omega

theorem checkV_spec (ts : List Token) (pos : Nat) (ty : TokTy) (v : String)
    (h : checkV ts pos ty v = true) :
    ¬ (peekT ts pos).ty = .eof ∧ (peekT ts pos).ty = ty ∧
      (peekT ts pos).value = v := by
  simpa [checkV] using h

theorem checkT_spec (ts : List Token) (pos : Nat) (ty : TokTy)
    (h : checkT ts pos ty = true) :
    ¬ (peekT ts pos).ty = .eof ∧ (peekT ts pos).ty = ty := by
  simpa [checkT] using h

theorem checkV_advance (ts : List Token) (hg : goodStream ts = true)
    (pos : Nat) (ty : TokTy) (v : String) (h : checkV ts pos ty v = true) :
    pos + 2 ≤ ts.length :=
  peek_advance ts hg pos (checkV_spec ts pos ty v h).1

theorem expectT_not_out (ts : List Token) (pos : Nat) (ty : TokTy) :
    ¬ expectT ts pos ty = .out := by
  simp only [expectT]
  split <;> simp

theorem expectV_not_out (ts : List Token) (pos : Nat) (ty : TokTy) (v : String) :
    ¬ expectV ts pos ty v = .out := by
  simp only [expectV]
  split <;> simp

theorem expectT_ok (ts : List Token) (pos : Nat) (ty : TokTy) (t : Token)
    (p' : Nat) (h : expectT ts pos ty = .ok t p') :
    p' = pos + 1 ∧ t = peekT ts pos ∧ (peekT ts pos).ty = ty := by
  simp only [expectT] at h
  split at h
  · cases h
    exact ⟨rfl, rfl, by assumption⟩
  · cases h

theorem expectV_ok (ts : List Token) (pos : Nat) (ty : TokTy) (v : String)
    (t : Token) (p' : Nat) (h : expectV ts pos ty v = .ok t p') :
    p' = pos + 1 ∧ t = peekT ts pos ∧ (peekT ts pos).ty = ty := by
  simp only [expectV] at h
  split at h
  · cases h
    exact ⟨rfl, rfl, by simp_all⟩
  · cases h

theorem expectT_ok_adv (ts : List Token) (hg : goodStream ts = true)
    (pos : Nat) (ty : TokTy) (hty : ¬ ty = .eof) (t : Token) (p' : Nat)
    (h : expectT ts pos ty = .ok t p') :
    p' = pos + 1 ∧ p' + 1 ≤ ts.length := by
  obtain ⟨hp, _, hpk⟩ := expectT_ok ts pos ty t p' h
  have := peek_advance ts hg pos (by rw [hpk]; exact hty)
  omega

theorem expectV_ok_adv (ts : List Token) (hg : goodStream ts = true)
    (pos : Nat) (ty : TokTy) (v : String) (hty : ¬ ty = .eof) (t : Token)
    (p' : Nat) (h : expectV ts pos ty v = .ok t p') :
    p' = pos + 1 ∧ p' + 1 ≤ ts.length := by
  obtain ⟨hp, _, hpk⟩ := expectV_ok ts pos ty v t p' h
  have := peek_advance ts hg pos (by rw [hpk]; exact hty)
  omega

theorem expectT_err_line (ts : List Token) (pos : Nat) (ty : TokTy)
    (hpos : pos + 1 ≤ ts.length) (m : String) (l : Option Nat)
    (h : expectT ts pos ty = .err m l) :
    ∀ x, l = some x → ∃ t ∈ ts, t.line = x := by
  intro x hx
  simp only [expectT] at h
  split at h
  · cases h
  · cases h
    cases hx
    exact ⟨peekT ts pos, peek_mem ts pos hpos, rfl⟩

theorem expectV_err_line (ts : List Token) (pos : Nat) (ty : TokTy)
    (v : String) (hpos : pos + 1 ≤ ts.length) (m : String) (l : Option Nat)
    (h : expectV ts pos ty v = .err m l) :
    ∀ x, l = some x → ∃ t ∈ ts, t.line = x := by
  intro x hx
  simp only [expectV] at h
  split at h
  · cases h
  · cases h
    cases hx
    exact ⟨peekT ts pos, peek_mem ts pos hpos, rfl⟩

theorem infactsO_mono {α : Type} {ts : List Token} {lo : Nat} {r : PRes α}
    {m1 m2 : Prop} (h : InfactsO ts lo r m1) (him : m1 → m2) :
    InfactsO ts lo r m2 := by
  cases r <;> simp_all [InfactsO]

theorem infactsO_lo {α : Type} {ts : List Token} {lo lo' : Nat} {r : PRes α}
    {m : Prop} (h : InfactsO ts lo r m) (hlo : lo' ≤ lo) :
    InfactsO ts lo' r m := by
  cases r <;> simp_all [InfactsO] <;> omega

theorem infactsO_bind {α β : Type} {ts : List Token} {lo mid : Nat}
    {r : PRes α} {f : α → Nat → PRes β} {m : Prop}
    (hr : InfactsO ts mid r m)
    (hf : ∀ a p', r = .ok a p' → mid ≤ p' → p' + 1 ≤ ts.length →
      InfactsO ts lo (f a p') m) :
    InfactsO ts lo (pbind r f) m := by
  cases hc : r with
  | ok a p' =>
      rw [hc] at hr
      exact hf a p' hc hr.1 hr.2
  | err m1 l1 => rw [hc] at hr; simpa [pbind, InfactsO] using hr
  | out => rw [hc] at hr; simpa [pbind, InfactsO] using hr

theorem expectT_infacts (ts : List Token) (hg : goodStream ts = true)
    (pos : Nat) (ty : TokTy) (hty : ¬ ty = .eof)
    (hpos : pos + 1 ≤ ts.length) (m : Prop) :
    InfactsO ts (pos + 1) (expectT ts pos ty) m := by
  cases hc : expectT ts pos ty with
  | ok t p' =>
      obtain ⟨hp, hlen⟩ := expectT_ok_adv ts hg pos ty hty t p' hc
      simp [InfactsO]; omega
  | err m1 l1 =>
      simpa [InfactsO] using expectT_err_line ts pos ty hpos m1 l1 hc
  | out => exact absurd hc (expectT_not_out ts pos ty)

theorem expectV_infacts (ts : List Token) (hg : goodStream ts = true)
    (pos : Nat) (ty : TokTy) (v : String) (hty : ¬ ty = .eof)
    (hpos : pos + 1 ≤ ts.length) (m : Prop) :
    InfactsO ts (pos + 1) (expectV ts pos ty v) m := by
  cases hc : expectV ts pos ty v with
  | ok t p' =>
      obtain ⟨hp, hlen⟩ := expectV_ok_adv ts hg pos ty v hty t p' hc
      simp [InfactsO]; omega
  | err m1 l1 =>
      simpa [InfactsO] using expectV_err_line ts pos ty v hpos m1 l1 hc
  | out => exact absurd hc (expectV_not_out ts pos ty v)

theorem FnInv_infacts {γ : Type} {ts : List Token} {strict rank : Nat}
    {f : Nat → Nat → PRes γ} {n : Nat} (h : FnInv ts strict rank f n)
    (pos : Nat) (hpos : pos + 1 ≤ ts.length) :
    InfactsO ts (pos + strict) (f n pos)
      (¬ (32 * (ts.length - pos) + rank ≤ n)) := by
  obtain ⟨h1, h2, h3⟩ := h pos hpos
  cases hr : f n pos with
  | ok a p' => simpa [InfactsO] using h2 a p' hr
  | err m l => simpa [InfactsO] using fun x hx => h3 m l x hr hx
  | out =>
      simp only [InfactsO]
      intro hm
      exact h1 hm hr

theorem infacts_fninv {γ : Type} {ts : List Token} {strict rank : Nat}
    {f : Nat → Nat → PRes γ} {n : Nat}
    (h : ∀ pos, pos + 1 ≤ ts.length →
      InfactsO ts (pos + strict) (f n pos)
        (¬ (32 * (ts.length - pos) + rank ≤ n))) :
    FnInv ts strict rank f n := by
  intro pos hpos
  have hx := h pos hpos
  refine ⟨?_, ?_, ?_⟩
  · intro hm hout
    rw [hout] at hx
    exact hx hm
  · intro a p' hok
    rw [hok] at hx
    exact hx
  · intro m l x herr hx2
    rw [herr] at hx
    exact hx x hx2

theorem importTail_infacts (ts : List Token) (hg : goodStream ts = true)
    (source : String) (items : Option (List String)) (pos : Nat)
    (hpos : pos + 1 ≤ ts.length) (m : Prop) :
    InfactsO ts pos (parseImportTail ts source items pos) m := by
  simp only [parseImportTail]
  by_cases hc : checkV ts pos .keyword "as" = true
  · rw [if_pos hc]
    have hadv := checkV_advance ts hg pos _ _ hc
    apply infactsO_bind (expectT_infacts ts hg (pos + 1) .identifier (by decide)
      (by omega) m)
    intro a p2 hE hm hl
    simp only [InfactsO]
    omega
  · rw [if_neg hc]
    simp only [InfactsO]
    omega

theorem subTarget_infacts (ts : List Token) (hg : goodStream ts = true)
    (pos : Nat) (hpos : pos + 1 ≤ ts.length) (m : Prop) :
    InfactsO ts pos (parseSubTarget ts pos) m := by
  simp only [parseSubTarget]
  by_cases hc : checkV ts pos .symbol "(" = true
  · rw [if_pos hc]
    have hadv := checkV_advance ts hg pos _ _ hc
    apply infactsO_bind (expectT_infacts ts hg (pos + 1) .identifier (by decide)
      (by omega) m)
    intro a p2 hE hm hl
    apply infactsO_bind (expectV_infacts ts hg p2 .symbol ")" (by decide) hl m)
    intro b p3 hE2 hm2 hl2
    simp only [InfactsO]
    omega
  · rw [if_neg hc]
    simp only [InfactsO]
    omega

theorem meshCoord_infacts (ts : List Token) (hg : goodStream ts = true)
    (pos : Nat) (hpos : pos + 1 ≤ ts.length) (m : Prop) :
    InfactsO ts (pos + 1) (parseMeshCoord ts pos) m := by
  simp only [parseMeshCoord]
  by_cases hc : checkV ts pos .symbol "-" = true
  · rw [if_pos hc]
    have hadv := checkV_advance ts hg pos _ _ hc
    apply infactsO_bind (expectT_infacts ts hg (pos + 1) .number (by decide)
      (by omega) m)
    intro a p2 hE hm hl
    simp only [InfactsO]
    omega
  · rw [if_neg hc]
    apply infactsO_bind (expectT_infacts ts hg pos .number (by decide) hpos m)
    intro a p2 hE hm hl
    simp only [InfactsO]
    omega

theorem matRef_infacts (ts : List Token) (hg : goodStream ts = true)
    (pos : Nat) (hpos : pos + 1 ≤ ts.length) (m : Prop) :
    InfactsO ts pos (parseFaceMatRef ts pos) m := by
  simp only [parseFaceMatRef]
  by_cases hc : checkV ts pos .symbol ":" = true
  · rw [if_pos hc]
    have hadv := checkV_advance ts hg pos _ _ hc
    apply infactsO_bind (expectT_infacts ts hg (pos + 1) .identifier (by decide)
      (by omega) m)
    intro a p2 hE hm hl
    by_cases hc2 : checkV ts p2 .symbol "." = true
    · rw [if_pos hc2]
      have hadv2 := checkV_advance ts hg p2 _ _ hc2
      apply infactsO_bind (expectT_infacts ts hg (p2 + 1) .identifier (by decide)
        (by omega) m)
      intro b p3 hE2 hm2 hl2
      simp only [InfactsO]
      omega
    · rw [if_neg hc2]
      simp only [InfactsO]
      omega
  · rw [if_neg hc]
    simp only [InfactsO]
    omega

theorem step_parseExpression (ts : List Token) (n : Nat)
    (hlor : FnInv ts 1 26 (parseLogicOr ts) n) :
    FnInv ts 1 27 (parseExpression ts) (n + 1) := by
  apply infacts_fninv
  intro pos hpos
  simp only [parseExpression]
  exact infactsO_mono (FnInv_infacts hlor pos hpos) (by omega)

theorem step_parseLogicOr (ts : List Token) (n : Nat)
    (heq : FnInv ts 1 25 (parseEquality ts) n) :
    FnInv ts 1 26 (parseLogicOr ts) (n + 1) := by
  apply infacts_fninv
  intro pos hpos
  simp only [parseLogicOr]
  exact infactsO_mono (FnInv_infacts heq pos hpos) (by omega)

theorem step_parseEquality (ts : List Token) (n : Nat)
    (hcmp : FnInv ts 1 24 (parseComparison ts) n)
    (heqL : FnInvA ts 0 30 (parseEqualityLoop ts) n) :
    FnInv ts 1 25 (parseEquality ts) (n + 1) := by
  apply infacts_fninv
  intro pos hpos
  simp only [parseEquality]
  apply infactsO_bind (infactsO_mono (FnInv_infacts hcmp pos hpos) (by omega))
  intro e p1 hC hm1 hl1
  exact infactsO_lo (infactsO_mono (FnInv_infacts (heqL e) p1 hl1) (by omega))
    (by omega)

theorem step_parseEqualityLoop (ts : List Token) (hg : goodStream ts = true)
    (n : Nat) (hcmp : FnInv ts 1 24 (parseComparison ts) n)
    (heqL : FnInvA ts 0 30 (parseEqualityLoop ts) n) :
    FnInvA ts 0 30 (parseEqualityLoop ts) (n + 1) := by
  intro e
  apply infacts_fninv
  intro pos hpos
  simp only [parseEqualityLoop]
  by_cases hc : (checkV ts pos .operator "==" = true ∨
      checkV ts pos .operator "!=" = true)
  · rw [if_pos hc]
    have hadv : pos + 2 ≤ ts.length := by
      rcases hc with h | h
      · exact checkV_advance ts hg pos _ _ h
      · exact checkV_advance ts hg pos _ _ h
    apply infactsO_bind (infactsO_mono (FnInv_infacts hcmp (pos + 1) hadv)
      (by omega))
    intro r p2 hC hm2 hl2
    exact infactsO_lo (infactsO_mono (FnInv_infacts (heqL _) p2 hl2) (by omega))
      (by omega)
  · rw [if_neg hc]
    simp only [InfactsO]
    omega

theorem step_parseComparison (ts : List Token) (n : Nat)
    (hterm : FnInv ts 1 23 (parseTerm ts) n)
    (hcmpL : FnInvA ts 0 30 (parseComparisonLoop ts) n) :
    FnInv ts 1 24 (parseComparison ts) (n + 1) := by
  apply infacts_fninv
  intro pos hpos
  simp only [parseComparison]
  apply infactsO_bind (infactsO_mono (FnInv_infacts hterm pos hpos) (by omega))
  intro e p1 hC hm1 hl1
  exact infactsO_lo (infactsO_mono (FnInv_infacts (hcmpL e) p1 hl1) (by omega))
    (by omega)

theorem step_parseComparisonLoop (ts : List Token) (hg : goodStream ts = true)
    (n : Nat) (hterm : FnInv ts 1 23 (parseTerm ts) n)
    (hcmpL : FnInvA ts 0 30 (parseComparisonLoop ts) n) :
    FnInvA ts 0 30 (parseComparisonLoop ts) (n + 1) := by
  intro e
  apply infacts_fninv
  intro pos hpos
  simp only [parseComparisonLoop]
  by_cases hc : (checkV ts pos .symbol ">" = true ∨
      checkV ts pos .symbol "<" = true ∨
      checkV ts pos .operator ">=" = true ∨
      checkV ts pos .operator "<=" = true)
  · rw [if_pos hc]
    have hadv : pos + 2 ≤ ts.length := by
      rcases hc with h | h | h | h <;> exact checkV_advance ts hg pos _ _ h
    apply infactsO_bind (infactsO_mono (FnInv_infacts hterm (pos + 1) hadv)
      (by omega))
    intro r p2 hC hm2 hl2
    exact infactsO_lo (infactsO_mono (FnInv_infacts (hcmpL _) p2 hl2) (by omega))
      (by omega)
  · rw [if_neg hc]
    simp only [InfactsO]
    omega

theorem step_parseTerm (ts : List Token) (n : Nat)
    (hfac : FnInv ts 1 22 (parseFactor ts) n)
    (htermL : FnInvA ts 0 30 (parseTermLoop ts) n) :
    FnInv ts 1 23 (parseTerm ts) (n + 1) := by
  apply infacts_fninv
  intro pos hpos
  simp only [parseTerm]
  apply infactsO_bind (infactsO_mono (FnInv_infacts hfac pos hpos) (by omega))
  intro e p1 hC hm1 hl1
  exact infactsO_lo (infactsO_mono (FnInv_infacts (htermL e) p1 hl1) (by omega))
    (by omega)

theorem step_parseTermLoop (ts : List Token) (hg : goodStream ts = true)
    (n : Nat) (hfac : FnInv ts 1 22 (parseFactor ts) n)
    (htermL : FnInvA ts 0 30 (parseTermLoop ts) n) :
    FnInvA ts 0 30 (parseTermLoop ts) (n + 1) := by
  intro e
  apply infacts_fninv
  intro pos hpos
  simp only [parseTermLoop]
  by_cases hc : (checkV ts pos .symbol "+" = true ∨
      checkV ts pos .symbol "-" = true)
  · rw [if_pos hc]
    have hadv : pos + 2 ≤ ts.length := by
      rcases hc with h | h <;> exact checkV_advance ts hg pos _ _ h
    apply infactsO_bind (infactsO_mono (FnInv_infacts hfac (pos + 1) hadv)
      (by omega))
    intro r p2 hC hm2 hl2
    exact infactsO_lo (infactsO_mono (FnInv_infacts (htermL _) p2 hl2) (by omega))
      (by omega)
  · rw [if_neg hc]
    simp only [InfactsO]
    omega

theorem step_parseFactor (ts : List Token) (n : Nat)
    (hun : FnInv ts 1 21 (parseUnary ts) n)
    (hfacL : FnInvA ts 0 30 (parseFactorLoop ts) n) :
    FnInv ts 1 22 (parseFactor ts) (n + 1) := by
  apply infacts_fninv
  intro pos hpos
  simp only [parseFactor]
  apply infactsO_bind (infactsO_mono (FnInv_infacts hun pos hpos) (by omega))
  intro e p1 hC hm1 hl1
  exact infactsO_lo (infactsO_mono (FnInv_infacts (hfacL e) p1 hl1) (by omega))
    (by omega)

theorem step_parseFactorLoop (ts : List Token) (hg : goodStream ts = true)
    (n : Nat) (hun : FnInv ts 1 21 (parseUnary ts) n)
    (hfacL : FnInvA ts 0 30 (parseFactorLoop ts) n) :
    FnInvA ts 0 30 (parseFactorLoop ts) (n + 1) := by
  intro e
  apply infacts_fninv
  intro pos hpos
  simp only [parseFactorLoop]
  by_cases hc : (checkV ts pos .symbol "*" = true ∨
      checkV ts pos .symbol "/" = true ∨ checkV ts pos .symbol "%" = true)
  · rw [if_pos hc]
    have hadv : pos + 2 ≤ ts.length := by
      rcases hc with h | h | h <;> exact checkV_advance ts hg pos _ _ h
    apply infactsO_bind (infactsO_mono (FnInv_infacts hun (pos + 1) hadv)
      (by omega))
    intro r p2 hC hm2 hl2
    exact infactsO_lo (infactsO_mono (FnInv_infacts (hfacL _) p2 hl2) (by omega))
      (by omega)
  · rw [if_neg hc]
    simp only [InfactsO]
    omega

theorem step_parseUnary (ts : List Token) (hg : goodStream ts = true) (n : Nat)
    (hun : FnInv ts 1 21 (parseUnary ts) n)
    (hprim : FnInv ts 1 20 (parsePrimary ts) n) :
    FnInv ts 1 21 (parseUnary ts) (n + 1) := by
  apply infacts_fninv
  intro pos hpos
  simp only [parseUnary]
  by_cases hc : checkV ts pos .symbol "-" = true
  · rw [if_pos hc]
    have hadv := checkV_advance ts hg pos _ _ hc
    apply infactsO_bind (infactsO_mono (FnInv_infacts hun (pos + 1) hadv)
      (by omega))
    intro r p2 hC hm2 hl2
    simp only [InfactsO]
    omega
  · rw [if_neg hc]
    exact infactsO_mono (FnInv_infacts hprim pos hpos) (by omega)

theorem step_parseArgsList (ts : List Token) (n : Nat)
    (hexpr : FnInv ts 1 27 (parseExpression ts) n)
    (hmore : FnInv ts 0 30 (parseArgsMore ts) n) :
    FnInv ts 0 30 (parseArgsList ts) (n + 1) := by
  apply infacts_fninv
  intro pos hpos
  simp only [parseArgsList]
  by_cases hc : checkV ts pos .symbol ")" = true
  · rw [if_pos hc]
    simp only [InfactsO]
    omega
  · rw [if_neg hc]
    apply infactsO_bind (infactsO_mono (FnInv_infacts hexpr pos hpos) (by omega))
    intro e p1 hE hm1 hl1
    apply infactsO_bind (infactsO_mono (FnInv_infacts hmore p1 hl1) (by omega))
    intro rest p2 hR hm2 hl2
    simp only [InfactsO]
    omega

theorem step_parseArgsMore (ts : List Token) (hg : goodStream ts = true)
    (n : Nat) (hexpr : FnInv ts 1 27 (parseExpression ts) n)
    (hmore : FnInv ts 0 30 (parseArgsMore ts) n) :
    FnInv ts 0 30 (parseArgsMore ts) (n + 1) := by
  apply infacts_fninv
  intro pos hpos
  simp only [parseArgsMore]
  by_cases hc : checkV ts pos .symbol "," = true
  · rw [if_pos hc]
    have hadv := checkV_advance ts hg pos _ _ hc
    apply infactsO_bind (infactsO_mono (FnInv_infacts hexpr (pos + 1) hadv)
      (by omega))
    intro e p1 hE hm1 hl1
    apply infactsO_bind (infactsO_mono (FnInv_infacts hmore p1 hl1) (by omega))
    intro rest p2 hR hm2 hl2
    simp only [InfactsO]
    omega
  · rw [if_neg hc]
    simp only [InfactsO]
    omega

theorem step_parseKVKeys (ts : List Token) (hg : goodStream ts = true)
    (n : Nat) (hkeys : FnInv ts 0 30 (parseKVKeys ts) n) :
    FnInv ts 0 30 (parseKVKeys ts) (n + 1) := by
  apply infacts_fninv
  intro pos hpos
  simp only [parseKVKeys]
  by_cases hc : checkV ts pos .symbol "," = true
  · rw [if_pos hc]
    have hadv := checkV_advance ts hg pos _ _ hc
    apply infactsO_bind (expectT_infacts ts hg (pos + 1) .identifier (by decide)
      (by omega) _)
    intro kt p2 hE hm2 hl2
    apply infactsO_bind (infactsO_mono (FnInv_infacts hkeys p2 hl2) (by omega))
    intro rest p3 hR hm3 hl3
    simp only [InfactsO]
    omega
  · rw [if_neg hc]
    simp only [InfactsO]
    omega

theorem step_parseKVVals (ts : List Token) (hg : goodStream ts = true)
    (n : Nat) (hexpr : FnInv ts 1 27 (parseExpression ts) n)
    (hvals : FnInv ts 0 30 (parseKVVals ts) n) :
    FnInv ts 0 30 (parseKVVals ts) (n + 1) := by
  apply infacts_fninv
  intro pos hpos
  simp only [parseKVVals]
  by_cases hc : checkV ts pos .symbol "," = true
  · rw [if_pos hc]
    have hadv := checkV_advance ts hg pos _ _ hc
    apply infactsO_bind (infactsO_mono (FnInv_infacts hexpr (pos + 1) hadv)
      (by omega))
    intro e p1 hE hm1 hl1
    apply infactsO_bind (infactsO_mono (FnInv_infacts hvals p1 hl1) (by omega))
    intro rest p2 hR hm2 hl2
    simp only [InfactsO]
    omega
  · rw [if_neg hc]
    simp only [InfactsO]
    omega

theorem step_parseKeyValueBlock (ts : List Token) (hg : goodStream ts = true)
    (n : Nat) (hexpr : FnInv ts 1 27 (parseExpression ts) n)
    (hkeys : FnInv ts 0 30 (parseKVKeys ts) n)
    (hvals : FnInv ts 0 30 (parseKVVals ts) n)
    (hkv : FnInvA ts 0 30 (parseKeyValueBlock ts) n) :
    FnInvA ts 0 30 (parseKeyValueBlock ts) (n + 1) := by
  intro props
  apply infacts_fninv
  intro pos hpos
  simp only [parseKeyValueBlock]
  by_cases hc : ¬ (peekT ts pos).value = "\x7d"
  · rw [if_pos hc]
    apply infactsO_bind (expectT_infacts ts hg pos .identifier (by decide) hpos _)
    intro k0 p1 hE hm1 hl1
    apply infactsO_bind (infactsO_mono (FnInv_infacts hkeys p1 hl1) (by omega))
    intro ks p2 hK hm2 hl2
    apply infactsO_bind (expectV_infacts ts hg p2 .symbol "=" (by decide) hl2 _)
    intro _ p3 hEq hm3 hl3
    apply infactsO_bind (infactsO_mono (FnInv_infacts hexpr p3 hl3) (by omega))
    intro v0 p4 hV hm4 hl4
    apply infactsO_bind (infactsO_mono (FnInv_infacts hvals p4 hl4) (by omega))
    intro vs p5 hVs hm5 hl5
    by_cases hlen : (k0.value :: ks).length = (v0 :: vs).length
    · rw [if_pos hlen]
      exact infactsO_lo (infactsO_mono (FnInv_infacts (hkv _) p5 hl5) (by omega))
        (by omega)
    · rw [if_neg hlen]
      by_cases h1 : (k0.value :: ks).length = 1
      · rw [if_pos h1]
        exact infactsO_lo (infactsO_mono (FnInv_infacts (hkv _) p5 hl5)
          (by omega)) (by omega)
      · rw [if_neg h1]
        simp [InfactsO]
  · rw [if_neg hc]
    simp only [InfactsO]
    omega

theorem step_parseMaterial (ts : List Token) (hg : goodStream ts = true)
    (n : Nat) (hkv : FnInvA ts 0 30 (parseKeyValueBlock ts) n) :
    FnInv ts 1 19 (parseMaterial ts) (n + 1) := by
  apply infacts_fninv
  intro pos hpos
  simp only [parseMaterial]
  apply infactsO_bind (expectV_infacts ts hg pos .keyword "material" (by decide)
    hpos _)
  intro _ p1 hE hm1 hl1
  apply infactsO_bind (expectV_infacts ts hg p1 .symbol "\x7b" (by decide) hl1 _)
  intro _ p2 hE2 hm2 hl2
  apply infactsO_bind (infactsO_mono (FnInv_infacts (hkv []) p2 hl2) (by omega))
  intro props p3 hK hm3 hl3
  apply infactsO_bind (expectV_infacts ts hg p3 .symbol "\x7d" (by decide) hl3 _)
  intro _ p4 hE3 hm4 hl4
  simp only [InfactsO]
  omega

theorem step_parseModifier (ts : List Token) (hg : goodStream ts = true)
    (n : Nat) (hkv : FnInvA ts 0 30 (parseKeyValueBlock ts) n) :
    FnInv ts 1 19 (parseModifier ts) (n + 1) := by
  apply infacts_fninv
  intro pos hpos
  simp only [parseModifier]
  apply infactsO_bind (expectV_infacts ts hg pos .keyword "modifier" (by decide)
    hpos _)
  intro _ p1 hE hm1 hl1
  apply infactsO_bind (expectV_infacts ts hg p1 .symbol "." (by decide) hl1 _)
  intro _ p2 hE2 hm2 hl2
  apply infactsO_bind (expectT_infacts ts hg p2 .identifier (by decide) hl2 _)
  intro mt p3 hE3 hm3 hl3
  apply infactsO_bind (expectV_infacts ts hg p3 .symbol "\x7b" (by decide) hl3 _)
  intro _ p4 hE4 hm4 hl4
  apply infactsO_bind (infactsO_mono (FnInv_infacts (hkv []) p4 hl4) (by omega))
  intro props p5 hK hm5 hl5
  apply infactsO_bind (expectV_infacts ts hg p5 .symbol "\x7d" (by decide) hl5 _)
  intro _ p6 hE5 hm6 hl6
  simp only [InfactsO]
  omega

theorem step_parseGroupItems (ts : List Token) (hg : goodStream ts = true)
    (n : Nat) (hitems : FnInv ts 0 30 (parseGroupItems ts) n) :
    FnInv ts 0 30 (parseGroupItems ts) (n + 1) := by
  apply infacts_fninv
  intro pos hpos
  simp only [parseGroupItems]
  by_cases hc : ¬ (peekT ts pos).value = "]"
  · rw [if_pos hc]
    apply infactsO_bind (expectT_infacts ts hg pos .identifier (by decide) hpos _)
    intro c p1 hE hm1 hl1
    by_cases hcm : (peekT ts p1).value = ","
    · rw [if_pos hcm]
      have hadv := peek_value_advance ts hg p1 "," hcm (by decide)
      apply infactsO_bind (infactsO_mono (FnInv_infacts hitems (p1 + 1)
        (by omega)) (by omega))
      intro rest p3 hR hm3 hl3
      simp only [InfactsO]
      omega
    · rw [if_neg hcm]
      apply infactsO_bind (infactsO_mono (FnInv_infacts hitems p1 hl1)
        (by omega))
      intro rest p3 hR hm3 hl3
      simp only [InfactsO]
      omega
  · rw [if_neg hc]
    simp only [InfactsO]
    omega

theorem step_parseGroup (ts : List Token) (hg : goodStream ts = true)
    (n : Nat) (hitems : FnInv ts 0 30 (parseGroupItems ts) n) :
    FnInv ts 1 19 (parseGroup ts) (n + 1) := by
  apply infacts_fninv
  intro pos hpos
  simp only [parseGroup]
  apply infactsO_bind (expectV_infacts ts hg pos .keyword "group" (by decide)
    hpos _)
  intro _ p1 hE hm1 hl1
  apply infactsO_bind (expectV_infacts ts hg p1 .symbol "[" (by decide) hl1 _)
  intro _ p2 hE2 hm2 hl2
  apply infactsO_bind (infactsO_mono (FnInv_infacts hitems p2 hl2) (by omega))
  intro cs p3 hI hm3 hl3
  apply infactsO_bind (expectV_infacts ts hg p3 .symbol "]" (by decide) hl3 _)
  intro _ p4 hE3 hm4 hl4
  simp only [InfactsO]
  omega

theorem step_parseCubeScan (ts : List Token) (hg : goodStream ts = true)
    (n : Nat) (hscan : FnInvA ts 0 30 (parseCubeScan ts) n) :
    FnInvA ts 0 30 (parseCubeScan ts) (n + 1) := by
  intro buffer
  apply infacts_fninv
  intro pos hpos
  simp only [parseCubeScan]
  by_cases hc : (¬ (peekT ts pos).ty = .eof ∧ ¬ (peekT ts pos).value = ")")
  · rw [if_pos hc]
    have hadv := peek_advance ts hg pos hc.1
    by_cases hc2 : (peekT ts pos).value = ":"
    · rw [if_pos hc2]
      apply infactsO_bind (infactsO_mono (FnInv_infacts (hscan "") (pos + 1)
        hadv) (by omega))
      intro rest p2 hR hm2 hl2
      simp only [InfactsO]
      omega
    · rw [if_neg hc2]
      exact infactsO_lo (infactsO_mono (FnInv_infacts (hscan _) (pos + 1) hadv)
        (by omega)) (by omega)
  · rw [if_neg hc]
    by_cases hb : ¬ buffer = ""
    · rw [if_pos hb]
      simp only [InfactsO]
      omega
    · rw [if_neg hb]
      simp only [InfactsO]
      omega

theorem step_parseCube (ts : List Token) (hg : goodStream ts = true)
    (n : Nat) (hscan : FnInvA ts 0 30 (parseCubeScan ts) n) :
    FnInv ts 1 19 (parseCube ts) (n + 1) := by
  apply infacts_fninv
  intro pos hpos
  simp only [parseCube]
  apply infactsO_bind (expectV_infacts ts hg pos .keyword "cube" (by decide)
    hpos _)
  intro _ p1 hE hm1 hl1
  apply infactsO_bind (expectV_infacts ts hg p1 .symbol "(" (by decide) hl1 _)
  intro _ p2 hE2 hm2 hl2
  apply infactsO_bind (infactsO_mono (FnInv_infacts (hscan "") p2 hl2)
    (by omega))
  intro vs p3 hS hm3 hl3
  apply infactsO_bind (expectV_infacts ts hg p3 .symbol ")" (by decide) hl3 _)
  intro _ p4 hE3 hm4 hl4
  simp only [InfactsO]
  omega

theorem step_parsePrimary (ts : List Token) (hg : goodStream ts = true)
    (n : Nat) (hexpr : FnInv ts 1 27 (parseExpression ts) n)
    (hargs : FnInv ts 0 30 (parseArgsList ts) n)
    (hcube : FnInv ts 1 19 (parseCube ts) n)
    (hmesh : FnInv ts 1 19 (parseMesh ts) n)
    (hmat : FnInv ts 1 19 (parseMaterial ts) n)
    (hmod : FnInv ts 1 19 (parseModifier ts) n)
    (hgrp : FnInv ts 1 19 (parseGroup ts) n) :
    FnInv ts 1 20 (parsePrimary ts) (n + 1) := by
  apply infacts_fninv
  intro pos hpos
  simp only [parsePrimary]
  by_cases h1 : (peekT ts pos).ty = .number
  · rw [if_pos h1]
    have hadv := peek_advance ts hg pos (by rw [h1]; decide)
    simp only [InfactsO]
    omega
  · rw [if_neg h1]
    by_cases h2 : (peekT ts pos).ty = .stringL
    · rw [if_pos h2]
      have hadv := peek_advance ts hg pos (by rw [h2]; decide)
      simp only [InfactsO]
      omega
    · rw [if_neg h2]
      by_cases h3 : (peekT ts pos).value = "cube"
      · rw [if_pos h3]
        exact infactsO_mono (FnInv_infacts hcube pos hpos) (by omega)
      · rw [if_neg h3]
        by_cases h4 : (peekT ts pos).value = "mesh"
        · rw [if_pos h4]
          exact infactsO_mono (FnInv_infacts hmesh pos hpos) (by omega)
        · rw [if_neg h4]
          by_cases h5 : (peekT ts pos).value = "material"
          · rw [if_pos h5]
            exact infactsO_mono (FnInv_infacts hmat pos hpos) (by omega)
          · rw [if_neg h5]
            by_cases h6 : (peekT ts pos).value = "modifier"
            · rw [if_pos h6]
              exact infactsO_mono (FnInv_infacts hmod pos hpos) (by omega)
            · rw [if_neg h6]
              by_cases h7 : (peekT ts pos).value = "group"
              · rw [if_pos h7]
                exact infactsO_mono (FnInv_infacts hgrp pos hpos) (by omega)
              · rw [if_neg h7]
                by_cases h8 : (peekT ts pos).ty = .identifier
                · rw [if_pos h8]
                  have hadv := peek_advance ts hg pos (by rw [h8]; decide)
                  by_cases h9 : checkV ts (pos + 1) .symbol "(" = true
                  · rw [if_pos h9]
                    have hadv2 := checkV_advance ts hg (pos + 1) _ _ h9
                    apply infactsO_bind (infactsO_mono (FnInv_infacts hargs
                      (pos + 2) (by omega)) (by omega))
                    intro args p2 hA hm2 hl2
                    apply infactsO_bind (expectV_infacts ts hg p2 .symbol ")"
                      (by decide) hl2 _)
                    intro _ p3 hE hm3 hl3
                    simp only [InfactsO]
                    omega
                  · rw [if_neg h9]
                    by_cases h10 : (checkV ts (pos + 1) .symbol "." = true ∧
                        (peekT ts (pos + 2)).ty = .identifier)
                    · rw [if_pos h10]
                      have hadv2 := checkV_advance ts hg (pos + 1) _ _ h10.1
                      have hadv3 := peek_advance ts hg (pos + 2)
                        (by rw [h10.2]; decide)
                      by_cases h11 : checkV ts (pos + 3) .symbol "(" = true
                      · rw [if_pos h11]
                        have hadv4 := checkV_advance ts hg (pos + 3) _ _ h11
                        apply infactsO_bind (infactsO_mono (FnInv_infacts hargs
                          (pos + 4) (by omega)) (by omega))
                        intro args p3 hA hm3 hl3
                        apply infactsO_bind (expectV_infacts ts hg p3 .symbol ")"
                          (by decide) hl3 _)
                        intro _ p4 hE hm4 hl4
                        simp only [InfactsO]
                        omega
                      · rw [if_neg h11]
                        simp only [InfactsO]
                        omega
                    · rw [if_neg h10]
                      simp only [InfactsO]
                      omega
                · rw [if_neg h8]
                  by_cases h12 : checkV ts pos .symbol "(" = true
                  · rw [if_pos h12]
                    have hadv := checkV_advance ts hg pos _ _ h12
                    apply infactsO_bind (infactsO_mono (FnInv_infacts hexpr
                      (pos + 1) hadv) (by omega))
                    intro e p1 hEx hm1 hl1
                    apply infactsO_bind (expectV_infacts ts hg p1 .symbol ")"
                      (by decide) hl1 _)
                    intro _ p2 hE hm2 hl2
                    simp only [InfactsO]
                    omega
                  · rw [if_neg h12]
                    simp only [InfactsO]
                    intro x hx
                    cases hx
                    exact ⟨peekT ts pos, peek_mem ts pos hpos, rfl⟩

theorem fninv_zero {γ : Type} (ts : List Token) (strict rank : Nat)
    (f : Nat → Nat → PRes γ) (h0 : ∀ pos, f 0 pos = .out) (hrank : 1 ≤ rank) :
    FnInv ts strict rank f 0 := by
  intro pos hpos
  refine ⟨?_, ?_, ?_⟩
  · intro hm
    exact absurd hm (by omega)
  · intro a p' hok
    rw [h0 pos] at hok
    cases hok
  · intro m l x herr
    rw [h0 pos] at herr
    cases herr

theorem step_parseMeshVerts (ts : List Token) (hg : goodStream ts = true)
    (n : Nat) (hverts : FnInv ts 0 30 (parseMeshVerts ts) n) :
    FnInv ts 0 30 (parseMeshVerts ts) (n + 1) := by
  apply infacts_fninv
  intro pos hpos
  simp only [parseMeshVerts]
  by_cases hc : ¬ (peekT ts pos).value = "]"
  · rw [if_pos hc]
    apply infactsO_bind (meshCoord_infacts ts hg pos hpos _)
    intro x p1 hX hm1 hl1
    apply infactsO_bind (expectV_infacts ts hg p1 .symbol "," (by decide) hl1 _)
    intro _ p2 hC1 hm2 hl2
    apply infactsO_bind (meshCoord_infacts ts hg p2 hl2 _)
    intro y p3 hY hm3 hl3
    apply infactsO_bind (expectV_infacts ts hg p3 .symbol "," (by decide) hl3 _)
    intro _ p4 hC2 hm4 hl4
    apply infactsO_bind (meshCoord_infacts ts hg p4 hl4 _)
    intro z p5 hZ hm5 hl5
    apply infactsO_bind (expectV_infacts ts hg p5 .symbol ";" (by decide) hl5 _)
    intro _ p6 hC3 hm6 hl6
    apply infactsO_bind (infactsO_mono (FnInv_infacts hverts p6 hl6) (by omega))
    intro rest p7 hR hm7 hl7
    simp only [InfactsO]
    omega
  · rw [if_neg hc]
    simp only [InfactsO]
    omega

theorem step_parseFaceIndices (ts : List Token) (hg : goodStream ts = true)
    (n : Nat) (hidx : FnInv ts 1 19 (parseFaceIndices ts) n) :
    FnInv ts 1 19 (parseFaceIndices ts) (n + 1) := by
  apply infacts_fninv
  intro pos hpos
  simp only [parseFaceIndices]
  apply infactsO_bind (expectT_infacts ts hg pos .number (by decide) hpos _)
  intro t p1 hE hm1 hl1
  by_cases hc : checkV ts p1 .symbol "," = true
  · rw [if_pos hc]
    have hadv := checkV_advance ts hg p1 _ _ hc
    apply infactsO_bind (infactsO_mono (FnInv_infacts hidx (p1 + 1) (by omega))
      (by omega))
    intro rest p2 hR hm2 hl2
    simp only [InfactsO]
    omega
  · rw [if_neg hc]
    simp only [InfactsO]
    omega

theorem step_parseMeshFaces (ts : List Token) (hg : goodStream ts = true)
    (n : Nat) (hidx : FnInv ts 1 19 (parseFaceIndices ts) n)
    (hfaces : FnInv ts 0 30 (parseMeshFaces ts) n) :
    FnInv ts 0 30 (parseMeshFaces ts) (n + 1) := by
  apply infacts_fninv
  intro pos hpos
  simp only [parseMeshFaces]
  by_cases hc : ¬ (peekT ts pos).value = "]"
  · rw [if_pos hc]
    apply infactsO_bind (infactsO_mono (FnInv_infacts hidx pos hpos) (by omega))
    intro idxs p1 hI hm1 hl1
    apply infactsO_bind (matRef_infacts ts hg p1 hl1 _)
    intro mref p2 hM hm2 hl2
    apply infactsO_bind (expectV_infacts ts hg p2 .symbol ";" (by decide) hl2 _)
    intro _ p3 hS hm3 hl3
    apply infactsO_bind (infactsO_mono (FnInv_infacts hfaces p3 hl3) (by omega))
    intro rest p4 hR hm4 hl4
    simp only [InfactsO]
    omega
  · rw [if_neg hc]
    simp only [InfactsO]
    omega

theorem step_parseMeshBody (ts : List Token) (hg : goodStream ts = true)
    (n : Nat) (hverts : FnInv ts 0 30 (parseMeshVerts ts) n)
    (hfaces : FnInv ts 0 30 (parseMeshFaces ts) n)
    (hbody : FnInvA2 ts 0 30 (parseMeshBody ts) n) :
    FnInvA2 ts 0 30 (parseMeshBody ts) (n + 1) := by
  intro vs fs
  apply infacts_fninv
  intro pos hpos
  simp only [parseMeshBody]
  by_cases hc : ¬ (peekT ts pos).value = "\x7d"
  · rw [if_pos hc]
    apply infactsO_bind (expectT_infacts ts hg pos .identifier (by decide) hpos _)
    intro keyT p1 hE hm1 hl1
    apply infactsO_bind (expectV_infacts ts hg p1 .symbol "=" (by decide) hl1 _)
    intro _ p2 hE2 hm2 hl2
    apply infactsO_bind (expectV_infacts ts hg p2 .symbol "[" (by decide) hl2 _)
    intro _ p3 hE3 hm3 hl3
    by_cases hk : keyT.value = "vertices"
    · rw [if_pos hk]
      apply infactsO_bind (infactsO_mono (FnInv_infacts hverts p3 hl3)
        (by omega))
      intro newVs p4 hV hm4 hl4
      apply infactsO_bind (expectV_infacts ts hg p4 .symbol "]" (by decide)
        hl4 _)
      intro _ p5 hE4 hm5 hl5
      exact infactsO_lo (infactsO_mono (FnInv_infacts (hbody _ _) p5 hl5)
        (by omega)) (by omega)
    · rw [if_neg hk]
      by_cases hk2 : keyT.value = "faces"
      · rw [if_pos hk2]
        apply infactsO_bind (infactsO_mono (FnInv_infacts hfaces p3 hl3)
          (by omega))
        intro newFs p4 hF hm4 hl4
        apply infactsO_bind (expectV_infacts ts hg p4 .symbol "]" (by decide)
          hl4 _)
        intro _ p5 hE4 hm5 hl5
        exact infactsO_lo (infactsO_mono (FnInv_infacts (hbody _ _) p5 hl5)
          (by omega)) (by omega)
      · rw [if_neg hk2]
        apply infactsO_bind (expectV_infacts ts hg p3 .symbol "]" (by decide)
          hl3 _)
        intro _ p4 hE4 hm4 hl4
        exact infactsO_lo (infactsO_mono (FnInv_infacts (hbody _ _) p4 hl4)
          (by omega)) (by omega)
  · rw [if_neg hc]
    simp only [InfactsO]
    omega

theorem step_parseMesh (ts : List Token) (hg : goodStream ts = true)
    (n : Nat) (hbody : FnInvA2 ts 0 30 (parseMeshBody ts) n) :
    FnInv ts 1 19 (parseMesh ts) (n + 1) := by
  apply infacts_fninv
  intro pos hpos
  simp only [parseMesh]
  apply infactsO_bind (expectV_infacts ts hg pos .keyword "mesh" (by decide)
    hpos _)
  intro _ p1 hE hm1 hl1
  apply infactsO_bind (expectV_infacts ts hg p1 .symbol "\x7b" (by decide) hl1 _)
  intro _ p2 hE2 hm2 hl2
  apply infactsO_bind (infactsO_mono (FnInv_infacts (hbody [] []) p2 hl2)
    (by omega))
  intro vf p3 hB hm3 hl3
  apply infactsO_bind (expectV_infacts ts hg p3 .symbol "\x7d" (by decide) hl3 _)
  intro _ p4 hE3 hm4 hl4
  simp only [InfactsO]
  omega

theorem step_parseImportIds (ts : List Token) (hg : goodStream ts = true)
    (n : Nat) (hids : FnInv ts 0 30 (parseImportIds ts) n) :
    FnInv ts 0 30 (parseImportIds ts) (n + 1) := by
  apply infacts_fninv
  intro pos hpos
  simp only [parseImportIds]
  by_cases hc : checkV ts pos .symbol "," = true
  · rw [if_pos hc]
    have hadv := checkV_advance ts hg pos _ _ hc
    apply infactsO_bind (expectT_infacts ts hg (pos + 1) .identifier (by decide)
      (by omega) _)
    intro idt p2 hE hm2 hl2
    apply infactsO_bind (infactsO_mono (FnInv_infacts hids p2 hl2) (by omega))
    intro rest p3 hR hm3 hl3
    simp only [InfactsO]
    omega
  · rw [if_neg hc]
    simp only [InfactsO]
    omega

theorem step_parseDashName (ts : List Token) (hg : goodStream ts = true)
    (n : Nat) (hdash : FnInvA ts 0 30 (parseDashName ts) n) :
    FnInvA ts 0 30 (parseDashName ts) (n + 1) := by
  intro acc
  apply infacts_fninv
  intro pos hpos
  simp only [parseDashName]
  by_cases hc : (checkV ts pos .symbol "-" = true ∨ checkT ts pos .identifier = true)
  · rw [if_pos hc]
    have hadv : pos + 2 ≤ ts.length := by
      rcases hc with h | h
      · exact checkV_advance ts hg pos _ _ h
      · exact peek_advance ts hg pos (checkT_spec ts pos _ h).1
    exact infactsO_lo (infactsO_mono (FnInv_infacts (hdash _) (pos + 1) hadv)
      (by omega)) (by omega)
  · rw [if_neg hc]
    simp only [InfactsO]
    omega

theorem step_parseImport (ts : List Token) (hg : goodStream ts = true)
    (n : Nat) (hids : FnInv ts 0 30 (parseImportIds ts) n)
    (hdash : FnInvA ts 0 30 (parseDashName ts) n) :
    FnInv ts 1 28 (parseImport ts) (n + 1) := by
  apply infacts_fninv
  intro pos hpos
  simp only [parseImport]
  apply infactsO_bind (expectV_infacts ts hg pos .keyword "import" (by decide)
    hpos _)
  intro _ p1 hE hm1 hl1
  by_cases hs : (peekT ts p1).ty = .stringL
  · rw [if_pos hs]
    have hadv := peek_advance ts hg p1 (by rw [hs]; decide)
    exact infactsO_lo (importTail_infacts ts hg _ _ (p1 + 1) (by omega) _)
      (by omega)
  · rw [if_neg hs]
    apply infactsO_bind (expectT_infacts ts hg p1 .identifier (by decide) hl1 _)
    intro id0 p2 hE2 hm2 hl2
    apply infactsO_bind (infactsO_mono (FnInv_infacts hids p2 hl2) (by omega))
    intro ids p3 hI hm3 hl3
    by_cases hf : checkV ts p3 .keyword "from" = true
    · rw [if_pos hf]
      have hadv := checkV_advance ts hg p3 _ _ hf
      by_cases hs2 : (peekT ts (p3 + 1)).ty = .stringL
      · rw [if_pos hs2]
        have hadv2 := peek_advance ts hg (p3 + 1) (by rw [hs2]; decide)
        exact infactsO_lo (importTail_infacts ts hg _ _ (p3 + 2) (by omega) _)
          (by omega)
      · rw [if_neg hs2]
        apply infactsO_bind (expectT_infacts ts hg (p3 + 1) .identifier
          (by decide) (by omega) _)
        intro srcId p5 hE3 hm5 hl5
        apply infactsO_bind (infactsO_mono (FnInv_infacts (hdash _) p5 hl5)
          (by omega))
        intro src p6 hD hm6 hl6
        exact infactsO_lo (importTail_infacts ts hg _ _ p6 hl6 _) (by omega)
    · rw [if_neg hf]
      by_cases h1 : (id0.value :: ids).length = 1
      · rw [if_pos h1]
        apply infactsO_bind (infactsO_mono (FnInv_infacts (hdash _) p3 hl3)
          (by omega))
        intro src p4 hD hm4 hl4
        exact infactsO_lo (importTail_infacts ts hg _ _ p4 hl4 _) (by omega)
      · rw [if_neg h1]
        simp only [InfactsO]
        intro x hx
        cases hx
        exact ⟨peekT ts p1, peek_mem ts p1 hl1, rfl⟩

theorem step_parseConsolePrint (ts : List Token) (hg : goodStream ts = true)
    (n : Nat) (hexpr : FnInv ts 1 27 (parseExpression ts) n) :
    FnInv ts 1 28 (parseConsolePrint ts) (n + 1) := by
  apply infacts_fninv
  intro pos hpos
  simp only [parseConsolePrint]
  apply infactsO_bind (expectV_infacts ts hg pos .identifier "console"
    (by decide) hpos _)
  intro _ p1 hE hm1 hl1
  apply infactsO_bind (expectV_infacts ts hg p1 .symbol "." (by decide) hl1 _)
  intro _ p2 hE2 hm2 hl2
  apply infactsO_bind (expectV_infacts ts hg p2 .identifier "print" (by decide)
    hl2 _)
  intro _ p3 hE3 hm3 hl3
  apply infactsO_bind (expectV_infacts ts hg p3 .symbol "(" (by decide) hl3 _)
  intro _ p4 hE4 hm4 hl4
  apply infactsO_bind (infactsO_mono (FnInv_infacts hexpr p4 hl4) (by omega))
  intro msg p5 hM hm5 hl5
  apply infactsO_bind (expectV_infacts ts hg p5 .symbol ")" (by decide) hl5 _)
  intro _ p6 hE5 hm6 hl6
  simp only [InfactsO]
  omega

theorem step_parseAssignment (ts : List Token) (hg : goodStream ts = true)
    (n : Nat) (hexpr : FnInv ts 1 27 (parseExpression ts) n) :
    FnInv ts 1 28 (parseAssignment ts) (n + 1) := by
  apply infacts_fninv
  intro pos hpos
  simp only [parseAssignment]
  apply infactsO_bind (expectT_infacts ts hg pos .identifier (by decide) hpos _)
  intro idT p1 hE hm1 hl1
  apply infactsO_bind (expectV_infacts ts hg p1 .symbol "=" (by decide) hl1 _)
  intro _ p2 hE2 hm2 hl2
  apply infactsO_bind (infactsO_mono (FnInv_infacts hexpr p2 hl2) (by omega))
  intro e p3 hX hm3 hl3
  simp only [InfactsO]
  omega

theorem step_parseActionCoords (ts : List Token) (hg : goodStream ts = true)
    (n : Nat) (hcoords : FnInvA ts 0 30 (parseActionCoords ts) n) :
    FnInvA ts 0 30 (parseActionCoords ts) (n + 1) := by
  intro acc
  apply infacts_fninv
  intro pos hpos
  simp only [parseActionCoords]
  by_cases hc : ((peekT ts pos).ty = .number ∨ (peekT ts pos).value = "-" ∨
      (peekT ts pos).value = ",")
  · rw [if_pos hc]
    by_cases hcm : checkV ts pos .symbol "," = true
    · rw [if_pos hcm]
      have hadv := checkV_advance ts hg pos _ _ hcm
      exact infactsO_lo (infactsO_mono (FnInv_infacts (hcoords _) (pos + 1)
        hadv) (by omega)) (by omega)
    · rw [if_neg hcm]
      by_cases hneg : checkV ts pos .symbol "-" = true
      · simp only [if_pos hneg]
        have hadv := checkV_advance ts hg pos _ _ hneg
        by_cases hnum : (peekT ts (pos + 1)).ty = .number
        · rw [if_pos hnum]
          have hadv2 := peek_advance ts hg (pos + 1) (by rw [hnum]; decide)
          exact infactsO_lo (infactsO_mono (FnInv_infacts (hcoords _) (pos + 2)
            hadv2) (by omega)) (by omega)
        · rw [if_neg hnum]
          simp only [InfactsO]
          omega
      · simp only [if_neg hneg]
        by_cases hnum : (peekT ts pos).ty = .number
        · rw [if_pos hnum]
          have hadv := peek_advance ts hg pos (by rw [hnum]; decide)
          exact infactsO_lo (infactsO_mono (FnInv_infacts (hcoords _) (pos + 1)
            hadv) (by omega)) (by omega)
        · rw [if_neg hnum]
          simp only [InfactsO]
          omega
  · rw [if_neg hc]
    simp only [InfactsO]
    omega

theorem step_parseMethodArgs (ts : List Token) (hg : goodStream ts = true)
    (n : Nat) (hexpr : FnInv ts 1 27 (parseExpression ts) n)
    (hma : FnInvA2 ts 0 30 (parseMethodArgs ts) n) :
    FnInvA2 ts 0 30 (parseMethodArgs ts) (n + 1) := by
  intro args excl
  apply infacts_fninv
  intro pos hpos
  simp only [parseMethodArgs]
  by_cases hc : ¬ checkV ts pos .symbol ")" = true
  · rw [if_pos hc]
    by_cases hn : checkV ts pos .keyword "not" = true
    · rw [if_pos hn]
      have hadv := checkV_advance ts hg pos _ _ hn
      apply infactsO_bind (expectT_infacts ts hg (pos + 1) .identifier
        (by decide) (by omega) _)
      intro e p2 hE hm2 hl2
      exact infactsO_lo (infactsO_mono (FnInv_infacts (hma _ _) p2 hl2)
        (by omega)) (by omega)
    · rw [if_neg hn]
      apply infactsO_bind (infactsO_mono (FnInv_infacts hexpr pos hpos)
        (by omega))
      intro a p1 hA hm1 hl1
      by_cases hcm : checkV ts p1 .symbol "," = true
      · simp only [if_pos hcm]
        have hadv := checkV_advance ts hg p1 _ _ hcm
        exact infactsO_lo (infactsO_mono (FnInv_infacts (hma _ _) (p1 + 1)
          hadv) (by omega)) (by omega)
      · simp only [if_neg hcm]
        exact infactsO_lo (infactsO_mono (FnInv_infacts (hma _ _) p1 hl1)
          (by omega)) (by omega)
  · rw [if_neg hc]
    simp only [InfactsO]
    omega

theorem step_parseAction (ts : List Token) (hg : goodStream ts = true)
    (n : Nat) (hexpr : FnInv ts 1 27 (parseExpression ts) n)
    (hcoords : FnInvA ts 0 30 (parseActionCoords ts) n)
    (hma : FnInvA2 ts 0 30 (parseMethodArgs ts) n) :
    FnInv ts 1 28 (parseAction ts) (n + 1) := by
  apply infacts_fninv
  intro pos hpos
  simp only [parseAction]
  apply infactsO_bind (expectT_infacts ts hg pos .identifier (by decide) hpos _)
  intro objT p1 hE hm1 hl1
  apply infactsO_bind (infactsO_lo (subTarget_infacts ts hg p1 hl1 _)
    (le_refl _))
  intro sub p3 hS hm3 hl3
  apply infactsO_bind (expectV_infacts ts hg p3 .symbol "." (by decide) hl3 _)
  intro _ p4 hE2 hm4 hl4
  apply infactsO_bind (expectT_infacts ts hg p4 .identifier (by decide) hl4 _)
  intro pm p5 hE3 hm5 hl5
  by_cases heq : checkV ts p5 .symbol "=" = true
  · rw [if_pos heq]
    have hadv := checkV_advance ts hg p5 _ _ heq
    by_cases hco : (((peekT ts (p5 + 1)).ty = .number ∨
        (peekT ts (p5 + 1)).value = "-") ∧ (peekT ts (p5 + 2)).value = ",")
    · rw [if_pos hco]
      apply infactsO_bind (infactsO_mono (FnInv_infacts (hcoords [])
        (p5 + 1) (by omega)) (by omega))
      intro coords p7 hC hm7 hl7
      simp only [InfactsO]
      omega
    · rw [if_neg hco]
      apply infactsO_bind (infactsO_mono (FnInv_infacts hexpr (p5 + 1)
        (by omega)) (by omega))
      intro e p7 hX hm7 hl7
      simp only [InfactsO]
      omega
  · rw [if_neg heq]
    by_cases hpar : checkV ts p5 .symbol "(" = true
    · rw [if_pos hpar]
      have hadv := checkV_advance ts hg p5 _ _ hpar
      apply infactsO_bind (infactsO_mono (FnInv_infacts (hma [] none)
        (p5 + 1) (by omega)) (by omega))
      intro ae p6 hA hm6 hl6
      apply infactsO_bind (expectV_infacts ts hg p6 .symbol ")" (by decide)
        hl6 _)
      intro _ p7 hE4 hm7 hl7
      simp only [InfactsO]
      omega
    · rw [if_neg hpar]
      simp [InfactsO]

theorem step_parseIf (ts : List Token) (hg : goodStream ts = true) (n : Nat)
    (hexpr : FnInv ts 1 27 (parseExpression ts) n)
    (hblock : FnInv ts 1 28 (parseBlock ts) n)
    (hifP : FnInv ts 1 28 (parseIf ts) n) :
    FnInv ts 1 28 (parseIf ts) (n + 1) := by
  apply infacts_fninv
  intro pos hpos
  simp only [parseIf]
  apply infactsO_bind (expectV_infacts ts hg pos .keyword "if" (by decide)
    hpos _)
  intro _ p1 hE hm1 hl1
  apply infactsO_bind (infactsO_mono (FnInv_infacts hexpr p1 hl1) (by omega))
  intro cond p2 hX hm2 hl2
  apply infactsO_bind (infactsO_mono (FnInv_infacts hblock p2 hl2) (by omega))
  intro thenB p3 hB hm3 hl3
  by_cases he : checkV ts p3 .keyword "else" = true
  · rw [if_pos he]
    have hadv := checkV_advance ts hg p3 _ _ he
    by_cases hi : checkV ts (p3 + 1) .keyword "if" = true
    · rw [if_pos hi]
      apply infactsO_bind (infactsO_mono (FnInv_infacts hifP (p3 + 1)
        (by omega)) (by omega))
      intro elifS p5 hI hm5 hl5
      simp only [InfactsO]
      omega
    · rw [if_neg hi]
      apply infactsO_bind (infactsO_mono (FnInv_infacts hblock (p3 + 1)
        (by omega)) (by omega))
      intro elseB p5 hB2 hm5 hl5
      simp only [InfactsO]
      omega
  · rw [if_neg he]
    simp only [InfactsO]
    omega

theorem step_parseFor (ts : List Token) (hg : goodStream ts = true) (n : Nat)
    (hexpr : FnInv ts 1 27 (parseExpression ts) n)
    (hblock : FnInv ts 1 28 (parseBlock ts) n) :
    FnInv ts 1 28 (parseFor ts) (n + 1) := by
  apply infacts_fninv
  intro pos hpos
  simp only [parseFor]
  apply infactsO_bind (expectV_infacts ts hg pos .keyword "for" (by decide)
    hpos _)
  intro _ p1 hE hm1 hl1
  apply infactsO_bind (expectT_infacts ts hg p1 .identifier (by decide) hl1 _)
  intro varT p2 hE2 hm2 hl2
  apply infactsO_bind (expectV_infacts ts hg p2 .symbol "=" (by decide) hl2 _)
  intro _ p3 hE3 hm3 hl3
  apply infactsO_bind (infactsO_mono (FnInv_infacts hexpr p3 hl3) (by omega))
  intro startE p4 hX hm4 hl4
  apply infactsO_bind (expectV_infacts ts hg p4 .keyword "to" (by decide) hl4 _)
  intro _ p5 hE4 hm5 hl5
  apply infactsO_bind (infactsO_mono (FnInv_infacts hexpr p5 hl5) (by omega))
  intro endE p6 hX2 hm6 hl6
  by_cases hs : checkV ts p6 .keyword "step" = true
  · rw [if_pos hs]
    have hadv := checkV_advance ts hg p6 _ _ hs
    apply infactsO_bind (infactsO_mono (FnInv_infacts hexpr (p6 + 1)
      (by omega)) (by omega))
    intro stepE p7 hX3 hm7 hl7
    apply infactsO_bind (infactsO_mono (FnInv_infacts hblock p7 hl7) (by omega))
    intro body p8 hB hm8 hl8
    simp only [InfactsO]
    omega
  · rw [if_neg hs]
    apply infactsO_bind (infactsO_mono (FnInv_infacts hblock p6 hl6) (by omega))
    intro body p7 hB hm7 hl7
    simp only [InfactsO]
    omega

theorem step_parseBlock (ts : List Token) (hg : goodStream ts = true) (n : Nat)
    (hbs : FnInv ts 0 30 (parseBlockStmts ts) n) :
    FnInv ts 1 28 (parseBlock ts) (n + 1) := by
  apply infacts_fninv
  intro pos hpos
  simp only [parseBlock]
  apply infactsO_bind (expectV_infacts ts hg pos .symbol "\x7b" (by decide)
    hpos _)
  intro _ p1 hE hm1 hl1
  apply infactsO_bind (infactsO_mono (FnInv_infacts hbs p1 hl1) (by omega))
  intro stmts p2 hB hm2 hl2
  apply infactsO_bind (expectV_infacts ts hg p2 .symbol "\x7d" (by decide)
    hl2 _)
  intro _ p3 hE2 hm3 hl3
  simp only [InfactsO]
  omega

theorem step_parseStatement (ts : List Token) (hg : goodStream ts = true)
    (n : Nat) (himp : FnInv ts 1 28 (parseImport ts) n)
    (hifP : FnInv ts 1 28 (parseIf ts) n)
    (hwhile : FnInv ts 1 28 (parseWhile ts) n)
    (hforP : FnInv ts 1 28 (parseFor ts) n)
    (hcp : FnInv ts 1 28 (parseConsolePrint ts) n)
    (hasg : FnInv ts 1 28 (parseAssignment ts) n)
    (hact : FnInv ts 1 28 (parseAction ts) n) :
    FnInv ts 1 29 (parseStatement ts) (n + 1) := by
  apply infacts_fninv
  intro pos hpos
  simp only [parseStatement]
  by_cases h1 : ((peekT ts pos).ty = .keyword ∧ (peekT ts pos).value = "import")
  · rw [if_pos h1]
    exact infactsO_mono (FnInv_infacts himp pos hpos) (by omega)
  · rw [if_neg h1]
    by_cases h2 : ((peekT ts pos).ty = .keyword ∧ (peekT ts pos).value = "if")
    · rw [if_pos h2]
      exact infactsO_mono (FnInv_infacts hifP pos hpos) (by omega)
    · rw [if_neg h2]
      by_cases h3 : ((peekT ts pos).ty = .keyword ∧
          (peekT ts pos).value = "while")
      · rw [if_pos h3]
        exact infactsO_mono (FnInv_infacts hwhile pos hpos) (by omega)
      · rw [if_neg h3]
        by_cases h4 : ((peekT ts pos).ty = .keyword ∧
            (peekT ts pos).value = "for")
        · rw [if_pos h4]
          exact infactsO_mono (FnInv_infacts hforP pos hpos) (by omega)
        · rw [if_neg h4]
          by_cases h5 : ((peekT ts pos).value = "console" ∧
              (peekT ts (pos + 1)).value = ".")
          · rw [if_pos h5]
            exact infactsO_mono (FnInv_infacts hcp pos hpos) (by omega)
          · rw [if_neg h5]
            by_cases h6 : (peekT ts pos).ty = .identifier
            · rw [if_pos h6]
              by_cases h7 : (peekT ts (pos + 1)).value = "="
              · rw [if_pos h7]
                exact infactsO_mono (FnInv_infacts hasg pos hpos) (by omega)
              · rw [if_neg h7]
                by_cases h8 : ((peekT ts (pos + 1)).value = "(" ∨
                    (peekT ts (pos + 1)).value = ".")
                · rw [if_pos h8]
                  exact infactsO_mono (FnInv_infacts hact pos hpos) (by omega)
                · rw [if_neg h8]
                  simp only [InfactsO]
                  intro x hx
                  cases hx
                  exact ⟨peekT ts pos, peek_mem ts pos hpos, rfl⟩
            · rw [if_neg h6]
              simp only [InfactsO]
              intro x hx
              cases hx
              exact ⟨peekT ts pos, peek_mem ts pos hpos, rfl⟩

theorem step_parseBlockStmts (ts : List Token) (hg : goodStream ts = true)
    (n : Nat) (hstmt : FnInv ts 1 29 (parseStatement ts) n)
    (hbs : FnInv ts 0 30 (parseBlockStmts ts) n) :
    FnInv ts 0 30 (parseBlockStmts ts) (n + 1) := by
  apply infacts_fninv
  intro pos hpos
  simp only [parseBlockStmts]
  by_cases hc : (¬ checkV ts pos .symbol "\x7d" = true ∧
      ¬ checkT ts pos .eof = true)
  · rw [if_pos hc]
    apply infactsO_bind (infactsO_mono (FnInv_infacts hstmt pos hpos)
      (by omega))
    intro s p1 hS hm1 hl1
    apply infactsO_bind (infactsO_mono (FnInv_infacts hbs p1 hl1) (by omega))
    intro rest p2 hP hm2 hl2
    simp only [InfactsO]
    omega
  · rw [if_neg hc]
    simp only [InfactsO]
    omega

theorem step_parseProgram (ts : List Token) (hg : goodStream ts = true)
    (n : Nat) (hstmt : FnInv ts 1 29 (parseStatement ts) n)
    (hprog : FnInv ts 0 31 (parseProgram ts) n) :
    FnInv ts 0 31 (parseProgram ts) (n + 1) := by
  apply infacts_fninv
  intro pos hpos
  simp only [parseProgram]
  by_cases he : ¬ (peekT ts pos).ty = .eof
  · rw [if_pos he]
    apply infactsO_bind (infactsO_mono (FnInv_infacts hstmt pos hpos)
      (by omega))
    intro s p1 hS hm1 hl1
    apply infactsO_bind (infactsO_mono (FnInv_infacts hprog p1 hl1) (by omega))
    intro rest p2 hP hm2 hl2
    simp only [InfactsO]
    omega
  · rw [if_neg he]
    simp only [InfactsO]
    omega

theorem step_parseWhile (ts : List Token) (hg : goodStream ts = true) (n : Nat)
    (hexpr : FnInv ts 1 27 (parseExpression ts) n)
    (hblock : FnInv ts 1 28 (parseBlock ts) n) :
    FnInv ts 1 28 (parseWhile ts) (n + 1) := by
  apply infacts_fninv
  intro pos hpos
  simp only [parseWhile]
  apply infactsO_bind (expectV_infacts ts hg pos .keyword "while" (by decide) hpos _)
  intro _ p1 hE hm1 hl1
  apply infactsO_bind (infactsO_mono (FnInv_infacts hexpr p1 hl1) (by omega))
  intro cond p2 hX hm2 hl2
  apply infactsO_bind (infactsO_mono (FnInv_infacts hblock p2 hl2) (by omega))
  intro body p3 hB hm3 hl3
  simp only [InfactsO]
  omega

/-- The joint invariant holds at every fuel level: proved by induction
    on the fuel, each function's case dispatched to its step lemma. -/
theorem parserInv_all (ts : List Token) (hg : goodStream ts = true) :
    ∀ n, ParserInv ts n := by
  intro n
  induction n with
  | zero =>
      exact {
        prog := fninv_zero ts 0 31 _ (fun pos => rfl) (by omega)
        blockStmts := fninv_zero ts 0 30 _ (fun pos => rfl) (by omega)
        stmt := fninv_zero ts 1 29 _ (fun pos => rfl) (by omega)
        block := fninv_zero ts 1 28 _ (fun pos => rfl) (by omega)
        ifP := fninv_zero ts 1 28 _ (fun pos => rfl) (by omega)
        whileP := fninv_zero ts 1 28 _ (fun pos => rfl) (by omega)
        forP := fninv_zero ts 1 28 _ (fun pos => rfl) (by omega)
        importP := fninv_zero ts 1 28 _ (fun pos => rfl) (by omega)
        importIds := fninv_zero ts 0 30 _ (fun pos => rfl) (by omega)
        dashName := fun acc => fninv_zero ts 0 30 _ (fun pos => rfl) (by omega)
        consoleP := fninv_zero ts 1 28 _ (fun pos => rfl) (by omega)
        assignP := fninv_zero ts 1 28 _ (fun pos => rfl) (by omega)
        expr := fninv_zero ts 1 27 _ (fun pos => rfl) (by omega)
        logicOr := fninv_zero ts 1 26 _ (fun pos => rfl) (by omega)
        equality := fninv_zero ts 1 25 _ (fun pos => rfl) (by omega)
        eqLoop := fun acc => fninv_zero ts 0 30 _ (fun pos => rfl) (by omega)
        comparison := fninv_zero ts 1 24 _ (fun pos => rfl) (by omega)
        cmpLoop := fun acc => fninv_zero ts 0 30 _ (fun pos => rfl) (by omega)
        term := fninv_zero ts 1 23 _ (fun pos => rfl) (by omega)
        termLoop := fun acc => fninv_zero ts 0 30 _ (fun pos => rfl) (by omega)
        factor := fninv_zero ts 1 22 _ (fun pos => rfl) (by omega)
        facLoop := fun acc => fninv_zero ts 0 30 _ (fun pos => rfl) (by omega)
        unary := fninv_zero ts 1 21 _ (fun pos => rfl) (by omega)
        primary := fninv_zero ts 1 20 _ (fun pos => rfl) (by omega)
        argsList := fninv_zero ts 0 30 _ (fun pos => rfl) (by omega)
        argsMore := fninv_zero ts 0 30 _ (fun pos => rfl) (by omega)
        cubeP := fninv_zero ts 1 19 _ (fun pos => rfl) (by omega)
        cubeScan := fun acc => fninv_zero ts 0 30 _ (fun pos => rfl) (by omega)
        meshP := fninv_zero ts 1 19 _ (fun pos => rfl) (by omega)
        meshBody := fun a b => fninv_zero ts 0 30 _ (fun pos => rfl) (by omega)
        meshVerts := fninv_zero ts 0 30 _ (fun pos => rfl) (by omega)
        faceIdx := fninv_zero ts 1 19 _ (fun pos => rfl) (by omega)
        meshFaces := fninv_zero ts 0 30 _ (fun pos => rfl) (by omega)
        materialP := fninv_zero ts 1 19 _ (fun pos => rfl) (by omega)
        modifierP := fninv_zero ts 1 19 _ (fun pos => rfl) (by omega)
        kvBlock := fun acc => fninv_zero ts 0 30 _ (fun pos => rfl) (by omega)
        kvKeys := fninv_zero ts 0 30 _ (fun pos => rfl) (by omega)
        kvVals := fninv_zero ts 0 30 _ (fun pos => rfl) (by omega)
        groupP := fninv_zero ts 1 19 _ (fun pos => rfl) (by omega)
        groupItems := fninv_zero ts 0 30 _ (fun pos => rfl) (by omega)
        action := fninv_zero ts 1 28 _ (fun pos => rfl) (by omega)
        actionCoords := fun acc => fninv_zero ts 0 30 _ (fun pos => rfl) (by omega)
        methodArgs := fun a b => fninv_zero ts 0 30 _ (fun pos => rfl) (by omega) }
  | succ n ih =>
      exact {
        prog := step_parseProgram ts hg n ih.stmt ih.prog
        blockStmts := step_parseBlockStmts ts hg n ih.stmt ih.blockStmts
        stmt := step_parseStatement ts hg n ih.importP ih.ifP ih.whileP
          ih.forP ih.consoleP ih.assignP ih.action
        block := step_parseBlock ts hg n ih.blockStmts
        ifP := step_parseIf ts hg n ih.expr ih.block ih.ifP
        whileP := step_parseWhile ts hg n ih.expr ih.block
        forP := step_parseFor ts hg n ih.expr ih.block
        importP := step_parseImport ts hg n ih.importIds ih.dashName
        importIds := step_parseImportIds ts hg n ih.importIds
        dashName := step_parseDashName ts hg n ih.dashName
        consoleP := step_parseConsolePrint ts hg n ih.expr
        assignP := step_parseAssignment ts hg n ih.expr
        expr := step_parseExpression ts n ih.logicOr
        logicOr := step_parseLogicOr ts n ih.equality
        equality := step_parseEquality ts n ih.comparison ih.eqLoop
        eqLoop := step_parseEqualityLoop ts hg n ih.comparison ih.eqLoop
        comparison := step_parseComparison ts n ih.term ih.cmpLoop
        cmpLoop := step_parseComparisonLoop ts hg n ih.term ih.cmpLoop
        term := step_parseTerm ts n ih.factor ih.termLoop
        termLoop := step_parseTermLoop ts hg n ih.factor ih.termLoop
        factor := step_parseFactor ts n ih.unary ih.facLoop
        facLoop := step_parseFactorLoop ts hg n ih.unary ih.facLoop
        unary := step_parseUnary ts hg n ih.unary ih.primary
        primary := step_parsePrimary ts hg n ih.expr ih.argsList ih.cubeP
          ih.meshP ih.materialP ih.modifierP ih.groupP
        argsList := step_parseArgsList ts n ih.expr ih.argsMore
        argsMore := step_parseArgsMore ts hg n ih.expr ih.argsMore
        cubeP := step_parseCube ts hg n ih.cubeScan
        cubeScan := step_parseCubeScan ts hg n ih.cubeScan
        meshP := step_parseMesh ts hg n ih.meshBody
        meshBody := step_parseMeshBody ts hg n ih.meshVerts ih.meshFaces
          ih.meshBody
        meshVerts := step_parseMeshVerts ts hg n ih.meshVerts
        faceIdx := step_parseFaceIndices ts hg n ih.faceIdx
        meshFaces := step_parseMeshFaces ts hg n ih.faceIdx ih.meshFaces
        materialP := step_parseMaterial ts hg n ih.kvBlock
        modifierP := step_parseModifier ts hg n ih.kvBlock
        kvBlock := step_parseKeyValueBlock ts hg n ih.expr ih.kvKeys
          ih.kvVals ih.kvBlock
        kvKeys := step_parseKVKeys ts hg n ih.kvKeys
        kvVals := step_parseKVVals ts hg n ih.expr ih.kvVals
        groupP := step_parseGroup ts hg n ih.groupItems
        groupItems := step_parseGroupItems ts hg n ih.groupItems
        action := step_parseAction ts hg n ih.expr ih.actionCoords
          ih.methodArgs
        actionCoords := step_parseActionCoords ts hg n ih.actionCoords
        methodArgs := step_parseMethodArgs ts hg n ih.expr ih.methodArgs }

theorem goodStream_len (ts : List Token) (hg : goodStream ts = true) :
    0 < ts.length := by
  cases ts with
  | nil => simp [goodStream] at hg
  | cons t rest => simp

/-- parseProgram only returns a program once its cursor sits on an EOF
    token: it never returns a partial program. -/
theorem parseProgram_ok_eof (ts : List Token) :
    ∀ (n pos : Nat) (ast : List Stmt) (p' : Nat),
      parseProgram ts n pos = .ok ast p' → (peekT ts p').ty = .eof := by
  intro n
  induction n with
  | zero =>
      intro pos ast p' h
      rw [show parseProgram ts 0 pos = .out from rfl] at h
      cases h
  | succ n ih =>
      intro pos ast p' h
      simp only [parseProgram] at h
      by_cases he : ¬ (peekT ts pos).ty = .eof
      · rw [if_pos he] at h
        cases h1 : parseStatement ts n pos with
        | ok s p1 =>
            rw [h1] at h
            simp only [pbind] at h
            cases h2 : parseProgram ts n p1 with
            | ok rest p2 =>
                rw [h2] at h
                simp only [pbind] at h
                cases h
                exact ih p1 rest p' h2
            | err m l => rw [h2] at h; simp [pbind] at h
            | out => rw [h2] at h; simp [pbind] at h
        | err m l => rw [h1] at h; simp [pbind] at h
        | out => rw [h1] at h; simp [pbind] at h
      · rw [if_neg he] at h
        push_neg at he
        cases h
        exact he

/-- In a stream with nondecreasing lines, every token's line is at most
    the final token's line. -/
theorem linesMono_le : ∀ (ts : List Token), linesMono ts = true →
    ∀ t ∈ ts, t.line ≤ (peekT ts (ts.length - 1)).line
  | [] => by intro _ t ht; simp at ht
  | [t1] => by
      intro _ t ht
      simp only [List.mem_singleton] at ht
      subst ht
      simp [peekT]
  | t1 :: t2 :: rest => by
      intro hm t ht
      simp only [linesMono, Bool.and_eq_true, decide_eq_true_eq] at hm
      have hlast : peekT (t1 :: t2 :: rest) ((t1 :: t2 :: rest).length - 1) =
          peekT (t2 :: rest) ((t2 :: rest).length - 1) := by
        simp only [List.length_cons]
        rw [show rest.length + 1 + 1 - 1 = (rest.length + 1 - 1) + 1 by omega]
        rw [peekT_cons_succ]
      rw [hlast]
      rcases List.mem_cons.mp ht with h1 | h2
      · subst h1
        calc t.line ≤ t2.line := hm.1
          _ ≤ (peekT (t2 :: rest) ((t2 :: rest).length - 1)).line :=
            linesMono_le (t2 :: rest) hm.2 t2 (List.mem_cons_self _ _)
      · exact linesMono_le (t2 :: rest) hm.2 t h2

/-- C4 counterexample: two reachable parser errors cite no line at all —
    the key/value count mismatch of parseKeyValueBlock (here from the
    real source `m = material { a, b = 1, 2, 3 }`) and the parseAction
    fall-through (from `a.b c`) — and on a stream whose lines are not
    nondecreasing (first token line 99, EOF line 1), the cited line 99
    exceeds the last token's line 1. -/
theorem c4_parse_error_line_counterexample :
    (parse (tokenize "m = material \x7b a, b = 1, 2, 3 \x7d") 1000 =
      .err "Count mismatch in assignment: 2 keys vs 3 values" none) ∧
    (parse (tokenize "a.b c") 1000 =
      .err "Expected assignment or method call after a.b" none) ∧
    (goodStream [⟨.identifier, "a", 99⟩, ⟨.eof, "", 1⟩] = true ∧
     parse [⟨.identifier, "a", 99⟩, ⟨.eof, "", 1⟩] 10 =
       .err "Unexpected token 'a' at line 99" (some 99) ∧
     (peekT [⟨.identifier, "a", 99⟩, ⟨.eof, "", 1⟩] 1).line = 1) := by
  refine ⟨by with_unfolding_all rfl, by with_unfolding_all rfl,
    by with_unfolding_all rfl, by with_unfolding_all rfl,
    by with_unfolding_all rfl⟩

/-- C4 (amended): on every stream of non-EOF tokens closed by one
    end-of-input token, parse with fuel 32·length+64 terminates — it
    never exhausts its fuel, so it returns a Program or an error — a
    returned Program consumed the input up to the EOF token (never a
    partial program), and an error that cites a line cites the line of
    one of the stream's tokens; when the stream's lines are
    nondecreasing (as in every tokenize output), any cited line is
    therefore at most the final token's line.  Two error sites cite no
    line (see the counterexample). -/
theorem c4_parse_total_and_cites_stream_lines (ts : List Token)
    (hg : goodStream ts = true) :
    (¬ parse ts (32 * ts.length + 64) = .out) ∧
    (∀ ast p', parse ts (32 * ts.length + 64) = .ok ast p' →
      (peekT ts p').ty = .eof) ∧
    (∀ m l x, parse ts (32 * ts.length + 64) = .err m l → l = some x →
      ∃ t ∈ ts, t.line = x) ∧
    (linesMono ts = true →
      ∀ m l x, parse ts (32 * ts.length + 64) = .err m l → l = some x →
        x ≤ (peekT ts (ts.length - 1)).line) := by
  have hlen := goodStream_len ts hg
  have hinv := (parserInv_all ts hg (32 * ts.length + 64)).prog 0 (by omega)
  obtain ⟨hout, hok, herr⟩ := hinv
  refine ⟨hout (by omega), ?_, ?_, ?_⟩
  · intro ast p' h
    exact parseProgram_ok_eof ts _ 0 ast p' h
  · intro m l x h hx
    exact herr m l x h hx
  · intro hmono m l x h hx
    obtain ⟨t, htmem, htline⟩ := herr m l x h hx
    rw [← htline]
    exact linesMono_le ts hmono t htmem

/-- C4 witness: the amended theorem applied to the tokenized source
    `a = 1`, a concrete well-formed stream. -/
theorem c4_parse_total_witness :
    goodStream (tokenize "a = 1") = true ∧
    ¬ parse (tokenize "a = 1")
        (32 * (tokenize "a = 1").length + 64) = .out :=
  ⟨by with_unfolding_all rfl,
    (c4_parse_total_and_cites_stream_lines (tokenize "a = 1")
      (by with_unfolding_all rfl)).1⟩

end Klang
